import Mathlib

/-!
Verification of the deepflow L7 protocol-parsing core (HTTP and MySQL
parsers) against its natural-language specification.

The Rust sources under `src/agent/src/flow_generator/protocol_logs/` are
shallowly embedded here: payloads are `List Nat` (byte values), fallible
Rust functions return `RRes ε α` (panic / typed error / value), and Rust
slice indexing is modelled partially (`Option`, `none` = out-of-bounds
panic).  External crates (hpack, flate2/zlib, wasm plugins) and repository
modules that are not part of the provided sources (config handlers, the
`consts` modules, `sql_check`, the comment parser) are modelled as abstract
total functions or, where the spec pins their behaviour, as definitions
whose doc comment starts with `Modelled from the spec:`.
-/

namespace DeepFlow

/-! ## Byte-level primitives -/

/-- A payload byte.  Real payload bytes are `u8`; we use `Nat` and apply
`% 256` exactly where the Rust code performs a `u8`/integer conversion. -/
abbrev Byte := Nat

/-- Truncation to `u8`, mirroring Rust `as u8` casts. -/
def b8 (x : Nat) : Nat := x % 256

/-- `utils::bytes::read_u16_le`.  Modelled from the spec: the byte-order
helpers live outside the provided sources; they read fixed-width
little-endian integers and panic when fewer bytes are available. -/
def readU16le : List Nat → Option Nat
  | a :: b :: _ => some (b8 a + 256 * b8 b)
  | _ => none

/-- `utils::bytes::read_u32_le` (see `readU16le`). -/
def readU32le : List Nat → Option Nat
  | a :: b :: c :: d :: _ =>
    some (b8 a + 256 * b8 b + 65536 * b8 c + 16777216 * b8 d)
  | _ => none

/-- `utils::bytes::read_u32_be` (see `readU16le`). -/
def readU32be : List Nat → Option Nat
  | a :: b :: c :: d :: _ =>
    some (b8 d + 256 * b8 c + 65536 * b8 b + 16777216 * b8 a)
  | _ => none

/-- `utils::bytes::read_u64_le` (see `readU16le`). -/
def readU64le : List Nat → Option Nat
  | a :: b :: c :: d :: e :: f :: g :: h :: _ =>
    some (b8 a + 256 * b8 b + 65536 * b8 c + 16777216 * b8 d
      + 4294967296 * b8 e + 1099511627776 * b8 f
      + 281474976710656 * b8 g + 72057594037927936 * b8 h)
  | _ => none

/-- Rust index expression `l[i]`: panics (`none`) when out of bounds. -/
def byteAt (l : List Nat) (i : Nat) : Option Nat := l.get? i

/-- Rust slice expression `&l[i..]`: panics when `i > l.len()`. -/
def sliceFrom (l : List Nat) (i : Nat) : Option (List Nat) :=
  if i ≤ l.length then some (l.drop i) else none

/-- Rust slice expression `&l[..j]`: panics when `j > l.len()`. -/
def sliceTo (l : List Nat) (j : Nat) : Option (List Nat) :=
  if j ≤ l.length then some (l.take j) else none

/-- Rust slice expression `&l[i..j]`. -/
def slice (l : List Nat) (i j : Nat) : Option (List Nat) :=
  if i ≤ j ∧ j ≤ l.length then some ((l.take j).drop i) else none

/-- ASCII bytes of a Lean string literal (used for Rust byte/str literals). -/
def bytesOfAscii (s : String) : List Nat := s.data.map Char.toNat

/-- Rust `u8::is_ascii_whitespace`: space, tab, LF, FF, CR. -/
def isAsciiWs (b : Nat) : Bool :=
  b == 32 || b == 9 || b == 10 || b == 12 || b == 13

/-- Rust `u8::is_ascii_digit`. -/
def isDigit (b : Nat) : Bool := 48 ≤ b && b ≤ 57

/-- Rust `<[u8]>::is_ascii` / `str::is_ascii`. -/
def isAscii (l : List Nat) : Bool := l.all (· < 128)

/-- Rust `str::to_ascii_lowercase` on UTF-8 bytes. -/
def toAsciiLower (l : List Nat) : List Nat :=
  l.map fun b => if 65 ≤ b ∧ b ≤ 90 then b + 32 else b

/-- Rust `str::trim` (we trim the ASCII whitespace bytes; multi-byte
Unicode whitespace is not produced by any input considered here). -/
def trimBytes (l : List Nat) : List Nat :=
  ((l.dropWhile isAsciiWs).reverse.dropWhile isAsciiWs).reverse

/-- Rust `str::trim_start` (same remark as `trimBytes`). -/
def trimStartBytes (l : List Nat) : List Nat := l.dropWhile isAsciiWs

/-- Digits of a decimal ASCII numeral folded into a `Nat`. -/
def digitsToNat (l : List Nat) : Nat := l.foldl (fun acc b => acc * 10 + (b - 48)) 0

/-- Rust `str::parse::<uN>` on UTF-8 bytes with maximum value `max`:
an optional leading `+`, then one or more ASCII digits, value within
range; anything else is a parse error. -/
def rustParseU (max : Nat) (l : List Nat) : Option Nat :=
  let l := match l with
    | 43 :: rest => rest
    | l => l
  if l ≠ [] ∧ l.all isDigit ∧ digitsToNat l ≤ max then some (digitsToNat l) else none

/-- nom `ParseTo` on a byte slice (`val.parse_to()`): UTF-8 decode then
`FromStr`; for unsigned integers this coincides with `rustParseU` because
any byte string accepted by the numeric grammar is valid ASCII. -/
def parseTo (max : Nat) (l : List Nat) : Option Nat := rustParseU max l

/-! ### UTF-8 validity (std `str::from_utf8`) -/

/-- DFA states for the UTF-8 validator: `start`, `cont k` (expect `k`
ordinary continuation bytes), and the four constrained second-byte states
after leading bytes `E0`, `ED`, `F0`, `F4`. -/
inductive U8St | start | cont (k : Nat) | e0 | ed | f0 | f4
  deriving Repr, DecidableEq

/-- One step of the UTF-8 validation DFA (RFC 3629 table). -/
def utf8Step (st : U8St) (b : Nat) : Option U8St :=
  match st with
  | .start =>
    if b < 0x80 then some .start
    else if b < 0xC2 then none
    else if b ≤ 0xDF then some (.cont 1)
    else if b = 0xE0 then some .e0
    else if b = 0xED then some .ed
    else if b ≤ 0xEF then some (.cont 2)
    else if b = 0xF0 then some .f0
    else if b ≤ 0xF3 then some (.cont 3)
    else if b = 0xF4 then some .f4
    else none
  | .cont 0 => none
  | .cont 1 => if 0x80 ≤ b ∧ b ≤ 0xBF then some .start else none
  | .cont (k + 1) => if 0x80 ≤ b ∧ b ≤ 0xBF then some (.cont k) else none
  | .e0 => if 0xA0 ≤ b ∧ b ≤ 0xBF then some (.cont 1) else none
  | .ed => if 0x80 ≤ b ∧ b ≤ 0x9F then some (.cont 1) else none
  | .f0 => if 0x90 ≤ b ∧ b ≤ 0xBF then some (.cont 2) else none
  | .f4 => if 0x80 ≤ b ∧ b ≤ 0x8F then some (.cont 2) else none

/-- Run the UTF-8 DFA; valid iff every byte steps and the run ends at a
character boundary. -/
def utf8Run (st : U8St) : List Nat → Bool
  | [] => st == .start
  | b :: r =>
    match utf8Step st b with
    | some st2 => utf8Run st2 r
    | none => false

/-- Rust `str::from_utf8(..).is_ok()`. -/
def isValidUtf8 (l : List Nat) : Bool := utf8Run .start l

/-- `Utf8Error::valid_up_to`: length of the longest prefix that is valid
UTF-8 (index of the first byte of the first invalid sequence). -/
def validUpToAux (st : U8St) (boundary pos : Nat) : List Nat → Nat
  | [] => boundary
  | b :: r =>
    match utf8Step st b with
    | some .start => validUpToAux .start (pos + 1) (pos + 1) r
    | some st2 => validUpToAux st2 boundary (pos + 1) r
    | none => boundary

/-- Rust `str::from_utf8` error position (see `validUpToAux`). -/
def validUpTo (l : List Nat) : Nat := validUpToAux .start 0 0 l

/-- Number of bytes of the valid UTF-8 scalar at the head of the list,
`none` if the head starts no valid scalar. -/
def utf8ScalarLen : List Nat → Option Nat
  | [] => none
  | b :: r =>
    if b < 0x80 then some 1
    else
      match r with
      | c :: r2 =>
        if (0xC2 ≤ b ∧ b ≤ 0xDF) ∧ (0x80 ≤ c ∧ c ≤ 0xBF) then some 2
        else match r2 with
          | d :: r3 =>
            if ((b = 0xE0 ∧ 0xA0 ≤ c ∧ c ≤ 0xBF) ∨ (b = 0xED ∧ 0x80 ≤ c ∧ c ≤ 0x9F)
                ∨ ((0xE1 ≤ b ∧ b ≤ 0xEF ∧ b ≠ 0xED) ∧ 0x80 ≤ c ∧ c ≤ 0xBF))
                ∧ (0x80 ≤ d ∧ d ≤ 0xBF) then
              some 3
            else match r3 with
              | e :: _ =>
                if ((b = 0xF0 ∧ 0x90 ≤ c ∧ c ≤ 0xBF) ∨ (b = 0xF4 ∧ 0x80 ≤ c ∧ c ≤ 0x8F)
                    ∨ ((0xF1 ≤ b ∧ b ≤ 0xF3) ∧ 0x80 ≤ c ∧ c ≤ 0xBF))
                    ∧ (0x80 ≤ d ∧ d ≤ 0xBF) ∧ (0x80 ≤ e ∧ e ≤ 0xBF) then
                  some 4
                else none
              | [] => none
          | [] => none
      | [] => none

/-- Fuel-indexed worker for `lossyUtf8`. -/
def lossyAux : Nat → List Nat → List Nat
  | 0, _ => []
  | _, [] => []
  | fuel + 1, b :: r =>
    match utf8ScalarLen (b :: r) with
    | some n => (b :: r).take n ++ lossyAux fuel ((b :: r).drop n)
    | none => 0xEF :: 0xBF :: 0xBD :: lossyAux fuel r

/-- `String::from_utf8_lossy` as bytes: valid scalars pass through; at an
invalid position the replacement character `EF BF BD` is emitted and one
byte is skipped (the std routine may skip up to three bytes of a single
invalid sequence; no property proved here depends on that difference). -/
def lossyUtf8 (l : List Nat) : List Nat := lossyAux l.length l

/-! ## Result monad: panic / typed error / value -/

/-- Outcome of embedded Rust code: `crash` models a panic or abort
(out-of-bounds index, failed `assert!`/`unwrap`), `err` a typed `Err`,
`ok` a normal return. -/
inductive RRes (ε : Type) (α : Type) where
  | crash
  | err (e : ε)
  | ok (a : α)
  deriving Repr, DecidableEq

namespace RRes

def bind {ε α β} : RRes ε α → (α → RRes ε β) → RRes ε β
  | .crash, _ => .crash
  | .err e, _ => .err e
  | .ok a, f => f a

instance {ε} : Monad (RRes ε) where
  pure := .ok
  bind := RRes.bind

/-- Lift a partial primitive (`none` = panic) into `RRes`. -/
def pc {ε α} : Option α → RRes ε α
  | some a => .ok a
  | none => .crash

def isCrash {ε α} : RRes ε α → Bool
  | .crash => true
  | _ => false

def isOk {ε α} : RRes ε α → Bool
  | .ok _ => true
  | _ => false

end RRes

@[simp] theorem RRes.bind_ok {ε α β} (a : α) (f : α → RRes ε β) :
    RRes.bind (.ok a) f = f a := rfl
@[simp] theorem RRes.bind_err {ε α β} (e : ε) (f : α → RRes ε β) :
    RRes.bind (.err e) f = .err e := rfl
@[simp] theorem RRes.bind_crash {ε α β} (f : α → RRes ε β) :
    RRes.bind (ε := ε) .crash f = .crash := rfl
@[simp] theorem RRes.pure_def {ε α} (a : α) : (pure a : RRes ε α) = .ok a := rfl
@[simp] theorem RRes.bind_def {ε α β} (x : RRes ε α) (f : α → RRes ε β) :
    x >>= f = RRes.bind x f := rfl

theorem RRes.err_ne_crash {ε α} (e : ε) : (RRes.err e : RRes ε α) ≠ .crash :=
  fun h => RRes.noConfusion h

theorem RRes.ok_ne_crash {ε α} (a : α) : (RRes.ok a : RRes ε α) ≠ .crash :=
  fun h => RRes.noConfusion h

theorem RRes.ite_ne_crash {ε α} (c : Prop) [Decidable c] {x y : RRes ε α}
    (hx : c → x ≠ .crash) (hy : ¬ c → y ≠ .crash) :
    (if c then x else y) ≠ .crash := by
  split
  · exact hx ‹_›
  · exact hy ‹_›

/-! ## Shared protocol-log types

The items in this section live in repository modules that are not part of
the provided sources (`protocol_logs/mod.rs`, `common/flow.rs`,
`common/l7_protocol_log.rs`, `config/handler.rs`); they are modelled from
the spec (sections 3, 6 and the data-model description). -/

/-- `common::flow::PacketDirection`. -/
inductive PacketDirection | c2s | s2c
  deriving Repr, DecidableEq

/-- `common::enums::IpProtocol` (only the variants the parsers inspect). -/
inductive IpProtocol | tcp | udp
  deriving Repr, DecidableEq

/-- `public::l7_protocol::L7Protocol` (from `crates/public/src/l7_protocol.rs`;
only the variants used by the HTTP and MySQL parsers are modelled). -/
inductive L7Protocol | unknown | http1 | http2 | grpc | mysql
  deriving Repr, DecidableEq

/-- Modelled from the spec: `LogMessageType` with `Other` meaning
"not yet classified" (the `Default`), plus the conversion from a packet
direction used by the parsers. -/
inductive LogMessageType | request | response | session | other
  deriving Repr, DecidableEq

instance : Inhabited LogMessageType := ⟨.other⟩

/-- `LogMessageType::from(PacketDirection)`. -/
def LogMessageType.ofDirection : PacketDirection → LogMessageType
  | .c2s => .request
  | .s2c => .response

/-- Modelled from the spec: `L7ResponseStatus` with the variants used in
the sources (`Ok`, `ClientError`, `ServerError`, `ParseFailed`, the
deprecated `Error`/`NotExist`/`Timeout`) and an unclassified default. -/
inductive L7ResponseStatus
  | ok | timeout | error | notExist | serverError | clientError | parseFailed | unknown
  deriving Repr, DecidableEq

instance : Inhabited L7ResponseStatus := ⟨.unknown⟩

/-- Modelled from the spec (section 6): the per-parser perf-stats
accumulator with its wire-stable counters. -/
structure L7PerfStats where
  requestCount : Nat := 0
  responseCount : Nat := 0
  errClientCount : Nat := 0
  errServerCount : Nat := 0
  errTimeout : Nat := 0
  rrtCount : Nat := 0
  rrtSum : Nat := 0
  rrtMax : Nat := 0
  deriving Repr, DecidableEq

namespace L7PerfStats
def incReq (s : L7PerfStats) : L7PerfStats := { s with requestCount := s.requestCount + 1 }
def incResp (s : L7PerfStats) : L7PerfStats := { s with responseCount := s.responseCount + 1 }
def incReqErr (s : L7PerfStats) : L7PerfStats :=
  { s with errClientCount := s.errClientCount + 1 }
def incRespErr (s : L7PerfStats) : L7PerfStats :=
  { s with errServerCount := s.errServerCount + 1 }
/-- Modelled from the spec: RRT folded into a (count, sum, max) aggregate. -/
def updateRrt (s : L7PerfStats) (rrt : Nat) : L7PerfStats :=
  { s with rrtCount := s.rrtCount + 1, rrtSum := s.rrtSum + rrt,
           rrtMax := max s.rrtMax rrt }
end L7PerfStats

/-- Apply `f` when the stats accumulator is present
(`self.perf_stats.as_mut().map(|p| ...)`). -/
def mapPerf (p : Option L7PerfStats) (f : L7PerfStats → L7PerfStats) :
    Option L7PerfStats :=
  p.map f

/-- Modelled from the spec: `PrioField<String>` — a value tagged with a
numeric source-precedence; the default carries the maximum priority number
`u8::MAX` and an empty value, so that any real source (smaller number)
can claim the field. -/
structure PrioField where
  prio : Nat := 255
  field : List Nat := []
  deriving Repr, DecidableEq

namespace PrioField
def new (prio : Nat) (field : List Nat) : PrioField := ⟨prio, field⟩
/-- `PrioField::is_default`: equality with `Default::default()`. -/
def isDefault (p : PrioField) : Bool := p.prio == 255 && p.field == []
def intoInner (p : PrioField) : List Nat := p.field
end PrioField

/-- `common::ebpf::EbpfType` (not in the provided sources); variants are
those the parsers branch on.  `rawPacket` stands for raw-capture types. -/
inductive EbpfType
  | rawPacket | tracePoint | goHttp2Uprobe | goHttp2UprobeData | unixSocket
  deriving Repr, DecidableEq

/-- Modelled from the spec: raw-capture ebpf types carry reassembled TCP
payload (as opposed to the uprobe custom format). -/
def EbpfType.isRawProtocol : EbpfType → Bool
  | .rawPacket | .tracePoint => true
  | _ => false

/-- Modelled from the spec: a configured trace/span header matcher
(`config::handler::TraceType`) — an abstract matcher `check` over header
keys and abstract id decoders. -/
structure TraceTy where
  check : List Nat → Bool
  decodeTraceId : List Nat → Option (List Nat)
  decodeSpanId : List Nat → Option (List Nat)

/-- Modelled from the spec: the dynamic log-parsing configuration
(`config::handler::L7LogDynamicConfig`) — ordered candidate lists for
trace/span/x-request-id/proxy-client headers, the gRPC streaming toggle
and the extra-attribute field names. -/
structure L7LogDynamicConfig where
  traceTypes : List TraceTy := []
  spanTypes : List TraceTy := []
  xRequestId : List (List Nat) := []
  proxyClient : List (List Nat) := []
  isTraceIdFn : List Nat → Bool := fun _ => false
  isSpanIdFn : List Nat → Bool := fun _ => false
  grpcStreamingDataEnabled : Bool := false
  extraHttpFields : List (List Nat) := []
  extraHttp2Fields : List (List Nat) := []

def L7LogDynamicConfig.isTraceId (c : L7LogDynamicConfig) (k : List Nat) : Bool :=
  c.isTraceIdFn k
def L7LogDynamicConfig.isSpanId (c : L7LogDynamicConfig) (k : List Nat) : Bool :=
  c.isSpanIdFn k

/-- Modelled from the spec: one protocol's blacklist match tree — four
abstract match predicates over resource / type / domain / endpoint. -/
structure BlacklistTrie where
  requestResource : List Nat → Bool := fun _ => false
  requestType : List Nat → Bool := fun _ => false
  requestDomain : List Nat → Bool := fun _ => false
  endpoint : List Nat → Bool := fun _ => false

/-- Modelled from the spec (section 4.9): one endpoint-normalization rule,
a URL prefix plus the number of path segments to keep. -/
structure EndpointRule where
  pfx : List Nat
  keepSegments : Nat
  deriving Repr, DecidableEq

/-- Modelled from the spec: `config::handler::LogParserConfig`, restricted
to the fields the two parsers read. -/
structure LogParserConfig where
  l7LogDynamic : L7LogDynamicConfig := {}
  httpEndpointDisabled : Bool := false
  endpointRules : List EndpointRule := []
  obfuscateEnabled : L7Protocol → Bool := fun _ => false
  blacklistOf : L7Protocol → Option BlacklistTrie := fun _ => none
  mysqlDecompressPayload : Bool := true

/-- Modelled from the spec: the default value of the MySQL decompression
toggle used when no config handle is supplied
(`LogParserConfig::default().mysql_decompress_payload`). -/
def defaultMysqlDecompressPayload : Bool := true

/-- Modelled from the spec (section 3 and `plugin::CustomInfo`): the
record a wasm/so plugin returns, merged into `HttpInfo` with plugin
priority. -/
structure CustomInfo where
  reqVersion : List Nat := []
  reqType : List Nat := []
  reqDomain : List Nat := []
  reqResource : List Nat := []
  reqEndpoint : List Nat := []
  requestId : Option Nat := none
  respCode : Option Int := none
  respStatus : L7ResponseStatus := default
  respResult : List Nat := []
  respException : List Nat := []
  traceId : Option (List Nat) := none
  spanId : Option (List Nat) := none
  xRequestId0 : Option (List Nat) := none
  xRequestId1 : Option (List Nat) := none
  httpProxyClient : Option (List Nat) := none
  attributes : List (List Nat × List Nat) := []

/-- Modelled from the spec: `common::l7_protocol_log::ParseParam` — the
per-invocation context.  RRT-cache lookups (`cal_rrt`) and the wasm hook
are external collaborators, modelled as pre-determined results carried by
the context. -/
structure ParseParam where
  l4Protocol : IpProtocol := .tcp
  direction : PacketDirection := .c2s
  ebpfType : EbpfType := .rawPacket
  isTls : Bool := false
  parsePerf : Bool := true
  parseLog : Bool := true
  parseConfig : Option LogParserConfig := none
  capturedByte : Nat := 0
  ebpfParam : Option (Bool × Bool) := none
  calRrt : Option (Nat × Option (List Nat)) := none
  calRrtMulti : Option (Nat × Option (List Nat)) := none
  wasmReq : Option CustomInfo := none
  wasmResp : Option CustomInfo := none

/-- `flow_generator::error::Error` (not in the provided sources): the
variants produced by the embedded code paths. -/
inductive FgError
  | httpHeaderParseFailed
  | noParseConfig
  | l7ProtocolUnknown
  | invalidIpProtocol
  | l7LogParseFailed
  deriving Repr, DecidableEq

namespace Mysql

/-! ## MySQL parser (`flow_generator/protocol_logs/sql/mysql.rs`)

Constants come from the `consts` module, which is not among the provided
sources; their values are modelled from the spec (section 4.8) and the
MySQL wire protocol it describes (4-byte packet header, 7-byte compression
header with the uncompressed length at offset 4, standard command codes
and OK/ERR/EOF packet layouts). -/

def HEADER_LEN : Nat := 4
def COMPRESS_HEADER_LEN : Nat := 7
def COMPRESS_HEADER_UNCOMPRESS_OFFSET : Nat := 4
def PROTOCOL_VERSION_LEN : Nat := 1
def PROTOCOL_VERSION_OFFSET : Nat := 0
def SERVER_VERSION_OFFSET : Nat := 1
def SERVER_VERSION_EOF : Nat := 0
def THREAD_ID_LEN : Nat := 4
def PROTOCOL_VERSION : Nat := 10
def COMMAND_OFFSET : Nat := 0
def COMMAND_LEN : Nat := 1
def COM_QUIT : Nat := 0x01
def COM_INIT_DB : Nat := 0x02
def COM_QUERY : Nat := 0x03
def COM_FIELD_LIST : Nat := 0x04
def COM_PING : Nat := 0x0e
def COM_STMT_PREPARE : Nat := 0x16
def COM_STMT_EXECUTE : Nat := 0x17
def COM_STMT_CLOSE : Nat := 0x19
def COM_STMT_FETCH : Nat := 0x1c
def RESPONSE_CODE_OFFSET : Nat := 0
def RESPONSE_CODE_LEN : Nat := 1
def ERROR_CODE_OFFSET : Nat := 1
def ERROR_CODE_LEN : Nat := 2
def AFFECTED_ROWS_OFFSET : Nat := 1
def SQL_STATE_OFFSET : Nat := 3
def SQL_STATE_LEN : Nat := 6
def SQL_STATE_MARKER : Nat := 0x23
def MYSQL_RESPONSE_CODE_OK : Nat := 0x00
def MYSQL_RESPONSE_CODE_ERR : Nat := 0xff
def MYSQL_RESPONSE_CODE_EOF : Nat := 0xfe
def INT_FLAGS_2 : Nat := 0xfc
def INT_FLAGS_3 : Nat := 0xfd
def INT_FLAGS_8 : Nat := 0xfe
def INT_BASE_LEN : Nat := 1
def STATEMENT_ID_LEN : Nat := 4
def STATEMENT_ID_OFFSET : Nat := 1
def EXECUTE_STATEMENT_PARAMS_OFFSET : Nat := 10
def PARAMETER_TYPE_LEN : Nat := 2
def CLIENT_CAPABILITIES_FLAGS_OFFSET : Nat := 0
def CLIENT_PROTOCOL_41 : Nat := 0x0200
def FILTER_OFFSET : Nat := 9
def FILTER_SIZE : Nat := 23
def LOGIN_USERNAME_OFFSET : Nat := 32

-- these three are defined in mysql.rs itself
def SERVER_STATUS_CODE_MIN : Nat := 1000
def CLIENT_STATUS_CODE_MIN : Nat := 2000
def CLIENT_STATUS_CODE_MAX : Nat := 2999

/-- External collaborators of the MySQL parser, modelled as abstract total
functions: the flate2 zlib decoder (the byte stream it can produce from
the compressed tail), `sql_check::is_mysql`, the SQL obfuscator, the
comment scanner (`comment_parser`, not in the provided sources) and the
per-wire-type bound-parameter decoder (`FieldType::decode` from the
`consts` module). -/
structure MExt where
  zlib : List Nat → List Nat := fun _ => []
  isMysql : List Nat → Bool := fun _ => false
  attemptObfuscation : Bool → List Nat → Option (List Nat) := fun _ _ => none
  comments : List Nat → List (List Nat) := fun _ => []
  fieldTypeDecode : Nat → List Nat → Option (Nat × List Nat) := fun _ _ => none

/-- `MysqlHeader` (mysql.rs): 24-bit little-endian length plus sequence id. -/
structure MysqlHeader where
  length : Nat := 0
  seqId : Nat := 0
  deriving Repr, DecidableEq

/-- `MysqlHeader::new`: asserts at least `HEADER_LEN` bytes (`none`
models the assertion failure), then splits the little-endian word. -/
def MysqlHeader.new (payload : List Nat) : Option MysqlHeader :=
  if payload.length ≥ HEADER_LEN then
    (readU32le payload).map fun v => ⟨v % 16777216, b8 (v / 16777216)⟩
  else none

/-- `TruncationType` (mysql.rs). -/
inductive TruncationType
  | packet | packetHeader | packetPayload (h : MysqlHeader)
  | compressedHeader | compressedPacket | compressedPacketHeader
  | compressedPacketPayload (h : MysqlHeader)
  | greeting | login | request | response
  deriving Repr, DecidableEq

/-- The mysql-local `Error` enum (mysql.rs). -/
inductive MError
  | noPacket
  | ignoredPacket (h : MysqlHeader)
  | truncated (t : TruncationType)
  | compressedPacketNotParsed
  | invalidSqlStatement
  | invalidLoginInfo
  | commandNotSupported (c : Nat)
  | invalidResponseErrorCode (c : Nat)
  | invalidResponseErrorMessage
  deriving Repr, DecidableEq

/-- `MysqlInfo` (mysql.rs). -/
structure MysqlInfo where
  msgType : LogMessageType := .other
  isTls : Bool := false
  protocolVersion : Nat := 0
  command : Nat := 0
  context : List Nat := []
  responseCode : Nat := 0
  errorCode : Option Int := none
  affectedRows : Nat := 0
  errorMessage : List Nat := []
  status : L7ResponseStatus := default
  rrt : Nat := 0
  statementId : Nat := 0
  capturedRequestByte : Nat := 0
  capturedResponseByte : Nat := 0
  traceId : Option (List Nat) := none
  spanId : Option (List Nat) := none
  isOnBlacklist : Bool := false
  deriving Repr, DecidableEq

/-- `MysqlInfo::session_id` (`L7ProtocolInfoInterface`). -/
def MysqlInfo.sessionId (_ : MysqlInfo) : Option Nat := none

/-- `MysqlInfo::skip_send`: all unmerged responses are skipped. -/
def MysqlInfo.skipSend (i : MysqlInfo) : Bool := i.msgType == .response

/-- `MysqlInfo::merge`; both records are mutated in the source
(`std::mem::swap` on `context`/`error_message`), so both results are
returned, the accumulating record first. -/
def MysqlInfo.merge (self other : MysqlInfo) : MysqlInfo × MysqlInfo :=
  let self := { self with
    protocolVersion := if self.protocolVersion = 0 then other.protocolVersion
      else self.protocolVersion
    isOnBlacklist := if other.isOnBlacklist then other.isOnBlacklist
      else self.isOnBlacklist }
  match other.msgType with
  | .request =>
    ({ self with
        command := other.command
        context := other.context
        capturedRequestByte := other.capturedRequestByte },
     { other with context := self.context })
  | .response =>
    ({ self with
        responseCode := other.responseCode
        affectedRows := other.affectedRows
        errorMessage := other.errorMessage
        status := other.status
        errorCode := if self.errorCode = none then other.errorCode
          else self.errorCode
        statementId := if self.command = COM_STMT_PREPARE
            ∧ other.statementId > 0 then other.statementId
          else 0
        capturedResponseByte := other.capturedResponseByte },
     { other with errorMessage := self.errorMessage })
  | _ => (self, other)

/-- `MysqlInfo::get_command_str`. -/
def MysqlInfo.getCommandStr (i : MysqlInfo) : List Nat :=
  let command : List String :=
    ["", "COM_QUIT", "COM_INIT_DB", "COM_QUERY", "COM_FIELD_LIST",
     "COM_CREATE_DB", "COM_DROP_DB", "COM_REFRESH", "COM_SHUTDOWN",
     "COM_STATISTICS", "COM_PROCESS_INFO", "COM_CONNECT", "COM_PROCESS_KILL",
     "COM_DEBUG", "COM_PING", "COM_TIME", "COM_DELAYED_INSERT",
     "COM_CHANGE_USER", "COM_BINLOG_DUMP", "COM_TABLE_DUMP", "COM_CONNECT_OUT",
     "COM_REGISTER_SLAVE", "COM_STMT_PREPARE", "COM_STMT_EXECUTE",
     "COM_STMT_SEND_LONG_DATA", "COM_STMT_CLOSE", "COM_STMT_RESET",
     "COM_SET_OPTION", "COM_STMT_FETCH", "COM_DAEMON", "COM_BINLOG_DUMP_GTID",
     "COM_RESET_CONNECTION"]
  if i.command ≤ 0x1f then bytesOfAscii ((command.get? i.command).getD "")
  else []

/-- `MysqlInfo::statement_id`. -/
def MysqlInfo.setStatementId (i : MysqlInfo) (payload : List Nat) :
    Option MysqlInfo :=
  if payload.length ≥ STATEMENT_ID_LEN then
    (readU32le payload).map fun v => { i with statementId := v }
  else some i

/-- `MysqlInfo::set_is_on_blacklist`. -/
def MysqlInfo.setIsOnBlacklist (i : MysqlInfo) (config : LogParserConfig) :
    MysqlInfo :=
  match config.blacklistOf .mysql with
  | some t =>
    { i with isOnBlacklist :=
        t.requestResource i.context || t.requestType i.getCommandStr }
  | none => i

/-- `mysql_string` (mysql.rs): strips the spurious `00 01` pair some
server versions send in front of strings.  The `[2..]` slice is in bounds
because the guard requires more than two bytes. -/
def mysqlString (payload : List Nat) : List Nat :=
  match payload with
  | 0 :: 1 :: rest => if rest.length > 0 then rest else payload
  | _ => payload

/-! ### SQL `?`-placeholder counter (`ParameterCounter`) -/

/-- `SqlState` (mysql.rs). -/
inductive SqlState
  | nothing | equal | less | greater
  | in1 | in2 | in3
  | values1 | values2 | values3 | values4 | values5 | values6 | values7
  | like1 | like2 | like3 | like4
  | valuesPause
  deriving Repr, DecidableEq

/-- One byte of `ParameterCounter::set`; the Rust `match` arms are tried
in order, so this is an ordered conditional chain. -/
def sqlStep (st : SqlState) (c : Nat) (b : Nat) : Nat × SqlState :=
  if b = 61 then (c, .equal)
  else if b = 63 ∧ st = .equal then (c + 1, .nothing)
  else if b = 62 ∧ st = .nothing then (c, .greater)
  else if b = 63 ∧ st = .greater then (c + 1, .nothing)
  else if st = .greater then (c, .nothing)
  else if b = 60 ∧ st = .nothing then (c, .less)
  else if b = 62 ∧ st = .less then (c, .greater)
  else if b = 63 ∧ st = .less then (c + 1, .nothing)
  else if st = .less then (c, .nothing)
  else if b = 73 ∧ st = .nothing then (c, .in1)
  else if b = 78 ∧ st = .in1 then (c, .in2)
  else if b = 40 ∧ st = .in2 then (c, .in3)
  else if b = 44 ∧ st = .in3 then (c, st)
  else if b = 63 ∧ st = .in3 then (c + 1, st)
  else if b = 41 ∧ st = .in3 then (c, .nothing)
  else if b = 86 ∧ st = .nothing then (c, .values1)
  else if b = 65 ∧ st = .values1 then (c, .values2)
  else if b = 76 ∧ st = .values2 then (c, .values3)
  else if b = 85 ∧ st = .values3 then (c, .values4)
  else if b = 69 ∧ st = .values4 then (c, .values5)
  else if b = 83 ∧ st = .values5 then (c, .values6)
  else if (b = 32 ∨ b = 44) ∧ st = .values6 then (c, st)
  else if b = 40 ∧ st = .values6 then (c, .values7)
  else if b = 63 ∧ st = .values7 then (c + 1, .valuesPause)
  else if st = .values7 then (c, st)
  else if b = 41 ∧ st = .valuesPause then (c, .values6)
  else if b = 63 ∧ st = .valuesPause then (c, st)
  else if b = 44 ∧ st = .valuesPause then (c, .values7)
  else if b = 76 ∧ st = .nothing then (c, .like1)
  else if b = 73 ∧ st = .like1 then (c, .like2)
  else if b = 75 ∧ st = .like2 then (c, .like3)
  else if b = 69 ∧ st = .like3 then (c, .like4)
  else if b = 63 ∧ st = .like4 then (c + 1, .nothing)
  else if b = 32 then (c, st)
  else (c, .nothing)

/-- `ParameterCounter::set`: count `?` placeholders in a SQL text. -/
def pcSet (sql : List Nat) : Nat :=
  (sql.foldl (fun p b => sqlStep p.2 p.1 b) (0, SqlState.nothing)).1

/-- First loop of `ParameterCounter::get`: advance past the first `0x01`
byte (or to the end of the payload). -/
def pcScanOffset (payload : List Nat) : Nat :=
  match payload.findIdx? (· = 1) with
  | some i => i + 1
  | none => payload.length

/-- Second loop of `ParameterCounter::get`: collect `count` parameter
(type, flag) byte pairs; the inner `none` models the early `return;`
taken when fewer bytes remain, the outer `none` a panic. -/
def pcCollect (payload : List Nat) :
    Nat → Nat → Option (Option (List (Nat × Nat) × Nat))
  | 0, offset => some (some ([], offset))
  | k + 1, offset =>
    if offset + PARAMETER_TYPE_LEN > payload.length then some none
    else
      match byteAt payload offset, byteAt payload (offset + 1) with
      | some a, some b =>
        (pcCollect payload k (offset + 2)).map
          (Option.map fun pr => ((a, b) :: pr.1, pr.2))
      | _, _ => none

/-- Third loop of `ParameterCounter::get`: decode each bound parameter via
the abstract `FieldType::decode`, joining the decoded texts with
`" , "`. -/
def pcDecodeLoop (ext : MExt) (payload : List Nat) (total : Nat) :
    List (Nat × (Nat × Nat)) → Nat → List Nat → List Nat
  | [], _, context => context
  | (i, (ft, _)) :: rest, offset, context =>
    if offset > payload.length then context
    else
      match ext.fieldTypeDecode ft (payload.drop offset) with
      | some (length, text) =>
        let context := context ++ text
        let context := if i ≠ total - 1 then context ++ bytesOfAscii " , " else context
        pcDecodeLoop ext payload total rest (offset + length) context
      | none => pcDecodeLoop ext payload total rest offset context

/-- `ParameterCounter::get` (`none` = panic, proved unreachable). -/
def pcGet (ext : MExt) (pcVal : Nat) (payload : List Nat) (info : MysqlInfo) :
    Option MysqlInfo :=
  if pcVal = 0 then some info
  else
    let offset := pcScanOffset payload
    match pcCollect payload pcVal offset with
    | none => none
    | some none => some info
    | some (some (params, offset)) =>
      let context :=
        pcDecodeLoop ext payload params.length (params.enum) offset []
      some { info with context := context }

/-! ### Comment key/value scanner (`KvExtractor`)

`KvExtractor` iterates over `split_inclusive` segments of a comment.  It
is modelled on bytes: every separator the Rust closure matches is a single
ASCII byte, so the byte-level `split_inclusive`, the final byte of a
segment and `split_at(last)` coincide with the char-level originals
(a trailing multi-byte character matches no separator and takes the same
default branch either way). -/

/-- The Rust split closure: ASCII whitespace or `:` `=` `,`. -/
def isKvSep (b : Nat) : Bool := isAsciiWs b || b == 58 || b == 61 || b == 44

/-- `str::split_inclusive` on bytes: segments end just after a matching
byte; a final segment without separator is kept; empty input gives no
segments. -/
def splitInclusive (p : Nat → Bool) : List Nat → List (List Nat)
  | [] => []
  | b :: r =>
    if p b then [b] :: splitInclusive p r
    else
      match splitInclusive p r with
      | [] => [[b]]
      | s :: ss => (b :: s) :: ss

/-- `Token` (mysql.rs). -/
inductive Token | key | separator | value
  deriving Repr, DecidableEq

/-- Iterator state of `KvExtractor`: the remaining segments and the
pushed-back segment. -/
structure KvSt where
  segs : List (List Nat)
  lastSeg : Option (List Nat) := none
  deriving Repr, DecidableEq

def KvSt.measure (st : KvSt) : Nat :=
  st.segs.length + (if st.lastSeg.isSome then 1 else 0)

/-- `KvExtractor::new`. -/
def KvSt.new (s : List Nat) : KvSt := ⟨splitInclusive isKvSep s, none⟩

/-- The loop body of `KvExtractor::next`.  The outer `Option` is the
panic layer (failed `unwrap`/`assert!` on `last_key`, or fuel exhaustion,
both proved unreachable); the inner `Option` is the iterator protocol
(`none` = exhausted). -/
def kvNextLoop :
    Nat → List (List Nat) → Option (List Nat) → Token → Option (List Nat) →
    Option (Option ((List Nat × List Nat) × KvSt))
  | 0, _, _, _, _ => none
  | fuel + 1, segs, lastSeg, nextToken, lastKey =>
    let step : Option (List Nat × List (List Nat)) :=
      match lastSeg with
      | some s => some (s, segs)
      | none =>
        match segs with
        | s :: rest => some (s, rest)
        | [] => none
    match step with
    | none => some none
    | some (seg, segs) =>
      if hseg : seg = [] then kvNextLoop fuel segs none nextToken lastKey
      else
        let sep := seg.getLast hseg
        let exp := seg.dropLast
        if sep = 44 then
          if exp ≠ [] ∧ nextToken = .value then
            match lastKey with
            | some k => some (some ((k, trimBytes exp), ⟨segs, none⟩))
            | none => none
          else kvNextLoop fuel segs none .key lastKey
        else if sep = 58 ∨ sep = 61 then
          if exp ≠ [] then
            if nextToken = .value then
              match lastKey with
              | some k => some (some ((k, trimBytes exp), ⟨segs, some seg⟩))
              | none => none
            else kvNextLoop fuel segs none .value (some (trimBytes exp))
          else if nextToken = .separator then
            if lastKey.isSome then kvNextLoop fuel segs none .value lastKey
            else none
          else kvNextLoop fuel segs none .key lastKey
        else
          if exp = [] then kvNextLoop fuel segs none nextToken lastKey
          else
            let exp := if ¬ isAsciiWs sep then seg else exp
            match nextToken with
            | .value =>
              match lastKey with
              | some k => some (some ((k, trimBytes exp), ⟨segs, some seg⟩))
              | none => none
            | _ => kvNextLoop fuel segs none .separator (some (trimBytes exp))

/-- `KvExtractor::next` (locals `next_token`/`last_key` restart at
`Key`/`None` on every call). -/
def kvNext (st : KvSt) : Option (Option ((List Nat × List Nat) × KvSt)) :=
  kvNextLoop (st.measure + 1) st.segs st.lastSeg .key none

/-! ### Trace/span extraction from SQL comments -/

/-- Inner `for tt in trace_types` loop of `extract_trace_and_span_id`:
the first matching type assigns (possibly `none`) and breaks. -/
def applyTraceTypes (tts : List TraceTy)
    (dec : TraceTy → List Nat → Option (List Nat))
    (key value : List Nat) (cur : Option (List Nat)) : Option (List Nat) :=
  match tts with
  | [] => cur
  | tt :: rest =>
    if tt.check key then dec tt value else applyTraceTypes rest dec key value cur

/-- The `'outer` break condition of `extract_trace_and_span_id`. -/
def kvBreakCond (config : L7LogDynamicConfig)
    (tid sid : Option (List Nat)) : Bool :=
  (tid.isSome && config.spanTypes.isEmpty)
    || (sid.isSome && config.traceTypes.isEmpty)
    || (tid.isSome && sid.isSome)

/-- Key/value scan of one comment; returns the updated ids and whether the
`'outer` loop was broken (`none` = panic, proved unreachable). -/
def kvScan (config : L7LogDynamicConfig) :
    Nat → KvSt → Option (List Nat) → Option (List Nat) →
    Option (Option (List Nat) × Option (List Nat) × Bool)
  | 0, _, _, _ => none
  | fuel + 1, st, tid, sid =>
    match kvNext st with
    | none => none
    | some none => some (tid, sid, false)
    | some (some ((key, value), st')) =>
      let tid := applyTraceTypes config.traceTypes
        (fun tt v => tt.decodeTraceId v) key value tid
      let sid := applyTraceTypes config.spanTypes
        (fun tt v => tt.decodeSpanId v) key value sid
      if kvBreakCond config tid sid then some (tid, sid, true)
      else kvScan config fuel st' tid sid

/-- The `'outer` loop over comments. -/
def commentScan (config : L7LogDynamicConfig) :
    List (List Nat) → Option (List Nat) → Option (List Nat) →
    Option (Option (List Nat) × Option (List Nat))
  | [], tid, sid => some (tid, sid)
  | comment :: rest, tid, sid =>
    let st := KvSt.new comment
    match kvScan config (st.measure + 1) st tid sid with
    | none => none
    | some (tid, sid, broke) =>
      if broke then some (tid, sid) else commentScan config rest tid sid

/-- `MysqlInfo::extract_trace_and_span_id` (`none` = panic, proved
unreachable). -/
def MysqlInfo.extractTraceAndSpanId (ext : MExt) (config : L7LogDynamicConfig)
    (info : MysqlInfo) (sql : List Nat) : Option MysqlInfo :=
  if config.traceTypes.isEmpty ∧ config.spanTypes.isEmpty then some info
  else
    (commentScan config (ext.comments sql) info.traceId info.spanId).map
      fun pr => { info with traceId := pr.1, spanId := pr.2 }

/-- `MysqlInfo::request_string`. -/
def MysqlInfo.requestString (ext : MExt) (config : Option LogParserConfig)
    (info : MysqlInfo) (payload : List Nat) (obfuscateCache : Bool) :
    RRes MError MysqlInfo := do
  let payload := mysqlString payload
  if (info.command = COM_QUERY ∨ info.command = COM_STMT_PREPARE)
      ∧ ¬ ext.isMysql payload then
    .err .invalidSqlStatement
  else if ¬ isValidUtf8 payload then .err .invalidSqlStatement
  else do
    let info ←
      match config with
      | some c =>
        RRes.pc (info.extractTraceAndSpanId ext c.l7LogDynamic payload)
      | none => pure info
    let context :=
      match ext.attemptObfuscation obfuscateCache payload with
      | some m => m.take (validUpTo m)
      | none => lossyUtf8 payload
    .ok { info with context := context }

/-! ### `PayloadParser`: packet cursor with optional zlib decompression -/

/-- The state of `PayloadParser`: the remaining uncompressed payload
cursor, or the remaining decompressed byte stream when a zlib decoder is
attached. -/
structure PPSt where
  payload : List Nat
  decoder : Option (List Nat) := none
  deriving Repr, DecidableEq

/-- Bytes left to consume (termination measure for packet loops). -/
def PPSt.size (st : PPSt) : Nat :=
  match st.decoder with
  | some stream => st.payload.length + stream.length
  | none => st.payload.length

/-- Loop of `PayloadParser::is_compressed`: walk whole uncompressed
packets; succeeding exactly at the end means "not compressed". -/
def isCompressedLoop (payload : List Nat) :
    Nat → Nat → RRes MError Bool
  | 0, _ => .crash
  | fuel + 1, offset =>
    if offset + HEADER_LEN < payload.length then do
      let s ← RRes.pc (sliceFrom payload offset)
      let header ← RRes.pc (MysqlHeader.new s)
      if offset + HEADER_LEN + header.length > payload.length then
        .err (.truncated (.packetPayload header))
      else
        let offset := offset + HEADER_LEN + header.length
        if offset = payload.length then .ok false
        else isCompressedLoop payload fuel offset
    else .err (.truncated .packetHeader)

/-- `PayloadParser::is_compressed`. -/
def PayloadParser.isCompressed (payload : List Nat) : RRes MError Bool := do
  let headOk ←
    if payload.length ≥ COMPRESS_HEADER_LEN then do
      let w ← RRes.pc (readU32le payload)
      let compressedLen := w % 16777216
      let s ← RRes.pc (sliceFrom payload COMPRESS_HEADER_UNCOMPRESS_OFFSET)
      let lo ← RRes.pc (readU16le s)
      let hi ← RRes.pc (byteAt payload (COMPRESS_HEADER_UNCOMPRESS_OFFSET + 2))
      let uncompressedLen := lo + 65536 * b8 hi
      pure (decide ((uncompressedLen = 0 ∨ uncompressedLen ≥ compressedLen)
        ∧ COMPRESS_HEADER_LEN + compressedLen = payload.length))
    else pure false
  if headOk then .ok true
  else isCompressedLoop payload (payload.length + 1) 0

/-- `PayloadParser::new`. -/
def PayloadParser.new (ext : MExt) (decompress hasCompressedHeader : Bool)
    (payload : List Nat) : RRes MError PPSt := do
  let compressed ←
    if hasCompressedHeader then
      if payload.length < COMPRESS_HEADER_LEN then
        .err (.truncated .compressedHeader)
      else do
        let s ← RRes.pc (sliceFrom payload COMPRESS_HEADER_UNCOMPRESS_OFFSET)
        let lo ← RRes.pc (readU16le s)
        let hi ← RRes.pc (byteAt payload (COMPRESS_HEADER_UNCOMPRESS_OFFSET + 2))
        pure (decide (lo + 65536 * b8 hi ≠ 0))
    else pure false
  if compressed then
    if ¬ decompress then .err .compressedPacketNotParsed
    else do
      let tail ← RRes.pc (sliceFrom payload COMPRESS_HEADER_LEN)
      .ok { payload := payload, decoder := some (ext.zlib tail) }
  else
    if hasCompressedHeader then do
      let tail ← RRes.pc (sliceFrom payload COMPRESS_HEADER_LEN)
      .ok { payload := tail, decoder := none }
    else .ok { payload := payload, decoder := none }

/-- `PayloadParser::try_next`.  In the decoder branch `read_exact` pulls
the 4 header bytes off the decompressed stream (failing on a short
stream) and `fill_buffer` then reads at most `header.length` bytes. -/
def PPSt.tryNext (st : PPSt) :
    RRes MError (PPSt × Option (MysqlHeader × List Nat)) :=
  match st.decoder with
  | some stream =>
    if stream.length < HEADER_LEN then
      .err (.truncated .compressedPacketHeader)
    else
      match MysqlHeader.new (stream.take HEADER_LEN) with
      | none => .crash
      | some header =>
        let rest := stream.drop HEADER_LEN
        let buffer := rest.take header.length
        .ok ({ st with decoder := some (rest.drop header.length) },
             some (header, buffer))
  | none =>
    if st.payload.length < HEADER_LEN then
      -- the source also empties `self.payload` before erroring; the
      -- error discards the parser, so the state is not observable
      .err (.truncated .packetHeader)
    else
      match MysqlHeader.new (st.payload.take HEADER_LEN) with
      | none => .crash
      | some header =>
        let endOfFrame := min st.payload.length (HEADER_LEN + header.length)
        let frame := (st.payload.take endOfFrame).drop HEADER_LEN
        .ok ({ st with payload := st.payload.drop endOfFrame },
             some (header, frame))

/-! ### `MysqlLog` -/

/-- Per-connection parser state (`MysqlLog`). -/
structure MysqlLogSt where
  protocolVersion : Nat := 0
  perfStats : Option L7PerfStats := none
  obfuscateCache : Bool := false
  pc : Nat := 0
  hasRequest : Bool := false
  hasLogin : Bool := false
  lastIsOnBlacklist : Bool := false
  hasCompressedHeader : Option Bool := none
  deriving Repr, DecidableEq

/-- `MysqlLog::is_greeting`.  The `[SERVER_VERSION_OFFSET..]` slice is in
bounds because `byteAt .. 0` matched `some`. -/
def isGreeting (payload : List Nat) : Bool :=
  match byteAt payload PROTOCOL_VERSION_OFFSET with
  | some b =>
    if b = 0x09 ∨ b = 0x0a then
      let p2 := payload.drop SERVER_VERSION_OFFSET
      if p2.length ≤ 1 then false
      else
        match p2.findIdx? (· = SERVER_VERSION_EOF) with
        | none => false
        | some eos => (p2.take eos).all fun x => x == 46 || isDigit x
    else false
  | none => false

/-- `MysqlLog::greeting`.  `remain` bookkeeping mirrors the `usize`
subtractions, which cannot underflow: the found NUL position is at most
`len - 2` within the dropped-by-one slice. -/
def greeting (payload : List Nat) (info : MysqlInfo) :
    RRes MError (Nat × MysqlInfo) :=
  if payload.length < PROTOCOL_VERSION_LEN then .err (.truncated .greeting)
  else do
    let protocolVersion ← RRes.pc (byteAt payload PROTOCOL_VERSION_OFFSET)
    let serverVersionPos :=
      ((payload.drop SERVER_VERSION_OFFSET).findIdx? (· = SERVER_VERSION_EOF)).getD 0
    if serverVersionPos ≤ 0 then .err (.truncated .greeting)
    else if payload.length - PROTOCOL_VERSION_LEN - serverVersionPos
        < THREAD_ID_LEN + 1 then
      .err (.truncated .greeting)
    else .ok (protocolVersion, { info with status := .ok })

/-- `MysqlLog::string_null` worker: ASCII bytes up to the first NUL;
`none` on a non-ASCII byte before it. -/
def stringNullAux : List Nat → Option (List Nat)
  | [] => some []
  | b :: r =>
    if b ≥ 128 then none
    else if b = 0 then some []
    else (stringNullAux r).map (b :: ·)

/-- `MysqlLog::string_null`. -/
def stringNull (payload : List Nat) : Option (List Nat) :=
  match stringNullAux payload with
  | none => none
  | some [] => none
  | some l => some l

/-- `MysqlLog::login`. -/
def login (payload : List Nat) (info : MysqlInfo) : RRes MError MysqlInfo :=
  if payload.length < LOGIN_USERNAME_OFFSET then .err (.truncated .login)
  else do
    let s ← RRes.pc (sliceFrom payload CLIENT_CAPABILITIES_FLAGS_OFFSET)
    let flags ← RRes.pc (readU16le s)
    if flags &&& CLIENT_PROTOCOL_41 ≠ CLIENT_PROTOCOL_41 then
      .err .invalidLoginInfo
    else do
      let filter ← RRes.pc (slice payload FILTER_OFFSET (FILTER_OFFSET + FILTER_SIZE))
      if ¬ filter.all (· = 0) then .err .invalidLoginInfo
      else do
        let uname ← RRes.pc (sliceFrom payload LOGIN_USERNAME_OFFSET)
        match stringNull uname with
        | some context =>
          if isAscii context then
            .ok { info with
              context := bytesOfAscii "Login username: " ++ context,
              status := .ok }
          else .err .invalidLoginInfo
        | none => .err .invalidLoginInfo

/-- `MysqlLog::decode_compress_int`. -/
def decodeCompressInt (payload : List Nat) : Option Nat :=
  match payload with
  | [] => some 0
  | value :: _ =>
    let remain := payload.length
    if value = INT_FLAGS_2 ∧ remain > INT_BASE_LEN + 2 then do
      let s ← sliceFrom payload INT_BASE_LEN
      readU16le s
    else if value = INT_FLAGS_3 ∧ remain > INT_BASE_LEN + 3 then do
      let s ← sliceFrom payload INT_BASE_LEN
      let lo ← readU16le s
      let hi ← byteAt payload (INT_BASE_LEN + 2)
      some (lo + 65536 * b8 hi)
    else if value = INT_FLAGS_8 ∧ remain > INT_BASE_LEN + 8 then do
      let s ← sliceFrom payload INT_BASE_LEN
      readU64le s
    else some value

/-- `MysqlLog::set_status`. -/
def setStatus (statusCode : Nat) (info : MysqlInfo) : MysqlInfo :=
  if statusCode ≠ 0 then
    if CLIENT_STATUS_CODE_MIN ≤ statusCode ∧ statusCode ≤ CLIENT_STATUS_CODE_MAX then
      { info with status := .clientError }
    else { info with status := .serverError }
  else { info with status := .ok }

/-- `MysqlLog::response`. -/
def response (payload : List Nat) (info : MysqlInfo) : RRes MError MysqlInfo :=
  if payload.length < RESPONSE_CODE_LEN then .err (.truncated .response)
  else do
    let code ← RRes.pc (byteAt payload RESPONSE_CODE_OFFSET)
    let info := { info with responseCode := code }
    let remain := payload.length - RESPONSE_CODE_LEN
    if code = MYSQL_RESPONSE_CODE_ERR then do
      let (info, remain) ←
        if remain > ERROR_CODE_LEN then do
          let s ← RRes.pc (sliceFrom payload ERROR_CODE_OFFSET)
          let ec ← RRes.pc (readU16le s)
          if ec < SERVER_STATUS_CODE_MIN ∨ ec > CLIENT_STATUS_CODE_MAX then
            .err (.invalidResponseErrorCode ec)
          else
            pure (setStatus ec { info with errorCode := some (ec : Int) },
              remain - ERROR_CODE_LEN)
        else pure (info, remain)
      let errorMessageOffset ←
        if remain > SQL_STATE_LEN then do
          let marker ← RRes.pc (byteAt payload SQL_STATE_OFFSET)
          pure (if marker = SQL_STATE_MARKER then SQL_STATE_OFFSET + SQL_STATE_LEN
            else SQL_STATE_OFFSET)
        else pure SQL_STATE_OFFSET
      if errorMessageOffset < payload.length then do
        let s ← RRes.pc (sliceFrom payload errorMessageOffset)
        let context := mysqlString s
        if ¬ isAscii context then .err .invalidResponseErrorMessage
        else .ok { info with errorMessage := lossyUtf8 context }
      else .ok info
    else if code = MYSQL_RESPONSE_CODE_EOF then
      .ok { info with status := .ok }
    else if code = MYSQL_RESPONSE_CODE_OK then do
      let info := { info with status := .ok }
      let s ← RRes.pc (sliceFrom payload AFFECTED_ROWS_OFFSET)
      let rows ← RRes.pc (decodeCompressInt s)
      let info := { info with affectedRows := rows }
      let s2 ← RRes.pc (sliceFrom payload STATEMENT_ID_OFFSET)
      let info ← RRes.pc (info.setStatementId s2)
      .ok info
    else .ok info

/-- `MysqlLog::request`; returns the message type and the updated
placeholder counter (`self.pc`) along with the info record. -/
def request (ext : MExt) (config : Option LogParserConfig)
    (payload : List Nat) (pcVal : Nat) (info : MysqlInfo)
    (obfuscateCache : Bool) :
    RRes MError (LogMessageType × Nat × MysqlInfo) :=
  if payload.length < COMMAND_LEN then .err (.truncated .request)
  else do
    let cmd ← RRes.pc (byteAt payload COMMAND_OFFSET)
    let info := { info with command := cmd }
    if cmd = COM_QUIT ∨ cmd = COM_STMT_CLOSE then
      .ok (.session, pcVal, { info with status := .ok })
    else if cmd = COM_FIELD_LIST ∨ cmd = COM_STMT_FETCH then
      .ok (.request, pcVal, info)
    else if cmd = COM_INIT_DB ∨ cmd = COM_QUERY then do
      let s ← RRes.pc (sliceFrom payload (COMMAND_OFFSET + COMMAND_LEN))
      let info ← info.requestString ext config s obfuscateCache
      .ok (.request, pcVal, info)
    else if cmd = COM_STMT_PREPARE then do
      let s ← RRes.pc (sliceFrom payload (COMMAND_OFFSET + COMMAND_LEN))
      let info ← info.requestString ext config s obfuscateCache
      let pcVal :=
        match config with
        | some c => if ¬ c.obfuscateEnabled .mysql then pcSet info.context else pcVal
        | none => pcVal
      .ok (.request, pcVal, info)
    else if cmd = COM_STMT_EXECUTE then do
      let s ← RRes.pc (sliceFrom payload STATEMENT_ID_OFFSET)
      let info ← RRes.pc (info.setStatementId s)
      let info ←
        if payload.length > EXECUTE_STATEMENT_PARAMS_OFFSET then do
          let s2 ← RRes.pc (sliceFrom payload EXECUTE_STATEMENT_PARAMS_OFFSET)
          RRes.pc (pcGet ext pcVal s2 info)
        else pure info
      .ok (.request, 0, info)
    else if cmd = COM_PING then .ok (.request, pcVal, info)
    else .err (.commandNotSupported cmd)

/-- `MysqlLog::is_interested_response`. -/
def isInterestedResponse (code : Nat) : Bool :=
  code == MYSQL_RESPONSE_CODE_OK || code == MYSQL_RESPONSE_CODE_ERR
    || code == MYSQL_RESPONSE_CODE_EOF

/-- `MysqlLog::infer_message_type`.  The unreachable `none` branches after
a satisfied length guard return `none` like the guard itself. -/
def inferMessageType (direction : PacketDirection) (header : MysqlHeader)
    (payload : List Nat) : Option LogMessageType :=
  if header.length = 0 then none
  else
    match direction with
    | .s2c =>
      if header.seqId = 0 ∧ isGreeting payload then
        if payload.length < PROTOCOL_VERSION_LEN then none
        else
          match byteAt payload PROTOCOL_VERSION_OFFSET with
          | none => none
          | some protocolVersion =>
            match (payload.drop SERVER_VERSION_OFFSET).findIdx?
                (· = SERVER_VERSION_EOF) with
            | none => none
            | some index =>
              if index ≠ 0 ∧ protocolVersion = PROTOCOL_VERSION then
                some .other
              else none
      else some .response
    | .c2s => if header.seqId ≤ 1 then some .request else none

/-- The response-direction packet loop of `MysqlLog::parse`: skip frames
until a greeting or an interesting response code. -/
def serverLoop : Nat → PPSt → RRes MError (PPSt × MysqlHeader × List Nat)
  | 0, _ => .crash
  | fuel + 1, st =>
    match st.tryNext with
    | .crash => .crash
    | .err e => .err e
    | .ok (_, none) => .err (.truncated .packet)
    | .ok (st', some (h, p)) =>
      if h.length = 0 then serverLoop fuel st'
      else if (h.seqId = 0 ∧ isGreeting p)
          ∨ ((byteAt p RESPONSE_CODE_OFFSET).map isInterestedResponse).getD false then
        .ok (st', h, p)
      else serverLoop fuel st'

/-- `MysqlLog::parse`; returns `is_greeting` plus the updated per-flow
state and info record.  State mutations in the source all happen on
success paths, so the error cases discard no committed mutation. -/
def parse (ext : MExt) (config : Option LogParserConfig) (st : MysqlLogSt)
    (payload : List Nat) (direction : PacketDirection) (info : MysqlInfo) :
    RRes MError (Bool × MysqlLogSt × MysqlInfo) := do
  let decompress :=
    (config.map (·.mysqlDecompressPayload)).getD defaultMysqlDecompressPayload
  let hch ← RRes.pc st.hasCompressedHeader
  let parser ← PayloadParser.new ext decompress hch payload
  let (_, header, p) ←
    match direction with
    | .c2s =>
      match parser.tryNext with
      | .crash => .crash
      | .err e => .err e
      | .ok (st', some frame) => .ok (st', frame.1, frame.2)
      | .ok (_, none) => .err .noPacket
    | .s2c => serverLoop (parser.size + 1) parser
  match inferMessageType direction header p with
  | none => .err (.ignoredPacket header)
  | some msgType =>
    match msgType with
    | .request =>
      if header.seqId = 0 then do
        let (msgType2, pcVal, info) ←
          request ext config p st.pc info st.obfuscateCache
        let st := { st with pc := pcVal }
        let st := if msgType2 = .request then
            { st with hasRequest := true, hasLogin := false }
          else st
        .ok (false, st, { info with msgType := msgType2 })
      else if direction = .c2s ∧ header.seqId = 1 then do
        let info ← login p info
        .ok (false, { st with hasLogin := true }, { info with msgType := msgType })
      else .err (.ignoredPacket header)
    | .response => do
      let b ← RRes.pc (byteAt p RESPONSE_CODE_OFFSET)
      if (st.hasLogin ∧ b = MYSQL_RESPONSE_CODE_OK) ∨ b = MYSQL_RESPONSE_CODE_ERR then do
        let info ← response p info
        .ok (false, { st with hasLogin := false }, { info with msgType := msgType })
      else if st.hasRequest then do
        let info ← response p info
        .ok (false, { st with hasRequest := false }, { info with msgType := msgType })
      else .err (.ignoredPacket header)
    | .other => do
      let (pv, info) ← greeting p info
      .ok (true, { st with protocolVersion := pv }, info)
    | .session => .err (.ignoredPacket header)

/-- `MysqlLog::check` (the associated function). -/
def check (ext : MExt) (config : Option LogParserConfig)
    (hasCompressedHeader : Bool) (payload : List Nat) : Option Bool :=
  let decompress :=
    (config.map (·.mysqlDecompressPayload)).getD defaultMysqlDecompressPayload
  match PayloadParser.new ext decompress hasCompressedHeader payload with
  | .crash => none
  | .err _ => some false
  | .ok parser =>
    match parser.tryNext with
    | .crash => none
    | .err _ => some false
    | .ok (_, none) => some false
    | .ok (_, some (header, payload)) =>
      match byteAt payload 0 with
      | none => some false
      | some b =>
        if (b = COM_QUERY ∨ b = COM_STMT_PREPARE) ∧ header.seqId = 0 then
          -- `&payload[1..]` is in bounds: `payload.get(0)` matched `Some`
          let context := mysqlString (payload.drop 1)
          some (isAscii context && ext.isMysql context)
        else if header.seqId ≠ 0 then
          match login payload {} with
          | .crash => none
          | .err _ => some false
          | .ok _ => some true
        else some false

/-- `MysqlLog::check_compressed_header`. -/
def checkCompressedHeader (st : MysqlLogSt) (payload : List Nat) :
    RRes MError MysqlLogSt :=
  match PayloadParser.isCompressed payload with
  | .crash => .crash
  | .err e => .err e
  | .ok b => .ok { st with hasCompressedHeader := some b }

/-- `MysqlLog::check_payload` (`L7ProtocolParserInterface`); `none` models
a panic. -/
def checkPayload (ext : MExt) (st : MysqlLogSt) (payload : List Nat)
    (param : ParseParam) : Option (Bool × MysqlLogSt) :=
  if ¬ param.ebpfType.isRawProtocol ∨ param.l4Protocol ≠ .tcp then
    some (false, st)
  else
    let afterCheck : Option (Option MysqlLogSt) :=
      match st.hasCompressedHeader with
      | none =>
        match checkCompressedHeader st payload with
        | .crash => none
        | .err _ => some none
        | .ok st' => some (some st')
      | some _ => some (some st)
    match afterCheck with
    | none => none
    | some none => some (false, st)
    | some (some st) =>
      match st.hasCompressedHeader with
      | none => none   -- `unwrap` on the cached flag
      | some hch =>
        (check ext param.parseConfig hch payload).map fun r => (r, st)

/-- `L7ParseResult` for the MySQL parser. -/
inductive MysqlParseResult
  | nothing
  | single (info : MysqlInfo)
  deriving Repr, DecidableEq

/-- `set_captured_byte!(info, param)` (a macro of `protocol_logs/mod.rs`;
modelled from the spec: captured byte counts are recorded per side). -/
def setCapturedByte (param : ParseParam) (info : MysqlInfo) : MysqlInfo :=
  match param.direction with
  | .c2s => { info with capturedRequestByte := param.capturedByte }
  | .s2c => { info with capturedResponseByte := param.capturedByte }

/-- The `if let Some(config) = param.parse_config` blacklist step of
`parse_payload`. -/
def applyBlacklistCfg (param : ParseParam) (info : MysqlInfo) : MysqlInfo :=
  match param.parseConfig with
  | some config => info.setIsOnBlacklist config
  | none => info

/-- The request/response and error counters of `parse_payload`. -/
def tailPerf (param : ParseParam) (st : MysqlLogSt) (info : MysqlInfo) :
    MysqlLogSt :=
  if ¬ info.isOnBlacklist ∧ ¬ st.lastIsOnBlacklist then
    let st :=
      match param.direction with
      | .c2s => { st with perfStats := mapPerf st.perfStats (·.incReq) }
      | .s2c => { st with perfStats := mapPerf st.perfStats (·.incResp) }
    match info.status with
    | .clientError =>
      { st with perfStats := mapPerf st.perfStats (·.incReqErr) }
    | .serverError =>
      { st with perfStats := mapPerf st.perfStats (·.incRespErr) }
    | _ => st
  else st

/-- The RRT step of `parse_payload` (the external `cal_rrt` outcome is
carried by `param.calRrt`). -/
def tailRrt (param : ParseParam) (st : MysqlLogSt) (info : MysqlInfo) :
    MysqlLogSt × MysqlInfo :=
  if (¬ info.isOnBlacklist ∧ ¬ st.lastIsOnBlacklist)
      ∧ (info.msgType = .request ∨ info.msgType = .response) then
    match param.calRrt with
    | some (rrt, _) =>
      ({ st with perfStats := mapPerf st.perfStats (·.updateRrt rrt) },
       { info with rrt := rrt })
    | none => (st, info)
  else (st, info)

/-- The fall-through tail of `MysqlLog::parse_payload`: captured-byte
recording, blacklist computation, perf-stats counters, RRT and the final
result selection. -/
def parsePayloadTail (param : ParseParam) (st : MysqlLogSt)
    (info : MysqlInfo) :
    Option (Except FgError MysqlParseResult × MysqlLogSt) :=
  let info := setCapturedByte param info
  let info := applyBlacklistCfg param info
  let st2 := tailPerf param st info
  let stInfo := tailRrt param st2 info
  let stF := { stInfo.1 with lastIsOnBlacklist := stInfo.2.isOnBlacklist }
  if param.parseLog then some (.ok (.single stInfo.2), stF)
  else some (.ok .nothing, stF)

/-- `MysqlLog::parse_payload` (`L7ProtocolParserInterface`); the outer
`Option` models a panic; the final per-flow state is returned alongside
the typed result (the source mutates `self` in place). -/
def parsePayload (ext : MExt) (st : MysqlLogSt) (payload : List Nat)
    (param : ParseParam) :
    Option (Except FgError MysqlParseResult × MysqlLogSt) :=
  if param.l4Protocol ≠ .tcp then some (.error .invalidIpProtocol, st)
  else
    let info : MysqlInfo :=
      { protocolVersion := st.protocolVersion, isTls := param.isTls }
    let st := if st.perfStats.isNone ∧ param.parsePerf then
        { st with perfStats := some {} }
      else st
    -- the `check_compressed_header` step
    match (match st.hasCompressedHeader with
      | none =>
        match checkCompressedHeader st payload with
        | .crash => none
        | .err _ => some (st, some .l7LogParseFailed)
        | .ok st' => some (st', none)
      | some _ => some (st, none) : Option (MysqlLogSt × Option FgError)) with
    | none => none
    | some (st, some e) => some (.error e, st)
    | some (st, none) =>
      -- outcome of the `match result` dispatch: `none` = panic, an
      -- `.error` = early `return Err`, `(st, none)` = early
      -- `return Ok(L7ParseResult::None)`, `(st, some info)` = fall
      -- through with the (possibly adjusted) info record
      match (match parse ext param.parseConfig st payload param.direction info with
        | .crash => none
        | .ok (isGreetingR, st', info') =>
          if isGreetingR then some (.ok (st', none))
          else some (.ok (st', some info'))
        | .err (.ignoredPacket _) => some (.ok (st, none))
        | .err (.truncated _) =>
          if param.direction = .s2c then
            some (.ok (st, some { info with msgType := .response, status := .ok }))
          else some (.ok (st, none))
        | .err .compressedPacketNotParsed =>
          if param.direction = .s2c then
            some (.ok (st,
              some { info with msgType := .response, status := .parseFailed }))
          else some (.error .l7LogParseFailed)
        | .err (.commandNotSupported _) => some (.ok (st, none))
        | .err _ => some (.error .l7LogParseFailed)
        : Option (Except FgError (MysqlLogSt × Option MysqlInfo))) with
      | none => none
      | some (.error e) => some (.error e, st)
      | some (.ok (st, none)) => some (.ok .nothing, st)
      | some (.ok (st, some info)) => parsePayloadTail param st info

end Mysql

namespace Http

/-! ## HTTP parser (`flow_generator/protocol_logs/http.rs`)

Constants come from the `consts` module (not among the provided sources);
their values are modelled from the spec (sections 4.3-4.5): the 9-byte
HTTP/2 frame header, RFC 7540 frame-type range and flag bits, the
connection preface, the gRPC status codes (gRPC numbering), and the
HTTP/1 version strings and status-code ranges. -/

def HTTPV2_FRAME_HEADER_LENGTH : Nat := 9
def HTTPV2_FRAME_DATA_TYPE : Nat := 0
def HTTPV2_FRAME_HEADERS_TYPE : Nat := 1
def HTTPV2_FRAME_TYPE_MIN : Nat := 0
def HTTPV2_FRAME_TYPE_MAX : Nat := 9
def FLAG_HEADERS_PADDED : Nat := 0x08
def FLAG_HEADERS_PRIORITY : Nat := 0x20
def HTTPV2_MAGIC_PREFIX : List Nat := bytesOfAscii "PRI * HTTP/2.0"
def HTTPV2_MAGIC_LENGTH : Nat := 24
def HTTPV2_CUSTOM_DATA_MIN_LENGTH : Nat := 16
def HTTP_V1_0_VERSION : List Nat := bytesOfAscii "HTTP/1.0"
def HTTP_V1_1_VERSION : List Nat := bytesOfAscii "HTTP/1.1"
def HTTP_RESP_MIN_LEN : Nat := 13
def HTTP_STATUS_CODE_MIN : Nat := 100
def HTTP_STATUS_CODE_MAX : Nat := 599
def HTTP_STATUS_CLIENT_ERROR_MIN : Nat := 400
def HTTP_STATUS_CLIENT_ERROR_MAX : Nat := 499
def HTTP_STATUS_SERVER_ERROR_MIN : Nat := 500
def HTTP_STATUS_SERVER_ERROR_MAX : Nat := 599
def GRPC_STATUS_OK : Nat := 0
def GRPC_STATUS_CANCELLED : Nat := 1
def GRPC_STATUS_INVALID_ARGUMENT : Nat := 3
def GRPC_STATUS_NOT_FOUND : Nat := 5
def GRPC_STATUS_PERMISSION_DENIED : Nat := 7
def GRPC_STATUS_FAILED_PRECONDITION : Nat := 9
def GRPC_STATUS_OUT_OF_RANGE : Nat := 11
def GRPC_STATUS_UNAUTHENTICATED : Nat := 16

-- http.rs: field priorities (plugin < custom policy < base wire field)
def PLUGIN_FIELD_PRIORITY : Nat := 0
def CUSTOM_FIELD_POLICY_PRIORITY : Nat := PLUGIN_FIELD_PRIORITY + 1
def BASE_FIELD_PRIORITY : Nat := CUSTOM_FIELD_POLICY_PRIORITY + 1

/-- `Version` (http.rs). -/
inductive Version | unknown | v1_0 | v1_1 | v2
  deriving Repr, DecidableEq

instance : Inhabited Version := ⟨.unknown⟩

/-- `Version::try_from(&str)`. -/
def Version.tryFrom (s : List Nat) : Except FgError Version :=
  if s = bytesOfAscii "1.0" then .ok .v1_0
  else if s = bytesOfAscii "1.1" then .ok .v1_1
  else if s = bytesOfAscii "2" then .ok .v2
  else .error .httpHeaderParseFailed

/-- `Method` (http.rs); `nothing` is the Rust `Method::None`. -/
inductive Method
  | nothing | get | head | post | put | delete | connect | options | trace
  | patch | requestData | responseData | requestHeader | responseHeader
  deriving Repr, DecidableEq

instance : Inhabited Method := ⟨.nothing⟩

/-- `Method::is_none`. -/
def Method.isNone : Method → Bool
  | .nothing => true
  | _ => false

/-- `Method::try_from(&str)`. -/
def Method.tryFrom (s : List Nat) : Except FgError Method :=
  if s = bytesOfAscii "GET" then .ok .get
  else if s = bytesOfAscii "HEAD" then .ok .head
  else if s = bytesOfAscii "POST" then .ok .post
  else if s = bytesOfAscii "PUT" then .ok .put
  else if s = bytesOfAscii "DELETE" then .ok .delete
  else if s = bytesOfAscii "CONNECT" then .ok .connect
  else if s = bytesOfAscii "OPTIONS" then .ok .options
  else if s = bytesOfAscii "TRACE" then .ok .trace
  else if s = bytesOfAscii "PATCH" then .ok .patch
  else .error .httpHeaderParseFailed

/-- `Method::from_frame_type`. -/
def Method.fromFrameType (value : Nat) (direction : PacketDirection) : Method :=
  if value = HTTPV2_FRAME_DATA_TYPE ∧ direction = .c2s then .requestData
  else if value = HTTPV2_FRAME_DATA_TYPE ∧ direction = .s2c then .responseData
  else if value = HTTPV2_FRAME_HEADERS_TYPE ∧ direction = .c2s then .requestHeader
  else if value = HTTPV2_FRAME_HEADERS_TYPE ∧ direction = .s2c then .responseHeader
  else .nothing

/-- `Method::from_ebpf_type`. -/
def Method.fromEbpfType (value : EbpfType) (direction : PacketDirection) : Method :=
  match value, direction with
  | .goHttp2UprobeData, .c2s => .requestData
  | .goHttp2UprobeData, .s2c => .responseData
  | .goHttp2Uprobe, .c2s => .requestHeader
  | .goHttp2Uprobe, .s2c => .responseHeader
  | _, _ => .nothing

/-- `L7ProtoRawDataType` (from `protocol_logs/mod.rs`, not in the provided
sources; modelled from the spec: standard reassembled payload vs. the Go
HTTP/2 uprobe custom format). -/
inductive L7ProtoRawDataType | rawProtocol | goHttp2Uprobe
  deriving Repr, DecidableEq

/-- `HttpInfo` (http.rs).  The enterprise-only `metrics` list is omitted
(no non-enterprise code path touches it). -/
structure HttpInfo where
  headersOffset : Option Nat := none
  isReqEnd : Bool := false
  isRespEnd : Bool := false
  rrt : Nat := 0
  proto : L7Protocol := .unknown
  isTls : Bool := false
  msgType : LogMessageType := .other
  rawDataType : L7ProtoRawDataType := .rawProtocol
  streamId : Option Nat := none
  version : Version := .unknown
  traceId : PrioField := {}
  spanId : PrioField := {}
  method : Method := .nothing
  path : List Nat := []
  host : List Nat := []
  userAgent : Option (List Nat) := none
  referer : Option (List Nat) := none
  clientIp : Option PrioField := none
  xRequestId0 : PrioField := {}
  xRequestId1 : PrioField := {}
  reqContentLength : Option Nat := none
  respContentLength : Option Nat := none
  statusCode : Nat := 0
  status : L7ResponseStatus := default
  grpcStatusCode : Option Nat := none
  endpoint : Option (List Nat) := none
  customResult : Option (List Nat) := none
  customException : Option (List Nat) := none
  capturedRequestByte : Nat := 0
  capturedResponseByte : Nat := 0
  attributes : List (List Nat × List Nat) := []
  isOnBlacklist : Bool := false
  serviceName : Option (List Nat) := none
  deriving Repr, DecidableEq

namespace HttpInfo

/-- `HttpInfo::is_invalid_status_code`. -/
def isInvalidStatusCode (i : HttpInfo) : Bool :=
  ¬ (HTTP_STATUS_CODE_MIN ≤ i.statusCode ∧ i.statusCode ≤ HTTP_STATUS_CODE_MAX)

/-- `HttpInfo::is_invalid`. -/
def isInvalid (i : HttpInfo) : Bool :=
  (i.msgType == .request && i.method.isNone)
    || (i.msgType == .response && i.isInvalidStatusCode)

/-- `HttpInfo::is_empty`. -/
def isEmpty (i : HttpInfo) : Bool :=
  i.host == [] && i.method.isNone && i.path == [] && i.statusCode == 0

/-- `HttpInfo::is_grpc`. -/
def isGrpc (i : HttpInfo) : Bool := i.proto == .grpc

/-- `HttpInfo::grpc_package_service_name`. -/
def grpcPackageServiceName (i : HttpInfo) : Option (List Nat) :=
  if ¬ i.isGrpc ∨ i.path.length < 6 then none
  else
    let idx := (i.path.enum.filter (fun p => p.2 = 47)).map (·.1)
    if h : idx.length = 2 then
      let start := idx.head (by
        intro hnil; rw [hnil] at h; simp at h)
      let stop := (idx.drop 1).head (by
        intro hnil
        have := congrArg List.length hnil
        simp at this
        omega)
      if start + 1 = stop then none
      else some ((i.path.take stop).drop (start + 1))
    else none

/-- `HttpInfo::merge_custom_to_http` (wasm plugin data, priority 0). -/
def mergeCustomToHttp (i : HttpInfo) (custom : CustomInfo)
    (dir : PacketDirection) : HttpInfo :=
  let i :=
    if dir = .c2s then
      { i with
        version := match Version.tryFrom custom.reqVersion with
          | .ok v => v
          | .error _ => i.version
        method := match Method.tryFrom custom.reqType with
          | .ok m => m
          | .error _ => i.method
        host := if custom.reqDomain ≠ [] then custom.reqDomain else i.host
        path := if custom.reqResource ≠ [] then custom.reqResource else i.path
        streamId := match custom.requestId with
          | some id => some id
          | none => i.streamId
        endpoint := if custom.reqEndpoint ≠ [] then some custom.reqEndpoint
          else i.endpoint }
    else i
  let i :=
    if dir = .s2c then
      let i := match custom.respCode with
        | some code => { i with statusCode := (code % 65536).toNat }
        | none => i
      { i with
        status := if custom.respStatus ≠ i.status then custom.respStatus
          else i.status
        customResult := if custom.respResult ≠ [] then some custom.respResult
          else i.customResult
        customException := if custom.respException ≠ [] then
            some custom.respException
          else i.customException }
    else i
  { i with
    traceId := match custom.traceId with
      | some tid => PrioField.new PLUGIN_FIELD_PRIORITY tid
      | none => i.traceId
    spanId := match custom.spanId with
      | some sid => PrioField.new PLUGIN_FIELD_PRIORITY sid
      | none => i.spanId
    xRequestId0 := match custom.xRequestId0 with
      | some x => PrioField.new PLUGIN_FIELD_PRIORITY x
      | none => i.xRequestId0
    xRequestId1 := match custom.xRequestId1 with
      | some x => PrioField.new PLUGIN_FIELD_PRIORITY x
      | none => i.xRequestId1
    clientIp := match custom.httpProxyClient with
      | some c => some (PrioField.new PLUGIN_FIELD_PRIORITY c)
      | none => i.clientIp
    attributes := if custom.attributes ≠ [] then
        i.attributes ++ custom.attributes
      else i.attributes }

/-- `HttpInfo::merge`; `swap_if!` (a macro of `protocol_logs/mod.rs`,
modelled from the spec: take the incoming value only when the existing one
is empty/unset, swapping the two) mutates both records, so both results
are returned. -/
def merge (self other : HttpInfo) : HttpInfo × HttpInfo :=
  let otherIsGrpc := other.isGrpc
  let self := { self with
    isOnBlacklist := if other.isOnBlacklist then other.isOnBlacklist
      else self.isOnBlacklist }
  let (self, other) :=
    match other.msgType with
    | .request =>
      ({ self with
          path := if self.path = [] then other.path else self.path
          host := if self.host = [] then other.host else self.host
          method := if self.method.isNone then other.method else self.method
          userAgent := if self.userAgent.isNone then other.userAgent
            else self.userAgent
          referer := if self.referer.isNone then other.referer
            else self.referer
          endpoint := if self.endpoint.isNone then other.endpoint
            else self.endpoint
          serviceName := if self.serviceName.isNone then other.serviceName
            else self.serviceName
          isReqEnd := if other.isReqEnd then true else self.isReqEnd
          reqContentLength := if self.reqContentLength.isNone then
              other.reqContentLength
            else self.reqContentLength
          capturedRequestByte := self.capturedRequestByte
            + other.capturedRequestByte },
       { other with
          path := if self.path = [] then self.path else other.path
          host := if self.host = [] then self.host else other.host
          method := if self.method.isNone then self.method else other.method
          userAgent := if self.userAgent.isNone then self.userAgent
            else other.userAgent
          referer := if self.referer.isNone then self.referer
            else other.referer
          endpoint := if self.endpoint.isNone then self.endpoint
            else other.endpoint
          serviceName := if self.serviceName.isNone then self.serviceName
            else other.serviceName })
    | .response =>
      ({ self with
          status := if other.status ≠ (default : L7ResponseStatus) then
              other.status
            else self.status
          statusCode := if self.statusCode = 0 then other.statusCode
            else self.statusCode
          grpcStatusCode := if self.grpcStatusCode.isNone
              ∧ other.grpcStatusCode.isSome then other.grpcStatusCode
            else self.grpcStatusCode
          customException := if self.customException.isNone then
              other.customException
            else self.customException
          customResult := if self.customResult.isNone then other.customResult
            else self.customResult
          respContentLength := if self.respContentLength.isNone then
              other.respContentLength
            else self.respContentLength
          isRespEnd := if other.isRespEnd then true else self.isRespEnd
          capturedResponseByte := self.capturedResponseByte
            + other.capturedResponseByte },
       { other with
          grpcStatusCode := if self.grpcStatusCode.isNone
              ∧ other.grpcStatusCode.isSome then none
            else other.grpcStatusCode
          customException := if self.customException.isNone then
              self.customException
            else other.customException
          customResult := if self.customResult.isNone then self.customResult
            else other.customResult })
    | _ => (self, other)
  ({ self with
      proto := if otherIsGrpc then .grpc else self.proto
      traceId := if self.traceId.isDefault then other.traceId
        else self.traceId
      spanId := if self.spanId.isDefault then other.spanId else self.spanId
      xRequestId0 := if self.xRequestId0.isDefault then other.xRequestId0
        else self.xRequestId0
      xRequestId1 := if self.xRequestId1.isDefault then other.xRequestId1
        else self.xRequestId1
      attributes := self.attributes ++ other.attributes },
   { other with
      traceId := if self.traceId.isDefault then self.traceId
        else other.traceId
      spanId := if self.spanId.isDefault then self.spanId else other.spanId
      xRequestId0 := if self.xRequestId0.isDefault then self.xRequestId0
        else other.xRequestId0
      xRequestId1 := if self.xRequestId1.isDefault then self.xRequestId1
        else other.xRequestId1
      attributes := [] })

/-- `HttpInfo::set_is_on_blacklist`. -/
def setIsOnBlacklist (i : HttpInfo) (config : LogParserConfig) : HttpInfo :=
  match config.blacklistOf i.proto with
  | some t =>
    { i with isOnBlacklist :=
        (if i.isGrpc then
          (i.serviceName.map t.requestResource).getD false
        else t.requestResource i.path)
        || t.requestType (bytesOfAscii (methodStr i.method))
        || t.requestDomain i.host
        || (i.endpoint.map t.endpoint).getD false }
  | none => i
where
  /-- `Method::as_str`. -/
  methodStr : Method → String
    | .nothing => ""
    | .get => "GET"
    | .head => "HEAD"
    | .post => "POST"
    | .put => "PUT"
    | .delete => "DELETE"
    | .connect => "CONNECT"
    | .options => "OPTIONS"
    | .trace => "TRACE"
    | .patch => "PATCH"
    | .requestData => "_REQUEST_DATA"
    | .responseData => "_RESPONSE_DATA"
    | .requestHeader => "_REQUEST_HEADER"
    | .responseHeader => "_RESPONSE_HEADER"

end HttpInfo

/-- HPACK decoder state (the `hpack::Decoder` dynamic table), abstract. -/
abbrev HpackSt := Nat

/-- External collaborators of the HTTP parser: the hpack decoder
(returning the updated state, the decoded key/value pairs fed to the
callback, and whether decoding failed) and the initial decoder built from
the expected-headers set. -/
structure HExt where
  hpackDecode : HpackSt → List Nat → HpackSt × List (List Nat × List Nat) × Bool :=
    fun st _ => (st, [], false)
  newDecoder : HpackSt := 0

/-- Per-connection parser state (`HttpLog`). -/
structure HttpLogSt where
  proto : L7Protocol := .http1
  lastIsOnBlacklist : Bool := false
  perfStats : Option L7PerfStats := none
  http2ReqDecoder : Option HpackSt := none
  http2RespDecoder : Option HpackSt := none
  deriving Repr, DecidableEq

/-- `HttpLog::new_v1`. -/
def HttpLogSt.newV1 : HttpLogSt := { proto := .http1 }

/-- `HttpLog::new_v2`. -/
def HttpLogSt.newV2 (isGrpc : Bool) : HttpLogSt :=
  { proto := if isGrpc then .grpc else .http2 }

/-- `HttpLog::set_header_decoder`. -/
def HttpLogSt.setHeaderDecoder (st : HttpLogSt) (ext : HExt) : HttpLogSt :=
  { st with
    http2ReqDecoder := some ext.newDecoder
    http2RespDecoder := some ext.newDecoder }

/-- `HttpLog::perf_stats` (drains the accumulator). -/
def HttpLogSt.perfStatsTake (st : HttpLogSt) :
    Option L7PerfStats × HttpLogSt :=
  (st.perfStats, { st with perfStats := none })

/-- `Httpv2Headers` (http.rs). -/
structure Httpv2Headers where
  frameLength : Nat := 0
  frameType : Nat := 0
  flags : Nat := 0
  streamId : Nat := 0
  deriving Repr, DecidableEq

namespace Httpv2Headers

/-- `Httpv2Headers::validate_flags` (the RFC 9113 type-to-allowed-flags
table). -/
def validateFlags (frameType flags : Nat) : Bool :=
  let vf : Option Nat :=
    match frameType with
    | 0x00 => some 0b00001001
    | 0x01 => some 0b00101101
    | 0x02 => some 0b00000000
    | 0x03 => some 0b00000000
    | 0x04 => some 0b00000001
    | 0x05 => some 0b00001100
    | 0x06 => some 0b00000001
    | 0x07 => some 0b00000000
    | 0x08 => some 0b00000000
    | 0x09 => some 0b00000100
    | _ => none
  match vf with
  | none => false
  | some vf => (255 - vf) &&& flags == 0

def FLAGS_STREAM_END : Nat := 1

/-- `Httpv2Headers::parse_headers_frame`.  The unguarded `payload[3]`,
`payload[4]`, `payload[5]` and `read_u32_be` index operations are the
panic points (`none`); field updates happen only on the success path,
matching the source where every early `Err` precedes the assignments. -/
def parseHeadersFrame (_h : Httpv2Headers) (payload : List Nat) :
    Option (Except FgError Httpv2Headers) := do
  let frameType ← byteAt payload 3
  if frameType < HTTPV2_FRAME_TYPE_MIN ∨ frameType > HTTPV2_FRAME_TYPE_MAX then
    return .error .httpHeaderParseFailed
  let flags ← byteAt payload 4
  if ¬ validateFlags frameType flags then
    return .error .httpHeaderParseFailed
  let b5 ← byteAt payload 5
  if b5 &&& 0x80 ≠ 0 then
    return .error .httpHeaderParseFailed
  let w ← readU32be payload
  let tail ← sliceFrom payload 5
  let sid ← readU32be tail
  return .ok { frameLength := w / 256, frameType := frameType,
               flags := flags, streamId := sid }

/-- `Httpv2Headers::is_stream_end`. -/
def isStreamEnd (h : Httpv2Headers) : Bool :=
  h.flags &&& FLAGS_STREAM_END == FLAGS_STREAM_END

end Httpv2Headers

/-- `HTTP_METHODS` (http.rs). -/
def HTTP_METHODS : List (List Nat) :=
  [bytesOfAscii "GET", bytesOfAscii "POST", bytesOfAscii "PUT",
   bytesOfAscii "DELETE", bytesOfAscii "OPTIONS", bytesOfAscii "HEAD",
   bytesOfAscii "TRACE", bytesOfAscii "CONNECT", bytesOfAscii "PATCH",
   bytesOfAscii "LINK", bytesOfAscii "UNLINK", bytesOfAscii "COPY",
   bytesOfAscii "MOVE", bytesOfAscii "WRAPPED",
   bytesOfAscii "EXTENSION-METHOD"]

def RESPONSE_PREFIX : List Nat := bytesOfAscii "HTTP/"

/-- `has_prefix` (http.rs): starts with `pfx` followed by a space.  The
`s[pfx.len()]` index is expressed with `get?`, which the length guard
keeps in bounds. -/
def hasPfxSpace (s pfx : List Nat) : Bool :=
  decide (s.length ≥ pfx.length + 1) && pfx.isPrefixOf s
    && (s.get? pfx.length == some 32)

/-- `is_http_v1_payload` (http.rs). -/
def isHttpV1Payload (buf : List Nat) : Bool :=
  RESPONSE_PREFIX.isPrefixOf buf
    || HTTP_METHODS.any (fun m => hasPfxSpace buf m)

/-- `is_http_req_line` (http.rs); the final `rsplit_once(' ')` compares
the text after the last space with the known version strings. -/
def isHttpReqLine (line : List Nat) : Bool :=
  if line.length < (bytesOfAscii "GET / HTTP/1.1").length then false
  else if ¬ HTTP_METHODS.any (fun m => hasPfxSpace line m) then false
  else
    match (line.reverse.findIdx? (· = 32)) with
    | some ridx =>
      let suffix := line.drop (line.length - ridx)
      suffix == bytesOfAscii "HTTP/0.9" || suffix == HTTP_V1_0_VERSION
        || suffix == HTTP_V1_1_VERSION
    | none => false

/-- `get_http_request_version` (http.rs). -/
def getHttpRequestVersion (version : List Nat) : Except FgError Version :=
  if version = HTTP_V1_0_VERSION then .ok .v1_0
  else if version = HTTP_V1_1_VERSION then .ok .v1_1
  else .error .httpHeaderParseFailed

/-- `str::splitn(3, ..)` on ASCII-whitespace bytes, as used by
`get_http_request_info`. -/
def splitn3Ws (l : List Nat) : List (List Nat) :=
  match l.findIdx? isAsciiWs with
  | none => [l]
  | some i =>
    let first := l.take i
    let rest := l.drop (i + 1)
    match rest.findIdx? isAsciiWs with
    | none => [first, rest]
    | some j => [first, rest.take j, rest.drop (j + 1)]

/-- `get_http_request_info` (http.rs): split the request line into
method, path and version. -/
def getHttpRequestInfo (line : List Nat) :
    Except FgError (Method × List Nat × List Nat) :=
  match splitn3Ws line with
  | [_, _] => .error .httpHeaderParseFailed
  | [_] => .error .httpHeaderParseFailed
  | [m, p, v] =>
    match Method.tryFrom m with
    | .error e => .error e
    | .ok method => .ok (method, p, v)
  | _ => .error .httpHeaderParseFailed

/-- `get_http_resp_info` (http.rs). -/
def getHttpRespInfo (line : List Nat) : Except FgError (Version × Nat) :=
  if line.length < HTTP_RESP_MIN_LEN ∨ ¬ isAscii line then
    .error .httpHeaderParseFailed
  else
    let versionBytes := line.take HTTP_V1_0_VERSION.length
    let version : Except FgError Version :=
      if versionBytes = HTTP_V1_0_VERSION then .ok .v1_0
      else if versionBytes = HTTP_V1_1_VERSION then .ok .v1_1
      else .error .httpHeaderParseFailed
    match version with
    | .error e => .error e
    | .ok v =>
      match rustParseU 65535 ((line.drop (HTTP_V1_0_VERSION.length + 1)).take 3) with
      | none => .error .httpHeaderParseFailed
      | some statusCode =>
        if statusCode < HTTP_STATUS_CODE_MIN ∨ statusCode > HTTP_STATUS_CODE_MAX then
          .error .httpHeaderParseFailed
        else .ok (v, statusCode)

/-- `V1HeaderIterator::next` (http.rs): the yielded line (if any) and the
remaining buffer state.  A leading CRLF consumes two bytes and stops; an
invalid-UTF-8 line stops without advancing. -/
def v1Next (buf : List Nat) : Option (List Nat) × List Nat :=
  if buf.length < 2 then (none, buf)
  else
    match crlfPos buf with
    | some stop =>
      if stop ≠ 0 then
        let line := buf.take stop
        if isValidUtf8 line then (some line, buf.drop (stop + 2))
        else (none, buf)
      else (none, buf.drop 2)
    | none => (none, buf)
where
  /-- `windows(2).position(|w| w == b"\r\n")`. -/
  crlfPos : List Nat → Option Nat
    | 13 :: 10 :: _ => some 0
    | _ :: rest => (crlfPos rest).map (· + 1)
    | [] => none

/-! ### Endpoint normalization -/

/-- Modelled from the spec (4.9): the built-in default segment count. -/
def HTTP_ENDPOINT_DEFAULT_KEEP_SEGMENTS : Nat := 2

/-- Modelled from the spec (4.9):
`HttpEndpointTrie::find_matching_rule` — selects the longest configured
prefix matching the path (an empty rule set yields the built-in default
count; a matched rule with `keep_segments` 0 falls back to the default; a
non-empty rule set with no matching prefix yields 0, which the caller
turns into an empty endpoint). -/
def findMatchingRule (rules : List EndpointRule) (path : List Nat) : Nat :=
  if rules.isEmpty then HTTP_ENDPOINT_DEFAULT_KEEP_SEGMENTS
  else
    let matching := rules.filter (fun r => r.pfx.isPrefixOf path)
    match matching.foldl
        (fun best r =>
          match best with
          | none => some r
          | some b => if r.pfx.length > b.pfx.length then some r else some b)
        none with
    | none => 0
    | some r =>
      if r.keepSegments = 0 then HTTP_ENDPOINT_DEFAULT_KEEP_SEGMENTS
      else r.keepSegments

/-- `str::split(sep)` on one ASCII separator byte: always at least one
piece; empty pieces are kept. -/
def splitOnByte (sep : Nat) : List Nat → List (List Nat)
  | [] => [[]]
  | b :: r =>
    if b = sep then [] :: splitOnByte sep r
    else
      match splitOnByte sep r with
      | [] => [[b]]
      | s :: ss => (b :: s) :: ss

/-- The counting loop of `handle_endpoint`: returns the final `end`
index. -/
def heLoop (keep : Nat) : List (Nat × List Nat) → Nat → Nat → Nat
  | [], _, e => e
  | (i, seg) :: rest, k, e =>
    if k ≥ keep then e
    else if seg = [] ∨ seg = bytesOfAscii "." then heLoop keep rest k e
    else heLoop keep rest (k + 1) (i + 1)

/-- `handle_endpoint` (http.rs).  The `cleaned_output[start..end]` slice
is the one possible panic (`none`), kept partial. -/
def handleEndpoint (config : LogParserConfig) (path : List Nat) :
    Option (List Nat) :=
  let keepSegments := findMatchingRule config.endpointRules path
  if keepSegments ≤ 0 then some []
  else
    let output := path.takeWhile (· ≠ 63)
    let cleaned := splitOnByte 47 output
    let start := if cleaned.head? = some [] then 1 else 0
    let stop := heLoop keepSegments cleaned.enum 0 start
    if start ≤ stop ∧ stop ≤ cleaned.length then
      some (47 :: joinSlash ((cleaned.take stop).drop start))
    else none
where
  /-- `join("/")`. -/
  joinSlash : List (List Nat) → List Nat
    | [] => []
    | [s] => s
    | s :: rest => s ++ 47 :: joinSlash rest

/-! ### Header callback (`HttpLog::on_header`) -/

/-- The trace-id candidate loop of `on_header`: stop as soon as the
current priority is at least as good as the candidate; a successful
decode claims the field and scanning continues (the next candidate then
stops the loop). -/
def traceIdLoop (key val : List Nat)
    (dec : TraceTy → List Nat → Option (List Nat)) :
    List TraceTy → Nat → PrioField → PrioField
  | [], _, cur => cur
  | tt :: rest, i, cur =>
    let prio := (i % 256 + BASE_FIELD_PRIORITY) % 256
    if cur.prio ≤ prio then cur
    else if ¬ tt.check key then traceIdLoop key val dec rest (i + 1) cur
    else
      match dec tt val with
      | some id => traceIdLoop key val dec rest (i + 1) (PrioField.new prio id)
      | none => traceIdLoop key val dec rest (i + 1) cur

/-- The x-request-id candidate loop of `on_header`. -/
def xReqIdLoop (key val : List Nat) :
    List (List Nat) → Nat → PrioField → PrioField
  | [], _, cur => cur
  | reqId :: rest, i, cur =>
    let prio := (i % 256 + BASE_FIELD_PRIORITY) % 256
    if cur.prio ≤ prio then cur
    else if reqId = key then PrioField.new prio val
    else xReqIdLoop key val rest (i + 1) cur

/-- The proxy-client candidate loop of `on_header`. -/
def proxyClientLoop (key val : List Nat) :
    List (List Nat) → Nat → Option PrioField → Option PrioField
  | [], _, cur => cur
  | pc :: rest, i, cur =>
    let prio := (i % 256 + BASE_FIELD_PRIORITY) % 256
    match cur with
    | some p =>
      if p.prio ≤ prio then cur
      else if pc = key then some (PrioField.new prio val)
      else proxyClientLoop key val rest (i + 1) cur
    | none =>
      if pc = key then some (PrioField.new prio val)
      else proxyClientLoop key val rest (i + 1) cur

/-- `process_attributes` (the local fn inside `on_header`). -/
def processAttributes (cfg : L7LogDynamicConfig) (info : HttpInfo)
    (key val : List Nat) : HttpInfo :=
  let fields :=
    match info.proto with
    | .http1 => some cfg.extraHttpFields
    | .http2 | .grpc => some cfg.extraHttp2Fields
    | _ => none
  match fields with
  | none => info
  | some fields =>
    let extra := fields.filterMap (fun f =>
      if toAsciiLower f = toAsciiLower key then
        some (key.map (fun b => if b = 45 then 95 else b), val)
      else none)
    { info with attributes := info.attributes ++ extra }

/-- The part of `HttpLog::on_header` after the `match key` block: the
ascii/utf-8 gates, the four priority-candidate loops and
`process_attributes`. -/
def onHeaderRest (cfg : L7LogDynamicConfig) (key val : List Nat)
    (direction : PacketDirection) (info : HttpInfo) : HttpInfo :=
  if ¬ isAscii key then info
  else if ¬ isValidUtf8 val then info
  else
    let info :=
      if cfg.isTraceId key then
        let t := traceIdLoop key val (fun tt v => tt.decodeTraceId v)
          cfg.traceTypes 0 info.traceId
        { info with traceId := t }
      else info
    let info :=
      if cfg.isSpanId key then
        let t := traceIdLoop key val (fun tt v => tt.decodeSpanId v)
          cfg.spanTypes 0 info.spanId
        { info with spanId := t }
      else info
    let info :=
      if direction = .c2s then
        let t := xReqIdLoop key val cfg.xRequestId 0 info.xRequestId0
        { info with xRequestId0 := t }
      else
        let t := xReqIdLoop key val cfg.xRequestId 0 info.xRequestId1
        { info with xRequestId1 := t }
    let info :=
      if direction = .c2s then
        let t := proxyClientLoop key val cfg.proxyClient 0 info.clientIp
        { info with clientIp := t }
      else info
    processAttributes cfg info key val

/-- The `match key` block of `HttpLog::on_header`. -/
def onHeaderMatched (cfg : L7LogDynamicConfig) (key val : List Nat)
    (log : HttpLogSt) (info : HttpInfo) :
    HttpLogSt × HttpInfo × Option FgError :=
  if key = bytesOfAscii ":method" then
    let info := { info with msgType := .request }
    match Method.tryFrom (lossyUtf8 val) with
    | .ok m => (log, { info with method := m }, none)
    | .error e => (log, info, some e)
  else if key = bytesOfAscii ":status" then
    (log, { info with
      msgType := .response
      statusCode := (parseTo 65535 val).getD 0 }, none)
  else if key = bytesOfAscii "host" ∨ key = bytesOfAscii ":authority" then
    (log, { info with host := lossyUtf8 val }, none)
  else if key = bytesOfAscii ":path" then
    (log, { info with path := lossyUtf8 val }, none)
  else if key = bytesOfAscii "grpc-status" ∧ cfg.grpcStreamingDataEnabled then
    (log, { info with
      msgType := .response
      grpcStatusCode := some ((parseTo 65535 val).getD 0) }, none)
  else if key = bytesOfAscii "content-type" then
    if (bytesOfAscii "application/grpc").isPrefixOf val then
      ({ log with proto := .grpc }, { info with proto := .grpc }, none)
    else (log, info, none)
  else (log, info, none)

/-- `HttpLog::on_header`.  The result carries the mutated state plus the
possible error: the source writes `info.msg_type` before `Method::try_from`
can fail, and `?`-callers drop the whole record while the HTTP/2 callback
keeps it. -/
def onHeader (cfg : L7LogDynamicConfig) (key val : List Nat)
    (direction : PacketDirection) (log : HttpLogSt) (info : HttpInfo) :
    HttpLogSt × HttpInfo × Option FgError :=
  if ¬ isValidUtf8 key then (log, info, none)
  else
    match onHeaderMatched cfg key val log info with
    | (log, info, some e) => (log, info, some e)
    | (log, info, none) => (log, onHeaderRest cfg key val direction info, none)

/-- `HttpLog::set_grpc_status`. -/
def setGrpcStatus (log : HttpLogSt) (statusCode : Nat) (info : HttpInfo) :
    HttpLogSt × HttpInfo :=
  if statusCode = GRPC_STATUS_OK then
    (log, { info with status := .ok })
  else if statusCode = GRPC_STATUS_CANCELLED
      ∨ statusCode = GRPC_STATUS_INVALID_ARGUMENT
      ∨ statusCode = GRPC_STATUS_FAILED_PRECONDITION
      ∨ statusCode = GRPC_STATUS_OUT_OF_RANGE
      ∨ statusCode = GRPC_STATUS_UNAUTHENTICATED
      ∨ (GRPC_STATUS_NOT_FOUND ≤ statusCode
          ∧ statusCode ≤ GRPC_STATUS_PERMISSION_DENIED) then
    ({ log with perfStats := mapPerf log.perfStats (·.incReqErr) },
     { info with status := .clientError })
  else
    ({ log with perfStats := mapPerf log.perfStats (·.incRespErr) },
     { info with status := .serverError })

/-- `HttpLog::set_status`. -/
def setStatus (log : HttpLogSt) (statusCode : Nat) (info : HttpInfo) :
    HttpLogSt × HttpInfo :=
  if HTTP_STATUS_CLIENT_ERROR_MIN ≤ statusCode
      ∧ statusCode ≤ HTTP_STATUS_CLIENT_ERROR_MAX then
    ({ log with perfStats := mapPerf log.perfStats (·.incReqErr) },
     { info with status := .clientError })
  else if HTTP_STATUS_SERVER_ERROR_MIN ≤ statusCode
      ∧ statusCode ≤ HTTP_STATUS_SERVER_ERROR_MAX then
    ({ log with perfStats := mapPerf log.perfStats (·.incRespErr) },
     { info with status := .serverError })
  else (log, { info with status := .ok })

/-- `HttpLog::has_magic`. -/
def hasMagic (payload : List Nat) : Bool :=
  decide (payload.length ≥ HTTPV2_MAGIC_LENGTH)
    && HTTPV2_MAGIC_PREFIX.isPrefixOf payload

/-- `HttpLog::http1_check_protocol`. -/
def http1CheckProtocol (payload : List Nat) : Bool :=
  match (v1Next payload).1 with
  | none => false
  | some firstLine => isHttpReqLine firstLine

/-- `HttpLog::modify_http2_and_grpc`: on success the updated record, on
failure the typed error (the source mutates `info` before some failing
checks; every caller then discards the record). -/
def modifyHttp2AndGrpc (grpcStreamingDataEnabled : Bool)
    (direction : PacketDirection) (contentLength : Option Nat)
    (streamId : Nat) (info : HttpInfo) : Except FgError HttpInfo :=
  let info := { info with version := .v2 }
  let info := if info.streamId.isNone then { info with streamId := some streamId }
    else info
  match info.proto with
  | .grpc =>
    match direction, info.method with
    | .c2s, .requestData =>
      if ¬ grpcStreamingDataEnabled then .error .httpHeaderParseFailed
      else
        let info := { info with msgType := .session }
        .ok (if contentLength.isSome then
          { info with reqContentLength := contentLength } else info)
    | .s2c, .responseData =>
      if ¬ grpcStreamingDataEnabled then .error .httpHeaderParseFailed
      else
        let info := { info with msgType := .session }
        .ok (if contentLength.isSome then
          { info with respContentLength := contentLength } else info)
    | .s2c, .responseHeader =>
      if info.grpcStatusCode.isNone then
        if info.statusCode = 0 then .error .httpHeaderParseFailed
        else
          let info := if ¬ grpcStreamingDataEnabled then
              { info with msgType := .response }
            else { info with msgType := .session }
          .ok (if contentLength.isSome then
            { info with respContentLength := contentLength } else info)
      else
        .ok (if contentLength.isSome then
          { info with respContentLength := contentLength } else info)
    | .c2s, _ =>
      .ok (if contentLength.isSome then
        { info with reqContentLength := contentLength } else info)
    | .s2c, _ =>
      .ok (if contentLength.isSome then
        { info with respContentLength := contentLength } else info)
  | _ =>
    if direction = .c2s then
      .ok (if contentLength.isSome then
        { info with reqContentLength := contentLength } else info)
    else
      .ok (if contentLength.isSome then
        { info with respContentLength := contentLength } else info)

/-! ### HTTP/2 frame walk (`HttpLog::check_http_v2`) -/

/-- The mutable state of the `while` loop in `check_http_v2`. -/
structure V2St where
  framePayload : List Nat
  contentLength : Option Nat := none
  headerFrameParsed : Bool := false
  isHttpv2 : Bool := false
  hdr : Httpv2Headers := {}
  headersOffset : Nat := 0
  streamId : Nat := 0
  offset : Nat := 0
  log : HttpLogSt
  info : HttpInfo

/-- How the loop ends: fall-through `break`, early `return Ok(offset)`
(stream-id switch) or early `return Err` (hpack decode failure). -/
inductive V2Out
  | brk (st : V2St)
  | retOk (n : Nat) (st : V2St)
  | retErr (st : V2St)

/-- The header-decode callback fold: each decoded pair runs `on_header`
(errors discarded, mutations kept) and tracks `content-length`. -/
def v2DecodeFold (cfg : L7LogDynamicConfig) (direction : PacketDirection) :
    List (List Nat × List Nat) → HttpLogSt → HttpInfo → Option Nat →
    HttpLogSt × HttpInfo × Option Nat
  | [], log, info, cl => (log, info, cl)
  | (key, val) :: rest, log, info, cl =>
    let r := onHeader cfg key val direction log info
    let cl := if key = bytesOfAscii "content-length" then
        some ((parseTo 4294967295 val).getD 0)
      else cl
    v2DecodeFold cfg direction rest r.1 r.2.1 cl

/-- Verification invariant for the `check_http_v2` walk: the hpack
decoder for the processed direction is present (`take().unwrap()` cannot
fail) and the per-flow protocol is still in the HTTP/2 family. -/
def v2StateOk (direction : PacketDirection) (l : HttpLogSt) : Prop :=
  (match direction with
    | PacketDirection.c2s => l.http2ReqDecoder
    | PacketDirection.s2c => l.http2RespDecoder).isSome = true
  ∧ (l.proto = L7Protocol.http2 ∨ l.proto = L7Protocol.grpc)

/-- The part of the HEADERS-frame branch after padding/priority handling:
the hpack decode through the `on_header` callback and the post-decode
bookkeeping (`none` = panic). -/
def v2BodyHeadersCore (ext : HExt) (cfg : L7LogDynamicConfig)
    (direction : PacketDirection) (l0 : Nat) (st : V2St) :
    Option (Option V2Out × V2St) :=
  let hdr := st.hdr
  let lOffset := l0 + (if hdr.flags &&& FLAG_HEADERS_PRIORITY ≠ 0 then 5 else 0)
  if lOffset ≥ hdr.frameLength
      ∨ hdr.frameLength > st.framePayload.length then
    some (some (.brk st), st)
  else
    match slice st.framePayload lOffset hdr.frameLength with
    | none => none
    | some headerFramePayload =>
      let decoderOpt := match direction with
        | .c2s => st.log.http2ReqDecoder
        | .s2c => st.log.http2RespDecoder
      match decoderOpt with
      | none => none   -- `take().unwrap()`
      | some dec =>
        let (dec2, pairs, decodeErr) := ext.hpackDecode dec headerFramePayload
        let (log, info, cl) := v2DecodeFold cfg direction pairs
          st.log st.info st.contentLength
        let log := match direction with
          | .c2s => { log with http2ReqDecoder := some dec2 }
          | .s2c => { log with http2RespDecoder := some dec2 }
        let st := { st with log := log, info := info, contentLength := cl }
        if decodeErr then some (some (.retErr st), st)
        else
          let st := { st with headerFrameParsed := true }
          let st := if st.log.proto = .grpc then
              { st with info := { st.info with
                method := Method.fromFrameType hdr.frameType direction } }
            else st
          let st := if st.info.headersOffset.isNone
              ∨ st.info.grpcStatusCode.isSome then
              { st with info := { st.info with
                headersOffset := some st.headersOffset } }
            else st
          if st.contentLength.isSome then
            some (some (.brk { st with isHttpv2 := true }), st)
          else some (none, st)

/-- The HEADERS-frame branch of one `check_http_v2` iteration: padding and
priority skip, the hpack decode with the `on_header` callback, and the
post-decode bookkeeping (`none` = panic). -/
def v2BodyHeaders (ext : HExt) (cfg : L7LogDynamicConfig)
    (direction : PacketDirection) (st : V2St) :
    Option (Option V2Out × V2St) :=
  let hdr := st.hdr
  -- padding / priority handling
  let padded : Option (Option (Nat × V2St)) :=
    if hdr.flags &&& FLAG_HEADERS_PADDED ≠ 0 then
      match byteAt st.framePayload 0 with
      | none => none
      | some p0 =>
        if hdr.frameLength ≤ p0 then some none
        else some (some (1,
          { st with hdr := { hdr with frameLength := hdr.frameLength - p0 } }))
    else some (some (0, st))
  match padded with
  | none => none
  | some none => some (some (.brk st), st)
  | some (some (l0, st)) => v2BodyHeadersCore ext cfg direction l0 st

/-- The DATA-frame branch of one `check_http_v2` iteration (`none` =
panic). -/
def v2BodyData (direction : PacketDirection) (st : V2St) :
    Option (Option V2Out × V2St) :=
  let hdr := st.hdr
  let st := { st with contentLength := some hdr.frameLength }
  let padded : Option V2St :=
    if hdr.flags &&& FLAG_HEADERS_PADDED ≠ 0 then
      match byteAt st.framePayload 0 with
      | none => none
      | some p0 =>
        if st.contentLength.getD 0 > p0 then
          some { st with contentLength := some (st.contentLength.getD 0 - p0) }
        else some st
    else some st
  match padded with
  | none => none
  | some st =>
    let st := { st with isHttpv2 := true }
    let st := if st.info.method.isNone then
        { st with info := { st.info with
          method := Method.fromFrameType hdr.frameType direction } }
      else st
    if hdr.isStreamEnd then some (some (.brk st), st)
    else if hdr.frameLength ≥ st.framePayload.length then
      some (some (.brk st), st)
    else some (none, { st with headerFrameParsed := false })

/-- The end-of-iteration bookkeeping of `check_http_v2`: stream-id
recording and the advance to the next frame. -/
def v2BodyEnd (st : V2St) : Option (V2St ⊕ V2Out) :=
  let st := if st.hdr.streamId > 0 then
      { st with info := { st.info with streamId := some st.hdr.streamId } }
    else st
  if st.hdr.frameLength ≥ st.framePayload.length then some (.inr (.brk st))
  else
    some (.inl { st with
      framePayload := st.framePayload.drop st.hdr.frameLength
      headersOffset := st.headersOffset + st.hdr.frameLength
        + HTTPV2_FRAME_HEADER_LENGTH })

/-- The HEADERS/DATA dispatch of one `check_http_v2` iteration plus the
end-of-iteration bookkeeping: `.inl` continues the loop with the new
state, `.inr` ends it (`none` = panic). -/
def v2Body (ext : HExt) (cfg : L7LogDynamicConfig)
    (direction : PacketDirection) (st : V2St) : Option (V2St ⊕ V2Out) :=
  let afterFrame : Option (Option V2Out × V2St) :=
    if ¬ st.headerFrameParsed ∧ st.hdr.frameType = HTTPV2_FRAME_HEADERS_TYPE then
      v2BodyHeaders ext cfg direction st
    else if (st.headerFrameParsed ∨ st.log.proto = .grpc)
        ∧ st.hdr.frameType = HTTPV2_FRAME_DATA_TYPE then
      v2BodyData direction st
    else some (none, st)
  match afterFrame with
  | none => none
  | some (some out, _) => some (.inr out)
  | some (none, st) => v2BodyEnd st

/-- One pass of the `check_http_v2` loop (`none` = panic or exhausted
fuel, the latter proved unreachable). -/
def v2Loop (ext : HExt) (cfg : L7LogDynamicConfig)
    (direction : PacketDirection) : Nat → V2St → Option V2Out
  | 0, _ => none
  | fuel + 1, st =>
    if st.framePayload.length ≤ HTTPV2_FRAME_HEADER_LENGTH then
      some (.brk st)
    else if hasMagic st.framePayload then
      v2Loop ext cfg direction fuel { st with
        framePayload := st.framePayload.drop HTTPV2_MAGIC_LENGTH
        headersOffset := st.headersOffset + HTTPV2_MAGIC_LENGTH
        offset := st.offset + HTTPV2_MAGIC_LENGTH }
    else
      match st.hdr.parseHeadersFrame st.framePayload with
      | none => none
      | some (.error _) =>
        if st.headerFrameParsed then
          some (.brk { st with
            info := { st.info with streamId := some st.hdr.streamId }
            isHttpv2 := true })
        else some (.brk st)
      | some (.ok hdr) =>
        let st := { st with
          hdr := hdr
          offset := st.offset + hdr.frameLength + HTTPV2_FRAME_HEADER_LENGTH }
        if hdr.streamId = 0 then
          if hdr.frameLength + HTTPV2_FRAME_HEADER_LENGTH ≥ st.framePayload.length then
            some (.brk st)
          else
            v2Loop ext cfg direction fuel { st with
              framePayload := st.framePayload.drop
                (hdr.frameLength + HTTPV2_FRAME_HEADER_LENGTH)
              headersOffset := st.headersOffset + hdr.frameLength
                + HTTPV2_FRAME_HEADER_LENGTH }
        else
          match (if st.streamId = 0 ∧ hdr.streamId ≠ 0 then
              some { st with streamId := hdr.streamId }
            else if st.streamId ≠ 0 ∧ st.streamId ≠ hdr.streamId then none
            else some st : Option V2St) with
          | none => some (.retOk st.offset st)
          | some st =>
            let st := { st with
              framePayload := st.framePayload.drop HTTPV2_FRAME_HEADER_LENGTH }
            match v2Body ext cfg direction st with
            | none => none
            | some (.inr out) => some out
            | some (.inl st) => v2Loop ext cfg direction fuel st

/-- `HttpLog::check_http_v2` (`none` = panic): the final parser state plus
either the consumed offset and the record, or the typed error. -/
def checkHttpV2 (ext : HExt) (param : ParseParam) (payload : List Nat)
    (log : HttpLogSt) (info : HttpInfo) :
    Option (HttpLogSt × Except FgError (Nat × HttpInfo)) :=
  match param.parseConfig with
  | none => none   -- `param.parse_config.as_ref().unwrap()`
  | some config =>
    let cfg := config.l7LogDynamic
    let st0 : V2St := { framePayload := payload, log := log, info := info }
    match v2Loop ext cfg param.direction (payload.length + 1) st0 with
    | none => none
    | some (.retOk n st) => some (st.log, .ok (n, st.info))
    | some (.retErr st) => some (st.log, .error .httpHeaderParseFailed)
    | some (.brk st) =>
      let (contentLength, isHttpv2) :=
        if st.headerFrameParsed ∧ ¬ st.isHttpv2 then
          (if st.contentLength.isNone then some 0 else st.contentLength, true)
        else (st.contentLength, st.isHttpv2)
      if isHttpv2 then
        let info := if st.info.msgType = .other then
            { st.info with msgType := .ofDirection param.direction }
          else st.info
        match modifyHttp2AndGrpc cfg.grpcStreamingDataEnabled param.direction
            contentLength st.hdr.streamId info with
        | .error e => some (st.log, .error e)
        | .ok info => some (st.log, .ok (st.offset, info))
      else some (st.log, .error .httpHeaderParseFailed)

/-- `HttpLog::parse_http_v2`: `check_http_v2` plus captured-byte
recording on success. -/
def parseHttpV2 (ext : HExt) (param : ParseParam) (payload : List Nat)
    (log : HttpLogSt) (info : HttpInfo) :
    Option (HttpLogSt × Except FgError (Nat × HttpInfo)) :=
  match checkHttpV2 ext param payload log info with
  | none => none
  | some (log, .error e) => some (log, .error e)
  | some (log, .ok (n, info)) =>
    let info := match param.direction with
      | .c2s => { info with capturedRequestByte := param.capturedByte }
      | .s2c => { info with capturedResponseByte := param.capturedByte }
    some (log, .ok (n, info))

/-- `HttpLog::check_http2_go_uprobe` (`none` = panic): final state, the
possibly-mutated record, and the consumed length or typed error. -/
def checkHttp2GoUprobe (cfg : L7LogDynamicConfig) (payload : List Nat)
    (param : ParseParam) (log : HttpLogSt) (info : HttpInfo) :
    Option (HttpLogSt × HttpInfo × Except FgError Nat) :=
  if payload.length < HTTPV2_CUSTOM_DATA_MIN_LENGTH then
    some (log, info, .error .httpHeaderParseFailed)
  else
    match param.ebpfParam with
    | none => some (log, info, .error .l7ProtocolUnknown)
    | some (isReqEnd, isRespEnd) =>
      let info := { info with isReqEnd := isReqEnd, isRespEnd := isRespEnd }
      let direction := param.direction
      match (do
          let s4 ← slice payload 4 8
          let streamId ← readU32le s4
          let s8 ← sliceFrom payload 8
          let keyLen ← readU32le s8
          let s12 ← sliceFrom payload 12
          let valLen ← readU32le s12
          pure (streamId, keyLen, valLen) : Option (Nat × Nat × Nat)) with
      | none => none
      | some (streamId, keyLen, valLen) =>
        if keyLen + valLen + HTTPV2_CUSTOM_DATA_MIN_LENGTH ≠ payload.length then
          some (log, info, .error .httpHeaderParseFailed)
        else
          let info := { info with
            rawDataType := .goHttp2Uprobe
            msgType := .ofDirection direction }
          let valOffset := HTTPV2_CUSTOM_DATA_MIN_LENGTH + keyLen
          match slice payload HTTPV2_CUSTOM_DATA_MIN_LENGTH valOffset,
              slice payload valOffset (valOffset + valLen) with
          | some key, some val =>
            let (log, info, errOpt) := onHeader cfg key val direction log info
            match errOpt with
            | some e => some (log, info, .error e)
            | none =>
              let contentLength := if key = bytesOfAscii "content-length" then
                  some ((parseTo 4294967295 val).getD 0)
                else none
              if log.proto = .grpc then
                let info := { info with
                  method := Method.fromEbpfType param.ebpfType param.direction }
                match modifyHttp2AndGrpc cfg.grpcStreamingDataEnabled direction
                    contentLength streamId info with
                | .error _ => some (log, info, .error .httpHeaderParseFailed)
                | .ok info =>
                  if info.isInvalid then
                    some (log, info, .error .httpHeaderParseFailed)
                  else some (log, info, .ok payload.length)
              else
                some (log, { info with
                  version := .v2
                  streamId := some streamId }, .ok payload.length)
          | _, _ => none

/-- `HttpLog::parse_http2_go_uprobe`. -/
def parseHttp2GoUprobe (cfg : L7LogDynamicConfig) (payload : List Nat)
    (param : ParseParam) (log : HttpLogSt) (info : HttpInfo) :
    Option (HttpLogSt × HttpInfo × Except FgError Nat) :=
  match checkHttp2GoUprobe cfg payload param log info with
  | none => none
  | some (log, info, .error e) => some (log, info, .error e)
  | some (log, info, .ok n) =>
    let info := match param.direction with
      | .c2s => { info with capturedRequestByte := param.capturedByte }
      | .s2c => { info with capturedResponseByte := param.capturedByte }
    some (log, info, .ok n)

/-! ### HTTP/1 parsing (`HttpLog::parse_http_v1`) -/

/-- The header-line loop of `parse_http_v1` (`none` = fuel exhaustion,
proved unreachable). -/
def v1HeaderLoop (cfg : L7LogDynamicConfig) (direction : PacketDirection) :
    Nat → List Nat → HttpLogSt → HttpInfo → Option Nat →
    Option (HttpLogSt × HttpInfo × Option Nat × Option FgError)
  | 0, _, _, _, _ => none
  | fuel + 1, buf, log, info, contentLength =>
    match v1Next buf with
    | (none, _) => some (log, info, contentLength, none)
    | (some line, buf2) =>
      match line.findIdx? (· = 58) with
      | none => v1HeaderLoop cfg direction fuel buf2 log info contentLength
      | some colIndex =>
        if colIndex + 1 ≥ line.length then
          v1HeaderLoop cfg direction fuel buf2 log info contentLength
        else
          let key := line.take colIndex
          let value := line.drop (colIndex + 1)
          let lowerKey := toAsciiLower key
          let trimValue := trimBytes value
          let (log, info, errOpt) :=
            onHeader cfg lowerKey trimValue direction log info
          match errOpt with
          | some e => some (log, info, contentLength, some e)
          | none =>
            let contentLength :=
              if lowerKey = bytesOfAscii "content-length" then
                some ((rustParseU 4294967295 (trimStartBytes value)).getD 0)
              else contentLength
            v1HeaderLoop cfg direction fuel buf2 log info contentLength

/-- `HttpLog::parse_http_v1` (`none` = panic): final state, record, and
possible typed error. -/
def parseHttpV1 (param : ParseParam) (payload : List Nat)
    (log : HttpLogSt) (info : HttpInfo) :
    Option (HttpLogSt × HttpInfo × Option FgError) :=
  match param.parseConfig with
  | none => none   -- `param.parse_config.as_ref().unwrap()`
  | some config =>
    let cfg := config.l7LogDynamic
    let direction := param.direction
    if ¬ isHttpV1Payload payload then
      some (log, info, some .httpHeaderParseFailed)
    else
      match v1Next payload with
      | (none, _) => some (log, info, some .httpHeaderParseFailed)
      | (some firstLine, buf) =>
        let firstStep : HttpInfo × Option FgError :=
          if direction = .s2c then
            match getHttpRespInfo firstLine with
            | .error e => (info, some e)
            | .ok (version, statusCode) =>
              if statusCode = 100 ∨ statusCode = 102 ∨ statusCode = 103 then
                (info, some .httpHeaderParseFailed)
              else
                ({ info with
                  version := version
                  statusCode := statusCode
                  msgType := .response }, none)
          else
            match getHttpRequestInfo firstLine with
            | .error _ => (info, some .httpHeaderParseFailed)
            | .ok (method, path, version) =>
              match getHttpRequestVersion version with
              | .error e =>
                ({ info with method := method, path := path }, some e)
              | .ok v =>
                ({ info with
                  method := method
                  path := path
                  version := v
                  msgType := .request }, none)
        match firstStep with
        | (info, some e) => some (log, info, some e)
        | (info, none) =>
          match v1HeaderLoop cfg direction (buf.length + 1) buf log info none with
          | none => none
          | some (log, info, _, some e) => some (log, info, some e)
          | some (log, info, contentLength, none) =>
            let info := match direction with
              | .c2s => { info with capturedRequestByte := param.capturedByte }
              | .s2c => { info with capturedResponseByte := param.capturedByte }
            let info := match direction with
              | .s2c => { info with respContentLength := contentLength }
              | .c2s => { info with reqContentLength := contentLength }
            some (log, info, none)

/-! ### Entry points (`HttpLog::check_payload`, `parse_payload`) -/

/-- `HttpLog::wasm_hook`: the plugin outcome is carried by the context
(`wasmReq`/`wasmResp`); absent means no plugin fired. -/
def wasmHook (param : ParseParam) (info : HttpInfo) : HttpInfo :=
  match (match param.direction with
    | .c2s => param.wasmReq
    | .s2c => param.wasmResp) with
  | none => info
  | some custom => info.mergeCustomToHttp custom param.direction

/-- `HttpInfo::cal_rrt` application inside `set_info_by_config`: sets
`rrt`, replaces the endpoint on responses, and feeds the perf stats. -/
def calRrtApply (param : ParseParam) (log : HttpLogSt) (info : HttpInfo) :
    HttpLogSt × HttpInfo :=
  if info.msgType ≠ .session then
    match param.calRrt with
    | none => (log, info)
    | some (rrt, endpoint) =>
      let info := { info with rrt := rrt }
      let info := if info.msgType = .response then
          { info with endpoint := endpoint }
        else info
      ({ log with perfStats := mapPerf log.perfStats (fun p => p.updateRrt rrt) },
       info)
  else (log, info)

/-- `HttpInfo::cal_rrt_for_multi_merge_log` application (go-uprobe
branch): no perf update inside the closure. -/
def calRrtMultiApply (param : ParseParam) (info : HttpInfo) : HttpInfo :=
  if info.msgType ≠ .session then
    match param.calRrtMulti with
    | none => info
    | some (rrt, endpoint) =>
      let info := { info with rrt := rrt }
      if info.msgType = .response then { info with endpoint := endpoint }
      else info
  else info

/-- The counter/RRT block of `set_info_by_config` (run only when neither
the record nor the previous one is blacklisted); `none` models the
`unreachable!()` for non-HTTP protocols. -/
def sicStats (param : ParseParam) (log : HttpLogSt) (info : HttpInfo) :
    Option (HttpLogSt × HttpInfo) :=
  match log.proto with
  | .http1 =>
    let (log, info) := match param.direction with
      | .c2s => ({ log with perfStats := mapPerf log.perfStats (·.incReq) }, info)
      | .s2c =>
        let (log, info) := match info.grpcStatusCode with
          | some code => setGrpcStatus log code info
          | none => setStatus log info.statusCode info
        ({ log with perfStats := mapPerf log.perfStats (·.incResp) }, info)
    some (calRrtApply param log info)
  | .http2 | .grpc =>
    match param.ebpfType with
    | .goHttp2Uprobe =>
      let log := if info.isReqEnd then
          { log with perfStats := mapPerf log.perfStats (·.incReq) }
        else log
      let log := if info.isRespEnd then
          { log with perfStats := mapPerf log.perfStats (·.incResp) }
        else log
      let info := calRrtMultiApply param info
      let log := if info.isReqEnd ∨ info.isRespEnd then
          let t := info.rrt
          { log with perfStats := mapPerf log.perfStats (fun p => p.updateRrt t) }
        else log
      if param.direction = .s2c then
        some (match info.grpcStatusCode with
          | some code => setGrpcStatus log code info
          | none => setStatus log info.statusCode info)
      else some (log, info)
    | _ =>
      let (log, info) := match param.direction with
        | .c2s => ({ log with perfStats := mapPerf log.perfStats (·.incReq) }, info)
        | .s2c =>
          let log := { log with perfStats := mapPerf log.perfStats (·.incResp) }
          match info.grpcStatusCode with
          | some code => setGrpcStatus log code info
          | none => setStatus log info.statusCode info
      some (calRrtApply param log info)
  | _ => none

/-- `HttpLog::set_info_by_config` (`none` = panic). -/
def setInfoByConfig (param : ParseParam) (config : LogParserConfig)
    (log : HttpLogSt) (info : HttpInfo) : Option (HttpLogSt × HttpInfo) :=
  let info := if param.ebpfType ≠ .goHttp2Uprobe then wasmHook param info
    else info
  let info := if config.obfuscateEnabled .http1 ∨ config.obfuscateEnabled .http2 then
      match info.path.findIdx? (· = 63) with
      | some index => { info with path := info.path.take (index + 1) }
      | none => info
    else info
  let t := info.grpcPackageServiceName
  let info := { info with serviceName := t }
  match (if ¬ config.httpEndpointDisabled ∧ info.path.length > 0 then
      let path := match info.endpoint with
        | some p => if p ≠ [] then p else info.path
        | none => info.path
      match handleEndpoint config path with
      | none => none
      | some e => some { info with endpoint := some e }
    else some info : Option HttpInfo) with
  | none => none
  | some info =>
    let info := info.setIsOnBlacklist config
    match (if ¬ info.isOnBlacklist ∧ ¬ log.lastIsOnBlacklist then
        sicStats param log info
      else some (log, info) : Option (HttpLogSt × HttpInfo)) with
    | none => none
    | some (log, info) =>
      some ({ log with lastIsOnBlacklist := info.isOnBlacklist }, info)

/-- `L7ParseResult`, restricted to the HTTP constructors. -/
inductive HttpParseResult
  | nothing
  | single (info : HttpInfo)
  | multi (infos : List HttpInfo)
  deriving Repr, DecidableEq

/-- `Result::is_ok`. -/
def exceptIsOk {e a : Type} : Except e a → Bool
  | .ok _ => true
  | .error _ => false

/-- `HttpLog::check_payload` (`none` = panic): the verdict plus the
parser state (perf-stats init and decoder init persist). -/
def checkPayload (ext : HExt) (log : HttpLogSt) (payload : List Nat)
    (param : ParseParam) : Option (Bool × HttpLogSt) :=
  if param.l4Protocol ≠ .tcp then some (false, log)
  else
    let info : HttpInfo := {}
    let log := if log.perfStats.isNone ∧ param.parsePerf then
        { log with perfStats := some {} }
      else log
    match log.proto with
    | .http1 => some (http1CheckProtocol payload, log)
    | .http2 | .grpc =>
      match param.parseConfig with
      | none => some (false, log)
      | some _ =>
        let log := if log.http2ReqDecoder.isNone then log.setHeaderDecoder ext
          else log
        match param.ebpfType with
        | .goHttp2Uprobe | .goHttp2UprobeData | .unixSocket =>
          if param.direction = .s2c then some (false, log)
          else
            match param.parseConfig with
            | none => none
            | some config =>
              match checkHttp2GoUprobe config.l7LogDynamic payload param log info with
              | none => none
              | some (log, _, res) => some (exceptIsOk res, log)
        | _ =>
          match checkHttpV2 ext param payload log info with
          | none => none
          | some (log, res) => some (exceptIsOk res, log)
    | _ => none

/-- The HTTP/2 accumulation loop of `parse_payload` (`none` = panic or
fuel exhaustion, the latter proved unreachable). -/
def ppLoop (ext : HExt) (param : ParseParam) (config : LogParserConfig)
    (payload : List Nat) :
    Nat → Nat → List HttpInfo → FgError → HttpLogSt →
    Option (HttpLogSt × List HttpInfo × FgError)
  | 0, _, _, _, _ => none
  | fuel + 1, offset, infos, lastError, log =>
    if offset > payload.length then some (log, infos, lastError)
    else
      let info : HttpInfo := { proto := log.proto, isTls := param.isTls }
      match sliceFrom payload offset with
      | none => none
      | some sliced =>
        match (match param.ebpfType with
          | .goHttp2Uprobe =>
            parseHttp2GoUprobe config.l7LogDynamic sliced param log info
          | _ =>
            match parseHttpV2 ext param sliced log info with
            | none => none
            | some (log, .error e) => some (log, info, .error e)
            | some (log, .ok (n, info)) => some (log, info, .ok n)
          : Option (HttpLogSt × HttpInfo × Except FgError Nat)) with
        | none => none
        | some (log, _, .error e) => some (log, infos, e)
        | some (log, info, .ok n) =>
          match setInfoByConfig param config log info with
          | none => none
          | some (log, info) =>
            let infos := if ¬ info.isInvalid ∨ info.proto = .grpc then
                let info := match info.headersOffset with
                  | some h => { info with headersOffset := some (h + offset) }
                  | none => info
                infos ++ [info]
              else infos
            ppLoop ext param config payload fuel (offset + n) infos lastError log

/-- `HttpLog::parse_payload` (`none` = panic). -/
def parsePayload (ext : HExt) (log : HttpLogSt) (payload : List Nat)
    (param : ParseParam) :
    Option (HttpLogSt × Except FgError HttpParseResult) :=
  match param.parseConfig with
  | none => some (log, .error .noParseConfig)
  | some config =>
    let log := if log.perfStats.isNone ∧ param.parsePerf then
        { log with perfStats := some {} }
      else log
    match log.proto with
    | .http1 =>
      let info : HttpInfo := { proto := log.proto, isTls := param.isTls }
      match parseHttpV1 param payload log info with
      | none => none
      | some (log, _, some e) => some (log, .error e)
      | some (log, info, none) =>
        match setInfoByConfig param config log info with
        | none => none
        | some (log, info) =>
          if param.parseLog then some (log, .ok (.single info))
          else some (log, .ok .nothing)
    | .http2 | .grpc =>
      let log := if log.http2ReqDecoder.isNone then log.setHeaderDecoder ext
        else log
      match ppLoop ext param config payload (payload.length + 2) 0 []
          .httpHeaderParseFailed log with
      | none => none
      | some (log, infos, lastError) =>
        if param.parseLog then
          if infos ≠ [] then some (log, .ok (.multi infos))
          else some (log, .error lastError)
        else some (log, .ok .nothing)
    | _ => none

end Http

/-! ## C1: totality of the entry points -/

/-- Totality and measure bound for the `KvExtractor::next` loop: with fuel
above the segment measure and `last_key` present whenever the token state
expects one, the loop neither panics nor exhausts its fuel, and a yielded
iterator state is strictly smaller when starting from `Key`. -/
theorem kvNextLoop_spec :
    ∀ (fuel : Nat) (segs : List (List Nat)) (lastSeg : Option (List Nat))
      (tok : Mysql.Token) (lastKey : Option (List Nat)),
      segs.length + (if lastSeg.isSome then 1 else 0) < fuel →
      (tok = .value → lastKey.isSome = true) →
      (tok = .separator → lastKey.isSome = true) →
      (Mysql.kvNextLoop fuel segs lastSeg tok lastKey).isSome = true ∧
      ∀ kv st', Mysql.kvNextLoop fuel segs lastSeg tok lastKey
          = some (some (kv, st')) →
        st'.measure ≤ segs.length + (if lastSeg.isSome then 1 else 0) ∧
        (tok = Mysql.Token.key →
          st'.measure + 1 ≤ segs.length + (if lastSeg.isSome then 1 else 0)) := by
  intro fuel
  induction fuel with
  | zero =>
    intro segs lastSeg tok lastKey hm
    exact absurd hm (Nat.not_lt_zero _)
  | succ fuel ih =>
    intro segs lastSeg tok lastKey hm hv hs
    suffices h : ∀ B : Nat,
        segs.length + (if lastSeg.isSome then 1 else 0) = B →
        ∀ r, Mysql.kvNextLoop (fuel + 1) segs lastSeg tok lastKey = r →
          r.isSome = true ∧
          ∀ kv st', r = some (some (kv, st')) →
            st'.measure ≤ B ∧
            (tok = Mysql.Token.key → st'.measure + 1 ≤ B) by
      obtain ⟨h1, h2⟩ := h _ rfl _ rfl
      exact ⟨h1, h2⟩
    intro B hB r hr
    cases lastSeg with
    | some s =>
      have hB' : segs.length + 1 = B := by simpa using hB
      have hrec : segs.length < fuel := by
        simp at hm
        omega
      simp only [Mysql.kvNextLoop] at hr
      split at hr
      · -- empty segment: skip it
                    subst hr
                    refine ⟨?_, fun kv st' hk => ?_⟩
                    · exact (ih _ _ _ _ (by simpa using hrec) (by
                        first
                        | exact hv
                        | exact hs
                        | (intro h
                           exact absurd h (by decide))
                        | (intro h
                           rfl)
                        | (intro h
                           exact hksome)) (by
                        first
                        | exact hv
                        | exact hs
                        | (intro h
                           exact absurd h (by decide))
                        | (intro h
                           rfl)
                        | (intro h
                           exact hksome))).1
                    · have hb := ((ih _ _ _ _ (by simpa using hrec) (by
                        first
                        | exact hv
                        | exact hs
                        | (intro h
                           exact absurd h (by decide))
                        | (intro h
                           rfl)
                        | (intro h
                           exact hksome)) (by
                        first
                        | exact hv
                        | exact hs
                        | (intro h
                           exact absurd h (by decide))
                        | (intro h
                           rfl)
                        | (intro h
                           exact hksome))).2 kv st' hk).1
                      simp at hb
                      exact ⟨by omega, fun _ => by omega⟩
      · split at hr
        · -- trailing comma
          split at hr
          · -- yields the pending pair
            rename_i hcond
            cases lastKey with
            | none =>
              have := hv hcond.2
              simp at this
            | some k =>
              subst hr
              refine ⟨rfl, fun kv st' hk => ?_⟩
              injection hk with hk1
              injection hk1 with hk2
              injection hk2 with hkv hst
              subst hst
              refine ⟨?_, fun _ => ?_⟩ <;> simp [Mysql.KvSt.measure] <;> omega
          · -- restart at Key
                        subst hr
                        refine ⟨?_, fun kv st' hk => ?_⟩
                        · exact (ih _ _ _ _ (by simpa using hrec) (by
                            first
                            | exact hv
                            | exact hs
                            | (intro h
                               exact absurd h (by decide))
                            | (intro h
                               rfl)
                            | (intro h
                               exact hksome)) (by
                            first
                            | exact hv
                            | exact hs
                            | (intro h
                               exact absurd h (by decide))
                            | (intro h
                               rfl)
                            | (intro h
                               exact hksome))).1
                        · have hb := ((ih _ _ _ _ (by simpa using hrec) (by
                            first
                            | exact hv
                            | exact hs
                            | (intro h
                               exact absurd h (by decide))
                            | (intro h
                               rfl)
                            | (intro h
                               exact hksome)) (by
                            first
                            | exact hv
                            | exact hs
                            | (intro h
                               exact absurd h (by decide))
                            | (intro h
                               rfl)
                            | (intro h
                               exact hksome))).2 kv st' hk).1
                          simp at hb
                          exact ⟨by omega, fun _ => by omega⟩
        · split at hr
          · -- a colon or equals separator
            split at hr
            · -- non-empty expression
              split at hr
              · -- a Value is expected: yield, pushing the segment back
                rename_i htokv
                cases lastKey with
                | none =>
                  have := hv htokv
                  simp at this
                | some k =>
                  subst hr
                  refine ⟨rfl, fun kv st' hk => ?_⟩
                  injection hk with hk1
                  injection hk1 with hk2
                  injection hk2 with hkv hst
                  subst hst
                  refine ⟨?_, fun htok => ?_⟩
                  · simp [Mysql.KvSt.measure]
                    omega
                  · rw [htok] at htokv
                    cases htokv
              · -- record the key, expect a Value next
                            subst hr
                            refine ⟨?_, fun kv st' hk => ?_⟩
                            · exact (ih _ _ _ _ (by simpa using hrec) (by
                                first
                                | exact hv
                                | exact hs
                                | (intro h
                                   exact absurd h (by decide))
                                | (intro h
                                   rfl)
                                | (intro h
                                   exact hksome)) (by
                                first
                                | exact hv
                                | exact hs
                                | (intro h
                                   exact absurd h (by decide))
                                | (intro h
                                   rfl)
                                | (intro h
                                   exact hksome))).1
                            · have hb := ((ih _ _ _ _ (by simpa using hrec) (by
                                first
                                | exact hv
                                | exact hs
                                | (intro h
                                   exact absurd h (by decide))
                                | (intro h
                                   rfl)
                                | (intro h
                                   exact hksome)) (by
                                first
                                | exact hv
                                | exact hs
                                | (intro h
                                   exact absurd h (by decide))
                                | (intro h
                                   rfl)
                                | (intro h
                                   exact hksome))).2 kv st' hk).1
                              simp at hb
                              exact ⟨by omega, fun _ => by omega⟩
            · -- bare separator
              split at hr
              · -- after a Separator token
                rename_i htoks
                split at hr
                · -- the recorded key exists
                  rename_i hksome
                  subst hr
                  refine ⟨?_, fun kv st' hk => ?_⟩
                  · exact (ih _ _ _ _ (by simpa using hrec) (by
                      first
                      | exact hv
                      | exact hs
                      | (intro h
                         exact absurd h (by decide))
                      | (intro h
                         rfl)
                      | (intro h
                         exact hksome)) (by
                      first
                      | exact hv
                      | exact hs
                      | (intro h
                         exact absurd h (by decide))
                      | (intro h
                         rfl)
                      | (intro h
                         exact hksome))).1
                  · have hb := ((ih _ _ _ _ (by simpa using hrec) (by
                      first
                      | exact hv
                      | exact hs
                      | (intro h
                         exact absurd h (by decide))
                      | (intro h
                         rfl)
                      | (intro h
                         exact hksome)) (by
                      first
                      | exact hv
                      | exact hs
                      | (intro h
                         exact absurd h (by decide))
                      | (intro h
                         rfl)
                      | (intro h
                         exact hksome))).2 kv st' hk).1
                    simp at hb
                    exact ⟨by omega, fun _ => by omega⟩
                · -- `assert!(last_key.is_some())`, ruled out by the invariant
                  rename_i hknone
                  exact absurd (hs htoks) hknone
              · -- restart at Key
                            subst hr
                            refine ⟨?_, fun kv st' hk => ?_⟩
                            · exact (ih _ _ _ _ (by simpa using hrec) (by
                                first
                                | exact hv
                                | exact hs
                                | (intro h
                                   exact absurd h (by decide))
                                | (intro h
                                   rfl)
                                | (intro h
                                   exact hksome)) (by
                                first
                                | exact hv
                                | exact hs
                                | (intro h
                                   exact absurd h (by decide))
                                | (intro h
                                   rfl)
                                | (intro h
                                   exact hksome))).1
                            · have hb := ((ih _ _ _ _ (by simpa using hrec) (by
                                first
                                | exact hv
                                | exact hs
                                | (intro h
                                   exact absurd h (by decide))
                                | (intro h
                                   rfl)
                                | (intro h
                                   exact hksome)) (by
                                first
                                | exact hv
                                | exact hs
                                | (intro h
                                   exact absurd h (by decide))
                                | (intro h
                                   rfl)
                                | (intro h
                                   exact hksome))).2 kv st' hk).1
                              simp at hb
                              exact ⟨by omega, fun _ => by omega⟩
          · -- plain expression segment
            split at hr
            · -- whitespace-only: skip
                          subst hr
                          refine ⟨?_, fun kv st' hk => ?_⟩
                          · exact (ih _ _ _ _ (by simpa using hrec) (by
                              first
                              | exact hv
                              | exact hs
                              | (intro h
                                 exact absurd h (by decide))
                              | (intro h
                                 rfl)
                              | (intro h
                                 exact hksome)) (by
                              first
                              | exact hv
                              | exact hs
                              | (intro h
                                 exact absurd h (by decide))
                              | (intro h
                                 rfl)
                              | (intro h
                                 exact hksome))).1
                          · have hb := ((ih _ _ _ _ (by simpa using hrec) (by
                              first
                              | exact hv
                              | exact hs
                              | (intro h
                                 exact absurd h (by decide))
                              | (intro h
                                 rfl)
                              | (intro h
                                 exact hksome)) (by
                              first
                              | exact hv
                              | exact hs
                              | (intro h
                                 exact absurd h (by decide))
                              | (intro h
                                 rfl)
                              | (intro h
                                 exact hksome))).2 kv st' hk).1
                            simp at hb
                            exact ⟨by omega, fun _ => by omega⟩
            · split at hr
              · -- a Value is expected: yield, pushing the segment back
                cases lastKey with
                | none =>
                  have := hv rfl
                  simp at this
                | some k =>
                  subst hr
                  refine ⟨rfl, fun kv st' hk => ?_⟩
                  injection hk with hk1
                  injection hk1 with hk2
                  injection hk2 with hkv hst
                  subst hst
                  refine ⟨?_, fun htok => ?_⟩
                  · simp [Mysql.KvSt.measure]
                    omega
                  · cases htok
              · -- remember the expression as the key candidate
                            subst hr
                            refine ⟨?_, fun kv st' hk => ?_⟩
                            · exact (ih _ _ _ _ (by simpa using hrec) (by
                                first
                                | exact hv
                                | exact hs
                                | (intro h
                                   exact absurd h (by decide))
                                | (intro h
                                   rfl)
                                | (intro h
                                   exact hksome)) (by
                                first
                                | exact hv
                                | exact hs
                                | (intro h
                                   exact absurd h (by decide))
                                | (intro h
                                   rfl)
                                | (intro h
                                   exact hksome))).1
                            · have hb := ((ih _ _ _ _ (by simpa using hrec) (by
                                first
                                | exact hv
                                | exact hs
                                | (intro h
                                   exact absurd h (by decide))
                                | (intro h
                                   rfl)
                                | (intro h
                                   exact hksome)) (by
                                first
                                | exact hv
                                | exact hs
                                | (intro h
                                   exact absurd h (by decide))
                                | (intro h
                                   rfl)
                                | (intro h
                                   exact hksome))).2 kv st' hk).1
                              simp at hb
                              exact ⟨by omega, fun _ => by omega⟩
    | none =>
      cases segs with
      | nil =>
        simp only [Mysql.kvNextLoop] at hr
        subst hr
        exact ⟨rfl, fun kv st' hk => absurd hk (by simp)⟩
      | cons s rest =>
        have hB' : rest.length + 1 = B := by simpa using hB
        have hrec : rest.length < fuel := by
          simp at hm
          omega
        simp only [Mysql.kvNextLoop] at hr
        split at hr
        · -- empty segment: skip it
                      subst hr
                      refine ⟨?_, fun kv st' hk => ?_⟩
                      · exact (ih _ _ _ _ (by simpa using hrec) (by
                          first
                          | exact hv
                          | exact hs
                          | (intro h
                             exact absurd h (by decide))
                          | (intro h
                             rfl)
                          | (intro h
                             exact hksome)) (by
                          first
                          | exact hv
                          | exact hs
                          | (intro h
                             exact absurd h (by decide))
                          | (intro h
                             rfl)
                          | (intro h
                             exact hksome))).1
                      · have hb := ((ih _ _ _ _ (by simpa using hrec) (by
                          first
                          | exact hv
                          | exact hs
                          | (intro h
                             exact absurd h (by decide))
                          | (intro h
                             rfl)
                          | (intro h
                             exact hksome)) (by
                          first
                          | exact hv
                          | exact hs
                          | (intro h
                             exact absurd h (by decide))
                          | (intro h
                             rfl)
                          | (intro h
                             exact hksome))).2 kv st' hk).1
                        simp at hb
                        exact ⟨by omega, fun _ => by omega⟩
        · split at hr
          · -- trailing comma
            split at hr
            · -- yields the pending pair
              rename_i hcond
              cases lastKey with
              | none =>
                have := hv hcond.2
                simp at this
              | some k =>
                subst hr
                refine ⟨rfl, fun kv st' hk => ?_⟩
                injection hk with hk1
                injection hk1 with hk2
                injection hk2 with hkv hst
                subst hst
                refine ⟨?_, fun _ => ?_⟩ <;> simp [Mysql.KvSt.measure] <;> omega
            · -- restart at Key
                          subst hr
                          refine ⟨?_, fun kv st' hk => ?_⟩
                          · exact (ih _ _ _ _ (by simpa using hrec) (by
                              first
                              | exact hv
                              | exact hs
                              | (intro h
                                 exact absurd h (by decide))
                              | (intro h
                                 rfl)
                              | (intro h
                                 exact hksome)) (by
                              first
                              | exact hv
                              | exact hs
                              | (intro h
                                 exact absurd h (by decide))
                              | (intro h
                                 rfl)
                              | (intro h
                                 exact hksome))).1
                          · have hb := ((ih _ _ _ _ (by simpa using hrec) (by
                              first
                              | exact hv
                              | exact hs
                              | (intro h
                                 exact absurd h (by decide))
                              | (intro h
                                 rfl)
                              | (intro h
                                 exact hksome)) (by
                              first
                              | exact hv
                              | exact hs
                              | (intro h
                                 exact absurd h (by decide))
                              | (intro h
                                 rfl)
                              | (intro h
                                 exact hksome))).2 kv st' hk).1
                            simp at hb
                            exact ⟨by omega, fun _ => by omega⟩
          · split at hr
            · -- a colon or equals separator
              split at hr
              · -- non-empty expression
                split at hr
                · -- a Value is expected: yield, pushing the segment back
                  rename_i htokv
                  cases lastKey with
                  | none =>
                    have := hv htokv
                    simp at this
                  | some k =>
                    subst hr
                    refine ⟨rfl, fun kv st' hk => ?_⟩
                    injection hk with hk1
                    injection hk1 with hk2
                    injection hk2 with hkv hst
                    subst hst
                    refine ⟨?_, fun htok => ?_⟩
                    · simp [Mysql.KvSt.measure]
                      omega
                    · rw [htok] at htokv
                      cases htokv
                · -- record the key, expect a Value next
                              subst hr
                              refine ⟨?_, fun kv st' hk => ?_⟩
                              · exact (ih _ _ _ _ (by simpa using hrec) (by
                                  first
                                  | exact hv
                                  | exact hs
                                  | (intro h
                                     exact absurd h (by decide))
                                  | (intro h
                                     rfl)
                                  | (intro h
                                     exact hksome)) (by
                                  first
                                  | exact hv
                                  | exact hs
                                  | (intro h
                                     exact absurd h (by decide))
                                  | (intro h
                                     rfl)
                                  | (intro h
                                     exact hksome))).1
                              · have hb := ((ih _ _ _ _ (by simpa using hrec) (by
                                  first
                                  | exact hv
                                  | exact hs
                                  | (intro h
                                     exact absurd h (by decide))
                                  | (intro h
                                     rfl)
                                  | (intro h
                                     exact hksome)) (by
                                  first
                                  | exact hv
                                  | exact hs
                                  | (intro h
                                     exact absurd h (by decide))
                                  | (intro h
                                     rfl)
                                  | (intro h
                                     exact hksome))).2 kv st' hk).1
                                simp at hb
                                exact ⟨by omega, fun _ => by omega⟩
              · -- bare separator
                split at hr
                · -- after a Separator token
                  rename_i htoks
                  split at hr
                  · -- the recorded key exists
                    rename_i hksome
                    subst hr
                    refine ⟨?_, fun kv st' hk => ?_⟩
                    · exact (ih _ _ _ _ (by simpa using hrec) (by
                        first
                        | exact hv
                        | exact hs
                        | (intro h
                           exact absurd h (by decide))
                        | (intro h
                           rfl)
                        | (intro h
                           exact hksome)) (by
                        first
                        | exact hv
                        | exact hs
                        | (intro h
                           exact absurd h (by decide))
                        | (intro h
                           rfl)
                        | (intro h
                           exact hksome))).1
                    · have hb := ((ih _ _ _ _ (by simpa using hrec) (by
                        first
                        | exact hv
                        | exact hs
                        | (intro h
                           exact absurd h (by decide))
                        | (intro h
                           rfl)
                        | (intro h
                           exact hksome)) (by
                        first
                        | exact hv
                        | exact hs
                        | (intro h
                           exact absurd h (by decide))
                        | (intro h
                           rfl)
                        | (intro h
                           exact hksome))).2 kv st' hk).1
                      simp at hb
                      exact ⟨by omega, fun _ => by omega⟩
                  · -- `assert!(last_key.is_some())`, ruled out by the invariant
                    rename_i hknone
                    exact absurd (hs htoks) hknone
                · -- restart at Key
                              subst hr
                              refine ⟨?_, fun kv st' hk => ?_⟩
                              · exact (ih _ _ _ _ (by simpa using hrec) (by
                                  first
                                  | exact hv
                                  | exact hs
                                  | (intro h
                                     exact absurd h (by decide))
                                  | (intro h
                                     rfl)
                                  | (intro h
                                     exact hksome)) (by
                                  first
                                  | exact hv
                                  | exact hs
                                  | (intro h
                                     exact absurd h (by decide))
                                  | (intro h
                                     rfl)
                                  | (intro h
                                     exact hksome))).1
                              · have hb := ((ih _ _ _ _ (by simpa using hrec) (by
                                  first
                                  | exact hv
                                  | exact hs
                                  | (intro h
                                     exact absurd h (by decide))
                                  | (intro h
                                     rfl)
                                  | (intro h
                                     exact hksome)) (by
                                  first
                                  | exact hv
                                  | exact hs
                                  | (intro h
                                     exact absurd h (by decide))
                                  | (intro h
                                     rfl)
                                  | (intro h
                                     exact hksome))).2 kv st' hk).1
                                simp at hb
                                exact ⟨by omega, fun _ => by omega⟩
            · -- plain expression segment
              split at hr
              · -- whitespace-only: skip
                            subst hr
                            refine ⟨?_, fun kv st' hk => ?_⟩
                            · exact (ih _ _ _ _ (by simpa using hrec) (by
                                first
                                | exact hv
                                | exact hs
                                | (intro h
                                   exact absurd h (by decide))
                                | (intro h
                                   rfl)
                                | (intro h
                                   exact hksome)) (by
                                first
                                | exact hv
                                | exact hs
                                | (intro h
                                   exact absurd h (by decide))
                                | (intro h
                                   rfl)
                                | (intro h
                                   exact hksome))).1
                            · have hb := ((ih _ _ _ _ (by simpa using hrec) (by
                                first
                                | exact hv
                                | exact hs
                                | (intro h
                                   exact absurd h (by decide))
                                | (intro h
                                   rfl)
                                | (intro h
                                   exact hksome)) (by
                                first
                                | exact hv
                                | exact hs
                                | (intro h
                                   exact absurd h (by decide))
                                | (intro h
                                   rfl)
                                | (intro h
                                   exact hksome))).2 kv st' hk).1
                              simp at hb
                              exact ⟨by omega, fun _ => by omega⟩
              · split at hr
                · -- a Value is expected: yield, pushing the segment back
                  cases lastKey with
                  | none =>
                    have := hv rfl
                    simp at this
                  | some k =>
                    subst hr
                    refine ⟨rfl, fun kv st' hk => ?_⟩
                    injection hk with hk1
                    injection hk1 with hk2
                    injection hk2 with hkv hst
                    subst hst
                    refine ⟨?_, fun htok => ?_⟩
                    · simp [Mysql.KvSt.measure]
                      omega
                    · cases htok
                · -- remember the expression as the key candidate
                              subst hr
                              refine ⟨?_, fun kv st' hk => ?_⟩
                              · exact (ih _ _ _ _ (by simpa using hrec) (by
                                  first
                                  | exact hv
                                  | exact hs
                                  | (intro h
                                     exact absurd h (by decide))
                                  | (intro h
                                     rfl)
                                  | (intro h
                                     exact hksome)) (by
                                  first
                                  | exact hv
                                  | exact hs
                                  | (intro h
                                     exact absurd h (by decide))
                                  | (intro h
                                     rfl)
                                  | (intro h
                                     exact hksome))).1
                              · have hb := ((ih _ _ _ _ (by simpa using hrec) (by
                                  first
                                  | exact hv
                                  | exact hs
                                  | (intro h
                                     exact absurd h (by decide))
                                  | (intro h
                                     rfl)
                                  | (intro h
                                     exact hksome)) (by
                                  first
                                  | exact hv
                                  | exact hs
                                  | (intro h
                                     exact absurd h (by decide))
                                  | (intro h
                                     rfl)
                                  | (intro h
                                     exact hksome))).2 kv st' hk).1
                                simp at hb
                                exact ⟨by omega, fun _ => by omega⟩

/-- `KvExtractor::next` never panics and strictly shrinks the measure. -/
theorem kvNext_spec (st : Mysql.KvSt) :
    (Mysql.kvNext st).isSome = true ∧
    ∀ kv st', Mysql.kvNext st = some (some (kv, st')) →
      st'.measure + 1 ≤ st.measure := by
  obtain ⟨h1, h2⟩ := kvNextLoop_spec (st.measure + 1) st.segs st.lastSeg .key none
    (by
      rw [show st.measure
        = st.segs.length + (if st.lastSeg.isSome then 1 else 0) from rfl]
      exact Nat.lt_succ_self _)
    (by intro h; cases h) (by intro h; cases h)
  refine ⟨h1, fun kv st' hk => ?_⟩
  have hb := (h2 kv st' hk).2 rfl
  rw [show st.measure
    = st.segs.length + (if st.lastSeg.isSome then 1 else 0) from rfl]
  exact hb

/-- The key/value scan over one comment never panics. -/
theorem kvScan_isSome (config : L7LogDynamicConfig) :
    ∀ (fuel : Nat) (st : Mysql.KvSt) (tid sid : Option (List Nat)),
      st.measure < fuel →
      (Mysql.kvScan config fuel st tid sid).isSome = true := by
  intro fuel
  induction fuel with
  | zero =>
    intro st tid sid h
    exact absurd h (Nat.not_lt_zero _)
  | succ fuel ih =>
    intro st tid sid h
    obtain ⟨h1, h2⟩ := kvNext_spec st
    simp only [Mysql.kvScan]
    cases hk : Mysql.kvNext st with
    | none =>
      rw [hk] at h1
      simp at h1
    | some o =>
      cases o with
      | none => rfl
      | some pr =>
        obtain ⟨⟨key, value⟩, st'⟩ := pr
        have hb := h2 _ _ hk
        dsimp only
        split
        · rfl
        · exact ih st' _ _ (by omega)

/-- The `'outer` loop over SQL comments never panics. -/
theorem commentScan_isSome (config : L7LogDynamicConfig) :
    ∀ (comments : List (List Nat)) (tid sid : Option (List Nat)),
      (Mysql.commentScan config comments tid sid).isSome = true := by
  intro comments
  induction comments with
  | nil => intro tid sid; rfl
  | cons c rest ih =>
    intro tid sid
    simp only [Mysql.commentScan]
    have h := kvScan_isSome config ((Mysql.KvSt.new c).measure + 1)
      (Mysql.KvSt.new c) tid sid (Nat.lt_succ_self _)
    cases hk : Mysql.kvScan config ((Mysql.KvSt.new c).measure + 1)
        (Mysql.KvSt.new c) tid sid with
    | none =>
      rw [hk] at h
      simp at h
    | some pr =>
      obtain ⟨tid2, sid2, broke⟩ := pr
      dsimp only
      split
      · rfl
      · exact ih tid2 sid2

/-- `MysqlInfo::extract_trace_and_span_id` never panics. -/
theorem extractTraceAndSpanId_isSome (ext : Mysql.MExt)
    (config : L7LogDynamicConfig) (info : Mysql.MysqlInfo) (sql : List Nat) :
    (info.extractTraceAndSpanId ext config sql).isSome = true := by
  unfold Mysql.MysqlInfo.extractTraceAndSpanId
  split
  · rfl
  · have h := commentScan_isSome config (ext.comments sql) info.traceId info.spanId
    cases hk : Mysql.commentScan config (ext.comments sql) info.traceId info.spanId with
    | none =>
      rw [hk] at h
      simp at h
    | some pr => rfl

/-- `MysqlInfo::request_string` never panics. -/
theorem requestString_ne_crash (ext : Mysql.MExt)
    (config : Option LogParserConfig) (info : Mysql.MysqlInfo)
    (payload : List Nat) (obf : Bool) :
    info.requestString ext config payload obf ≠ .crash := by
  unfold Mysql.MysqlInfo.requestString
  simp only [RRes.bind_def]
  split
  · simp
  · split
    · simp
    · cases config with
      | none => simp
      | some c =>
        have h := extractTraceAndSpanId_isSome ext c.l7LogDynamic info
          (Mysql.mysqlString payload)
        cases hk : Mysql.MysqlInfo.extractTraceAndSpanId ext c.l7LogDynamic info
            (Mysql.mysqlString payload) with
        | none =>
          rw [hk] at h
          simp at h
        | some info2 => simp [hk, RRes.pc]

end DeepFlow

namespace DeepFlow

/-! # Theorems -/

/-- C10: every `MysqlInfo` has `session_id() = None`, and `skip_send()`
returns `true` exactly for records whose `msg_type` is `Response`, so an
unmerged MySQL response record is never exported standalone. -/
theorem mysql_session_id_and_skip_send (info : Mysql.MysqlInfo) :
    info.sessionId = none ∧ (info.skipSend = true ↔ info.msgType = .response) := by
  refine ⟨rfl, ?_⟩
  cases h : info.msgType <;> simp [Mysql.MysqlInfo.skipSend, h]

/-- Helper: `set_captured_byte!` touches neither `msg_type` nor
`status`. -/
theorem setCapturedByte_type_status (param : ParseParam)
    (info : Mysql.MysqlInfo) :
    (Mysql.setCapturedByte param info).msgType = info.msgType
      ∧ (Mysql.setCapturedByte param info).status = info.status := by
  unfold Mysql.setCapturedByte
  cases param.direction <;> exact ⟨rfl, rfl⟩

/-- Helper: the blacklist step touches neither `msg_type` nor `status`. -/
theorem applyBlacklistCfg_type_status (param : ParseParam)
    (info : Mysql.MysqlInfo) :
    (Mysql.applyBlacklistCfg param info).msgType = info.msgType
      ∧ (Mysql.applyBlacklistCfg param info).status = info.status := by
  unfold Mysql.applyBlacklistCfg Mysql.MysqlInfo.setIsOnBlacklist
  cases param.parseConfig with
  | none => exact ⟨rfl, rfl⟩
  | some config => cases h : config.blacklistOf .mysql <;> simp [h]

/-- Helper: the RRT step touches neither `msg_type` nor `status`. -/
theorem tailRrt_type_status (param : ParseParam) (st : Mysql.MysqlLogSt)
    (info : Mysql.MysqlInfo) :
    (Mysql.tailRrt param st info).2.msgType = info.msgType
      ∧ (Mysql.tailRrt param st info).2.status = info.status := by
  unfold Mysql.tailRrt
  split
  · cases hr : param.calRrt with
    | none => exact ⟨rfl, rfl⟩
    | some v => exact ⟨rfl, rfl⟩
  · exact ⟨rfl, rfl⟩

/-- Helper: when `parse_log` is set, the fall-through tail of
`MysqlLog::parse_payload` always produces a single record and does not
change its `msg_type` or `status`. -/
theorem mysqlTailSingle (param : ParseParam) (st : Mysql.MysqlLogSt)
    (info : Mysql.MysqlInfo) (hlog : param.parseLog = true) :
    ∃ st2 info2, Mysql.parsePayloadTail param st info
      = some (.ok (.single info2), st2)
      ∧ info2.msgType = info.msgType ∧ info2.status = info.status := by
  obtain ⟨h1, h2⟩ := setCapturedByte_type_status param info
  obtain ⟨h3, h4⟩ :=
    applyBlacklistCfg_type_status param (Mysql.setCapturedByte param info)
  obtain ⟨h5, h6⟩ := tailRrt_type_status param
    (Mysql.tailPerf param st
      (Mysql.applyBlacklistCfg param (Mysql.setCapturedByte param info)))
    (Mysql.applyBlacklistCfg param (Mysql.setCapturedByte param info))
  refine
    ⟨{ (Mysql.tailRrt param
          (Mysql.tailPerf param st
            (Mysql.applyBlacklistCfg param (Mysql.setCapturedByte param info)))
          (Mysql.applyBlacklistCfg param (Mysql.setCapturedByte param info))).1 with
        lastIsOnBlacklist :=
          (Mysql.tailRrt param
            (Mysql.tailPerf param st
              (Mysql.applyBlacklistCfg param (Mysql.setCapturedByte param info)))
            (Mysql.applyBlacklistCfg param
              (Mysql.setCapturedByte param info))).2.isOnBlacklist },
      (Mysql.tailRrt param
        (Mysql.tailPerf param st
          (Mysql.applyBlacklistCfg param (Mysql.setCapturedByte param info)))
        (Mysql.applyBlacklistCfg param (Mysql.setCapturedByte param info))).2,
      ?_, ?_, ?_⟩
  · unfold Mysql.parsePayloadTail
    rw [hlog]
    rfl
  · rw [h5, h3, h1]
  · rw [h6, h4, h2]

/-- C2: (1) under a compressed connection, a packet whose declared
uncompressed length is 0 is treated as uncompressed and the parser cursor
starts right after the 7-byte compression header; (2) a packet with a
nonzero uncompressed length gets a zlib decoder over the post-header
bytes, and the next packet header is parsed out of the decompressed
stream; (3) a server-to-client payload on which `parse` fails with a
truncation error still yields a single record with `msg_type = Response`
and `status = Ok`. -/
theorem mysql_compression_policy :
    (∀ (ext : Mysql.MExt) (decompress : Bool) (a b c d : Nat)
      (rest payload : List Nat),
      payload = a :: b :: c :: d :: 0 :: 0 :: 0 :: rest →
      Mysql.PayloadParser.new ext decompress true payload
        = .ok ⟨rest, none⟩)
    ∧ (∀ (ext : Mysql.MExt) (a b c d u4 u5 u6 : Nat) (rest payload : List Nat),
      payload = a :: b :: c :: d :: u4 :: u5 :: u6 :: rest →
      u4 % 256 + 256 * (u5 % 256) + 65536 * (u6 % 256) ≠ 0 →
      Mysql.PayloadParser.new ext true true payload
        = .ok ⟨payload, some (ext.zlib rest)⟩)
    ∧ (∀ (s0 s1 s2 s3 : Nat) (pls srest : List Nat),
      Mysql.PPSt.tryNext ⟨pls, some (s0 :: s1 :: s2 :: s3 :: srest)⟩
        = .ok (⟨pls, some (srest.drop (b8 s0 + 256 * b8 s1 + 65536 * b8 s2))⟩,
            some (⟨b8 s0 + 256 * b8 s1 + 65536 * b8 s2, b8 s3⟩,
              srest.take (b8 s0 + 256 * b8 s1 + 65536 * b8 s2))))
    ∧ (∀ (ext : Mysql.MExt) (st st1 : Mysql.MysqlLogSt) (payload : List Nat)
      (param : ParseParam) (t : Mysql.TruncationType) (hch : Bool),
      param.l4Protocol = .tcp →
      param.direction = .s2c →
      param.parseLog = true →
      st.hasCompressedHeader = some hch →
      st1 = (if st.perfStats.isNone ∧ param.parsePerf then
          { st with perfStats := some {} } else st) →
      Mysql.parse ext param.parseConfig st1 payload .s2c
          { protocolVersion := st.protocolVersion, isTls := param.isTls }
        = .err (.truncated t) →
      ∃ st2 info,
        Mysql.parsePayload ext st payload param
          = some (.ok (.single info), st2)
        ∧ info.msgType = .response ∧ info.status = .ok) := by
  refine ⟨?_, ?_, ?_, ?_⟩
  · intro ext decompress a b c d rest payload hpl
    subst hpl
    simp [Mysql.PayloadParser.new, Mysql.COMPRESS_HEADER_LEN,
      Mysql.COMPRESS_HEADER_UNCOMPRESS_OFFSET, sliceFrom, byteAt, readU16le,
      RRes.pc, b8]
  · intro ext a b c d u4 u5 u6 rest payload hpl hnz
    subst hpl
    simp [Mysql.PayloadParser.new, Mysql.COMPRESS_HEADER_LEN,
      Mysql.COMPRESS_HEADER_UNCOMPRESS_OFFSET, sliceFrom, byteAt, readU16le,
      RRes.pc, b8]
    split
    · next h => exact absurd h (by omega)
    · split
      · rfl
      · next h2 => exact absurd (by omega) h2
  · intro s0 s1 s2 s3 pls srest
    simp only [Mysql.PPSt.tryNext, Mysql.MysqlHeader.new, Mysql.HEADER_LEN,
      readU32le, b8, List.length_cons, List.take_succ_cons, List.take_zero,
      List.drop_succ_cons, List.drop_zero]
    have h1 : s0 % 256 + 256 * (s1 % 256) + 65536 * (s2 % 256)
        + 16777216 * (s3 % 256) =
        (s0 % 256 + 256 * (s1 % 256) + 65536 * (s2 % 256))
        + 16777216 * (s3 % 256) := by ring
    have h2 : (s0 % 256 + 256 * (s1 % 256) + 65536 * (s2 % 256)
        + 16777216 * (s3 % 256)) % 16777216
        = s0 % 256 + 256 * (s1 % 256) + 65536 * (s2 % 256) := by omega
    have h3 : (s0 % 256 + 256 * (s1 % 256) + 65536 * (s2 % 256)
        + 16777216 * (s3 % 256)) / 16777216 % 256 = s3 % 256 := by omega
    simp [h2, h3]
  · intro ext st st1 payload param t hch htcp hdir hlog hhch hst1 hparse
    have hhch1 : st1.hasCompressedHeader = some hch := by
      rw [hst1]; split <;> exact hhch
    subst hst1
    rw [Mysql.parsePayload]
    rw [if_neg (show ¬(param.l4Protocol ≠ .tcp) from by simp [htcp])]
    simp only [hhch1, hdir, hparse]
    obtain ⟨st2, info2, h1, h2, h3⟩ :=
      mysqlTailSingle param _
        { protocolVersion := st.protocolVersion, isTls := param.isTls,
          msgType := .response, status := .ok } hlog
    exact ⟨st2, info2, h1, by simpa using h2, by simpa using h3⟩

/-- Witness for C2 at concrete inputs: an uncompressed-flagged packet, a
compressed packet, a header parsed from a decompressed stream, and a
truncated server-side payload yielding an (inferred Ok) response
record. -/
theorem mysql_compression_policy_witness :
    (Mysql.PayloadParser.new {} false true [9, 9, 9, 9, 0, 0, 0]
      = .ok ⟨[], none⟩)
    ∧ (Mysql.PayloadParser.new {} true true [1, 0, 0, 0, 1, 0, 0]
      = .ok ⟨[1, 0, 0, 0, 1, 0, 0], some (({} : Mysql.MExt).zlib [])⟩)
    ∧ (Mysql.PPSt.tryNext ⟨[], some [2, 0, 0, 5, 7, 7]⟩
      = .ok (⟨[], some []⟩, some (⟨2, 5⟩, [7, 7])))
    ∧ (∃ st2 info,
      Mysql.parsePayload {} { hasCompressedHeader := some false } [1, 2, 3]
          { direction := .s2c }
        = some (.ok (.single info), st2)
      ∧ info.msgType = .response ∧ info.status = .ok) := by
  refine ⟨?_, ?_, ?_, ?_⟩
  · exact mysql_compression_policy.1 {} false 9 9 9 9 [] _ rfl
  · exact mysql_compression_policy.2.1 {} 1 0 0 0 1 0 0 [] _ rfl (by decide)
  · exact mysql_compression_policy.2.2.1 2 0 0 5 [] [7, 7]
  · exact mysql_compression_policy.2.2.2 {}
      { hasCompressedHeader := some false }
      { hasCompressedHeader := some false, perfStats := some {} }
      [1, 2, 3] { direction := .s2c } .packetHeader false
      rfl rfl rfl rfl (by decide) (by decide)

/-! ### C9: endpoint truncation defaults -/

/-- C9: `handle_endpoint` with no configured rules on
`"api/v1/users/123?query=456"` keeps the default two non-empty segments
and returns `"/api/v1"`; a matching rule whose `keep_segments` is 0 falls
back to the built-in default — a single keep-0 rule that matches behaves
exactly like the empty rule set, never the empty endpoint. -/
theorem http_endpoint_default_and_zero_fallback :
    Http.handleEndpoint {} (bytesOfAscii "api/v1/users/123?query=456")
      = some (bytesOfAscii "/api/v1")
    ∧ Http.handleEndpoint { endpointRules := [⟨bytesOfAscii "/api/v1", 0⟩] }
        (bytesOfAscii "/api/v1/users/123?query=456")
      = some (bytesOfAscii "/api/v1")
    ∧ ∀ (pfx path : List Nat), pfx.isPrefixOf path = true →
        Http.handleEndpoint { endpointRules := [⟨pfx, 0⟩] } path
          = Http.handleEndpoint {} path := by
  refine ⟨by decide, by decide, ?_⟩
  intro pfx path h
  have hk : Http.findMatchingRule [⟨pfx, 0⟩] path
      = Http.findMatchingRule [] path := by
    simp [Http.findMatchingRule, List.filter, h]
  simp only [Http.handleEndpoint, hk]

/-- Witness for C9 at a concrete matching prefix. -/
theorem http_endpoint_zero_fallback_witness :
    Http.handleEndpoint { endpointRules := [⟨[47, 120], 0⟩] } [47, 120, 47, 97]
      = Http.handleEndpoint {} [47, 120, 47, 97] :=
  http_endpoint_default_and_zero_fallback.2.2 [47, 120] [47, 120, 47, 97]
    (by decide)

/-! ### C8: the HTTP/1 header-line iterator -/

/-- C8 counterexample: after an invalid-UTF-8 header line the iterator
returns `None` without advancing its buffer, so the following well-formed
header line (`"C: d"`) is never scanned — the scan does not continue past
the corrupted line as the claim states. -/
theorem v1_iterator_invalid_utf8_counterexample :
    (Http.v1Next (bytesOfAscii "A: b" ++ [13, 10, 255, 120, 13, 10]
        ++ bytesOfAscii "C: d" ++ [13, 10])).1
      = some (bytesOfAscii "A: b")
    ∧ (Http.v1Next (bytesOfAscii "A: b" ++ [13, 10, 255, 120, 13, 10]
        ++ bytesOfAscii "C: d" ++ [13, 10])).2
      = 255 :: 120 :: 13 :: 10 :: bytesOfAscii "C: d" ++ [13, 10]
    ∧ Http.v1Next (255 :: 120 :: 13 :: 10 :: bytesOfAscii "C: d" ++ [13, 10])
      = (none, 255 :: 120 :: 13 :: 10 :: bytesOfAscii "C: d" ++ [13, 10]) := by
  refine ⟨by decide, by decide, by decide⟩

/-- C8 (amended): a buffer with no CRLF yields nothing and leaves the
buffer unchanged; a stray leading CRLF is consumed (two bytes) while
yielding nothing; and a leading invalid-UTF-8 line yields nothing WITHOUT
advancing the buffer, which ends the iteration — the remaining header
lines are not scanned. -/
theorem v1_iterator_behavior :
    (∀ buf : List Nat, Http.v1Next.crlfPos buf = none →
      Http.v1Next buf = (none, buf))
    ∧ (∀ rest : List Nat, Http.v1Next (13 :: 10 :: rest) = (none, rest))
    ∧ (∀ (buf : List Nat) (stop : Nat),
        Http.v1Next.crlfPos buf = some stop → stop ≠ 0 →
        isValidUtf8 (buf.take stop) = false →
        Http.v1Next buf = (none, buf)) := by
  refine ⟨?_, ?_, ?_⟩
  · intro buf h
    unfold Http.v1Next
    split
    · rfl
    · rw [h]
  · intro rest
    unfold Http.v1Next
    simp [Http.v1Next.crlfPos]
  · intro buf stop h hne hval
    unfold Http.v1Next
    split
    · rfl
    · rw [h]
      simp [hne, hval]

/-- Witness for C8 at concrete buffers. -/
theorem v1_iterator_behavior_witness :
    Http.v1Next [65, 66] = (none, [65, 66])
    ∧ Http.v1Next [13, 10, 67] = (none, [67])
    ∧ Http.v1Next [255, 13, 10] = (none, [255, 13, 10]) :=
  ⟨v1_iterator_behavior.1 [65, 66] (by decide),
   v1_iterator_behavior.2.1 [67],
   v1_iterator_behavior.2.2 [255, 13, 10] 1 (by decide) (by decide) (by decide)⟩

/-! ### C7: HTTP/1 response-line validation -/

/-- C7: `get_http_resp_info` succeeds only with the fixed 8-byte version
prefix `HTTP/1.0`/`HTTP/1.1`, a numeric 3-byte status code right after
the version (one separator byte), and a code inside `[100, 599]`; and
`parse_http_v1` on a server-to-client payload whose response line carries
an informational code 100/102/103 fails with `HttpHeaderParseFailed`,
producing no Response record. -/
theorem http_v1_resp_line_validation :
    (∀ (line : List Nat) (v : Http.Version) (code : Nat),
      Http.getHttpRespInfo line = .ok (v, code) →
      ((line.take Http.HTTP_V1_0_VERSION.length = Http.HTTP_V1_0_VERSION
          ∧ v = .v1_0)
        ∨ (line.take Http.HTTP_V1_1_VERSION.length = Http.HTTP_V1_1_VERSION
          ∧ v = .v1_1))
      ∧ rustParseU 65535 ((line.drop (Http.HTTP_V1_0_VERSION.length + 1)).take 3)
          = some code
      ∧ Http.HTTP_STATUS_CODE_MIN ≤ code ∧ code ≤ Http.HTTP_STATUS_CODE_MAX)
    ∧ (∀ (param : ParseParam) (payload line buf : List Nat)
        (log : Http.HttpLogSt) (info : Http.HttpInfo)
        (cfg : LogParserConfig) (v : Http.Version) (code : Nat),
      param.parseConfig = some cfg →
      param.direction = .s2c →
      Http.isHttpV1Payload payload = true →
      Http.v1Next payload = (some line, buf) →
      Http.getHttpRespInfo line = .ok (v, code) →
      code = 100 ∨ code = 102 ∨ code = 103 →
      Http.parseHttpV1 param payload log info
        = some (log, info, some .httpHeaderParseFailed)) := by
  constructor
  · intro line v code h
    unfold Http.getHttpRespInfo at h
    split at h
    · simp at h
    · split at h
      · simp only [] at h
        split at h <;> simp at h
      · rename_i sc hsc
        split at h
        · simp only [] at h
          split at h <;> simp at h
        · rename_i hrange
          simp only [] at h
          split at h
          · simp at h
          · rename_i vv hv
            simp only [Except.ok.injEq, Prod.mk.injEq] at h
            obtain ⟨rfl, rfl⟩ := h
            refine ⟨?_, hsc, ?_⟩
            · split at hv
              · rename_i h10
                simp only [Except.ok.injEq] at hv
                exact Or.inl ⟨h10, hv.symm⟩
              · split at hv
                · rename_i h11
                  simp only [Except.ok.injEq] at hv
                  exact Or.inr ⟨h11, hv.symm⟩
                · simp at hv
            · simp only [Http.HTTP_STATUS_CODE_MIN,
                Http.HTTP_STATUS_CODE_MAX] at hrange ⊢
              omega
  · intro param payload line buf log info cfg v code hcfg hdir hpl hv1 hresp hcode
    unfold Http.parseHttpV1
    rw [hcfg]
    simp only [hpl, hv1, hdir]
    rw [hresp]
    simp only [if_pos hcode]
    rfl

/-- Witness for C7: a valid 404 response line, and the informational
`HTTP/1.1 100 Continue` payload yielding a parse failure. -/
theorem http_v1_resp_line_validation_witness :
    (Http.HTTP_STATUS_CODE_MIN ≤ 404 ∧ 404 ≤ Http.HTTP_STATUS_CODE_MAX)
    ∧ Http.parseHttpV1 { direction := .s2c, parseConfig := some {} }
        (bytesOfAscii "HTTP/1.1 100 Continue" ++ [13, 10, 13, 10])
        Http.HttpLogSt.newV1 {}
      = some (Http.HttpLogSt.newV1, {}, some .httpHeaderParseFailed) :=
  ⟨(http_v1_resp_line_validation.1 (bytesOfAscii "HTTP/1.1 404 Not Found")
      .v1_1 404 rfl).2.2,
   http_v1_resp_line_validation.2 _ _ (bytesOfAscii "HTTP/1.1 100 Continue")
      [13, 10] _ _ {} .v1_1 100 rfl rfl (by decide) (by decide) rfl
      (Or.inl rfl)⟩

/-! ### C6: grpc-status classification -/

/-- Helper: `process_attributes` only appends to `attributes`. -/
theorem processAttributes_msgType (cfg : L7LogDynamicConfig)
    (info : Http.HttpInfo) (key val : List Nat) :
    (Http.processAttributes cfg info key val).msgType = info.msgType := by
  unfold Http.processAttributes
  simp only []
  split <;> rfl

/-- Helper: `process_attributes` leaves `grpc_status_code` alone. -/
theorem processAttributes_grpcStatusCode (cfg : L7LogDynamicConfig)
    (info : Http.HttpInfo) (key val : List Nat) :
    (Http.processAttributes cfg info key val).grpcStatusCode
      = info.grpcStatusCode := by
  unfold Http.processAttributes
  simp only []
  split <;> rfl

/-- Helper: `on_header`'s tail touches only the trace/span/request-id/
client-ip/attribute fields — `msg_type` survives it. -/
theorem onHeaderRest_msgType (cfg : L7LogDynamicConfig) (key val : List Nat)
    (direction : PacketDirection) (info : Http.HttpInfo) :
    (Http.onHeaderRest cfg key val direction info).msgType = info.msgType := by
  unfold Http.onHeaderRest
  split
  · rfl
  · split
    · rfl
    · simp only [processAttributes_msgType]
      repeat' split
      all_goals rfl

/-- Helper: `grpc_status_code` survives `on_header`'s tail. -/
theorem onHeaderRest_grpcStatusCode (cfg : L7LogDynamicConfig)
    (key val : List Nat) (direction : PacketDirection)
    (info : Http.HttpInfo) :
    (Http.onHeaderRest cfg key val direction info).grpcStatusCode
      = info.grpcStatusCode := by
  unfold Http.onHeaderRest
  split
  · rfl
  · split
    · rfl
    · simp only [processAttributes_grpcStatusCode]
      repeat' split
      all_goals rfl

/-- C6 counterexample: with `grpc_streaming_data_enabled` off, a
`grpc-status` trailer on a server-to-client gRPC message does NOT
classify the message as Response and records no status code — the
`on_header` arm for `grpc-status` is guarded by that config toggle, which
the claim does not mention. -/
theorem grpc_status_disabled_counterexample :
    (Http.onHeader { grpcStreamingDataEnabled := false }
        (bytesOfAscii "grpc-status") (bytesOfAscii "13") .s2c
        { proto := .grpc } { proto := .grpc }).2.1.msgType ≠ .response
    ∧ (Http.onHeader { grpcStreamingDataEnabled := false }
        (bytesOfAscii "grpc-status") (bytesOfAscii "13") .s2c
        { proto := .grpc } { proto := .grpc }).2.1.grpcStatusCode = none := by
  exact ⟨by decide, by decide⟩

set_option maxHeartbeats 1000000 in
/-- C6 (amended): when `grpc_streaming_data_enabled` is on, a
`grpc-status` header sets `msg_type = Response` and records the parsed
code; `set_grpc_status` then maps code 0 to `Ok` with no counter change,
the client-fault codes (1, 3, 9, 11, 16 and the range 5..7) to
`ClientError` with a request-error increment, and every other code to
`ServerError` with a response-error increment. -/
theorem grpc_status_mapping :
    (∀ (cfg : L7LogDynamicConfig) (val : List Nat)
        (direction : PacketDirection) (log : Http.HttpLogSt)
        (info : Http.HttpInfo),
      cfg.grpcStreamingDataEnabled = true →
      (Http.onHeader cfg (bytesOfAscii "grpc-status") val direction
          log info).2.1.msgType = .response
      ∧ (Http.onHeader cfg (bytesOfAscii "grpc-status") val direction
          log info).2.1.grpcStatusCode = some ((parseTo 65535 val).getD 0))
    ∧ (∀ (log : Http.HttpLogSt) (info : Http.HttpInfo),
      Http.setGrpcStatus log Http.GRPC_STATUS_OK info
        = (log, { info with status := .ok }))
    ∧ (∀ (log : Http.HttpLogSt) (code : Nat) (info : Http.HttpInfo),
      code = 1 ∨ code = 3 ∨ code = 9 ∨ code = 11 ∨ code = 16
        ∨ (5 ≤ code ∧ code ≤ 7) →
      Http.setGrpcStatus log code info
        = ({ log with perfStats := mapPerf log.perfStats (·.incReqErr) },
           { info with status := .clientError }))
    ∧ (∀ (log : Http.HttpLogSt) (code : Nat) (info : Http.HttpInfo),
      code ≠ 0 →
      ¬(code = 1 ∨ code = 3 ∨ code = 9 ∨ code = 11 ∨ code = 16
        ∨ (5 ≤ code ∧ code ≤ 7)) →
      Http.setGrpcStatus log code info
        = ({ log with perfStats := mapPerf log.perfStats (·.incRespErr) },
           { info with status := .serverError })) := by
  refine ⟨?_, ?_, ?_, ?_⟩
  · intro cfg val direction log info hflag
    have hM : Http.onHeaderMatched cfg (bytesOfAscii "grpc-status") val
        log info
        = (log, { info with
            msgType := .response
            grpcStatusCode := some ((parseTo 65535 val).getD 0) }, none) := by
      unfold Http.onHeaderMatched
      simp only [hflag, and_true]
      rw [if_neg (show ¬(bytesOfAscii "grpc-status" = bytesOfAscii ":method")
        from by decide)]
      rw [if_neg (show ¬(bytesOfAscii "grpc-status" = bytesOfAscii ":status")
        from by decide)]
      rw [if_neg (show ¬(bytesOfAscii "grpc-status" = bytesOfAscii "host"
        ∨ bytesOfAscii "grpc-status" = bytesOfAscii ":authority")
        from by decide)]
      rw [if_neg (show ¬(bytesOfAscii "grpc-status" = bytesOfAscii ":path")
        from by decide)]
      rw [if_pos trivial]
    unfold Http.onHeader
    rw [if_neg (show ¬¬(isValidUtf8 (bytesOfAscii "grpc-status") = true)
      from by decide)]
    rw [hM]
    exact ⟨by rw [onHeaderRest_msgType], by rw [onHeaderRest_grpcStatusCode]⟩
  · intro log info
    rfl
  · intro log code info h
    rcases h with rfl | rfl | rfl | rfl | rfl | ⟨h5, h7⟩
    · rfl
    · rfl
    · rfl
    · rfl
    · rfl
    · unfold Http.setGrpcStatus
      rw [if_neg (by simp only [Http.GRPC_STATUS_OK]; omega)]
      rw [if_pos (Or.inr (Or.inr (Or.inr (Or.inr (Or.inr
        (show Http.GRPC_STATUS_NOT_FOUND ≤ code
            ∧ code ≤ Http.GRPC_STATUS_PERMISSION_DENIED from by
          simp only [Http.GRPC_STATUS_NOT_FOUND,
            Http.GRPC_STATUS_PERMISSION_DENIED]
          omega))))))]
  · intro log code info h0 h2
    unfold Http.setGrpcStatus
    rw [if_neg (by simp only [Http.GRPC_STATUS_OK]; omega)]
    rw [if_neg (by
      simp only [Http.GRPC_STATUS_CANCELLED, Http.GRPC_STATUS_INVALID_ARGUMENT,
        Http.GRPC_STATUS_FAILED_PRECONDITION, Http.GRPC_STATUS_OUT_OF_RANGE,
        Http.GRPC_STATUS_UNAUTHENTICATED, Http.GRPC_STATUS_NOT_FOUND,
        Http.GRPC_STATUS_PERMISSION_DENIED]
      omega)]

/-- Witness for C6 at concrete inputs: flag on, codes 0, 5 and 13. -/
theorem grpc_status_mapping_witness :
    (Http.onHeader { grpcStreamingDataEnabled := true }
        (bytesOfAscii "grpc-status") (bytesOfAscii "13") .s2c
        Http.HttpLogSt.newV1 {}).2.1.msgType = .response
    ∧ Http.setGrpcStatus Http.HttpLogSt.newV1 Http.GRPC_STATUS_OK {}
      = (Http.HttpLogSt.newV1, { ({} : Http.HttpInfo) with status := .ok })
    ∧ Http.setGrpcStatus Http.HttpLogSt.newV1 5 {}
      = ({ Http.HttpLogSt.newV1 with
            perfStats := mapPerf Http.HttpLogSt.newV1.perfStats (·.incReqErr) },
         { ({} : Http.HttpInfo) with status := .clientError })
    ∧ Http.setGrpcStatus Http.HttpLogSt.newV1 13 {}
      = ({ Http.HttpLogSt.newV1 with
            perfStats := mapPerf Http.HttpLogSt.newV1.perfStats (·.incRespErr) },
         { ({} : Http.HttpInfo) with status := .serverError }) :=
  ⟨(grpc_status_mapping.1 _ _ _ _ _ rfl).1,
   grpc_status_mapping.2.1 _ _,
   grpc_status_mapping.2.2.1 _ 5 {} (by decide),
   grpc_status_mapping.2.2.2 _ 13 {} (by decide) (by decide)⟩

/-! ### C5: merge semantics -/

/-- C5 counterexample: `MysqlInfo::merge` OVERWRITES the captured
response byte counter with the incoming value instead of accumulating
(10 merged with 5 gives 5, not 15), contradicting the additive-counters
part of the claim. -/
theorem mysql_merge_not_additive :
    (Mysql.MysqlInfo.merge { capturedResponseByte := 10 }
        { msgType := .response,
          capturedResponseByte := 5 }).1.capturedResponseByte = 5
    ∧ (Mysql.MysqlInfo.merge { capturedResponseByte := 10 }
        { msgType := .response,
          capturedResponseByte := 5 }).1.capturedResponseByte ≠ 10 + 5 :=
  ⟨by decide, by decide⟩

/-- C5 (amended): `HttpInfo::merge` behaves as claimed — every existing
non-empty field wins and an empty one takes the incoming value (`path`,
`host`, `method`, `user_agent`, `referer`, `endpoint`, `service_name`
and `req_content_length` on the request side, `custom_exception`,
`custom_result` and `resp_content_length` on the response side), an
incoming non-default status overwrites while a default one does not,
captured byte counters accumulate, and the end flags are sticky;
`MysqlInfo::merge` however OVERWRITES: a response merge replaces
`status` and the captured response bytes with the incoming values, a
request merge swaps `context` into the other record and replaces the
captured request bytes. -/
theorem info_merge_semantics :
    (∀ self other : Http.HttpInfo, other.msgType = .request →
      (self.path ≠ [] → (Http.HttpInfo.merge self other).1.path = self.path)
      ∧ (self.path = [] → (Http.HttpInfo.merge self other).1.path = other.path))
    ∧ (∀ self other : Http.HttpInfo, other.msgType = .response →
      (other.status ≠ (default : L7ResponseStatus) →
        (Http.HttpInfo.merge self other).1.status = other.status)
      ∧ (other.status = (default : L7ResponseStatus) →
        (Http.HttpInfo.merge self other).1.status = self.status))
    ∧ (∀ self other : Http.HttpInfo, other.msgType = .request →
      (Http.HttpInfo.merge self other).1.capturedRequestByte
        = self.capturedRequestByte + other.capturedRequestByte)
    ∧ (∀ self other : Http.HttpInfo, other.msgType = .response →
      (Http.HttpInfo.merge self other).1.capturedResponseByte
        = self.capturedResponseByte + other.capturedResponseByte)
    ∧ (∀ self other : Http.HttpInfo, other.msgType = .request →
      (Http.HttpInfo.merge self other).1.isReqEnd
        = (self.isReqEnd || other.isReqEnd))
    ∧ (∀ self other : Http.HttpInfo, other.msgType = .response →
      (Http.HttpInfo.merge self other).1.isRespEnd
        = (self.isRespEnd || other.isRespEnd))
    ∧ (∀ self other : Mysql.MysqlInfo, other.msgType = .response →
      (Mysql.MysqlInfo.merge self other).1.status = other.status
      ∧ (Mysql.MysqlInfo.merge self other).1.capturedResponseByte
          = other.capturedResponseByte)
    ∧ (∀ self other : Mysql.MysqlInfo, other.msgType = .request →
      (Mysql.MysqlInfo.merge self other).1.context = other.context
      ∧ (Mysql.MysqlInfo.merge self other).2.context = self.context
      ∧ (Mysql.MysqlInfo.merge self other).1.capturedRequestByte
          = other.capturedRequestByte)
    ∧ (∀ self other : Http.HttpInfo, other.msgType = .request →
      (self.host ≠ [] → (Http.HttpInfo.merge self other).1.host = self.host)
      ∧ (self.host = [] → (Http.HttpInfo.merge self other).1.host = other.host))
    ∧ (∀ self other : Http.HttpInfo, other.msgType = .request →
      (self.method.isNone = false → (Http.HttpInfo.merge self other).1.method = self.method)
      ∧ (self.method.isNone = true → (Http.HttpInfo.merge self other).1.method = other.method))
    ∧ (∀ self other : Http.HttpInfo, other.msgType = .request →
      (self.userAgent.isNone = false → (Http.HttpInfo.merge self other).1.userAgent = self.userAgent)
      ∧ (self.userAgent.isNone = true → (Http.HttpInfo.merge self other).1.userAgent = other.userAgent))
    ∧ (∀ self other : Http.HttpInfo, other.msgType = .request →
      (self.referer.isNone = false → (Http.HttpInfo.merge self other).1.referer = self.referer)
      ∧ (self.referer.isNone = true → (Http.HttpInfo.merge self other).1.referer = other.referer))
    ∧ (∀ self other : Http.HttpInfo, other.msgType = .request →
      (self.endpoint.isNone = false → (Http.HttpInfo.merge self other).1.endpoint = self.endpoint)
      ∧ (self.endpoint.isNone = true → (Http.HttpInfo.merge self other).1.endpoint = other.endpoint))
    ∧ (∀ self other : Http.HttpInfo, other.msgType = .request →
      (self.serviceName.isNone = false → (Http.HttpInfo.merge self other).1.serviceName = self.serviceName)
      ∧ (self.serviceName.isNone = true → (Http.HttpInfo.merge self other).1.serviceName = other.serviceName))
    ∧ (∀ self other : Http.HttpInfo, other.msgType = .request →
      (self.reqContentLength.isNone = false → (Http.HttpInfo.merge self other).1.reqContentLength = self.reqContentLength)
      ∧ (self.reqContentLength.isNone = true → (Http.HttpInfo.merge self other).1.reqContentLength = other.reqContentLength))
    ∧ (∀ self other : Http.HttpInfo, other.msgType = .response →
      (self.customException.isNone = false → (Http.HttpInfo.merge self other).1.customException = self.customException)
      ∧ (self.customException.isNone = true → (Http.HttpInfo.merge self other).1.customException = other.customException))
    ∧ (∀ self other : Http.HttpInfo, other.msgType = .response →
      (self.customResult.isNone = false → (Http.HttpInfo.merge self other).1.customResult = self.customResult)
      ∧ (self.customResult.isNone = true → (Http.HttpInfo.merge self other).1.customResult = other.customResult))
    ∧ (∀ self other : Http.HttpInfo, other.msgType = .response →
      (self.respContentLength.isNone = false → (Http.HttpInfo.merge self other).1.respContentLength = self.respContentLength)
      ∧ (self.respContentLength.isNone = true → (Http.HttpInfo.merge self other).1.respContentLength = other.respContentLength)) := by
  refine ⟨?_, ?_, ?_, ?_, ?_, ?_, ?_, ?_, ?_, ?_, ?_, ?_, ?_, ?_, ?_,
    ?_, ?_, ?_⟩
  · intro self other hm
    unfold Http.HttpInfo.merge
    rw [hm]
    refine ⟨fun hp => ?_, fun hp => ?_⟩
    · dsimp only
      rw [if_neg hp]
    · dsimp only
      rw [if_pos hp]
  · intro self other hm
    unfold Http.HttpInfo.merge
    rw [hm]
    refine ⟨fun hs => ?_, fun hs => ?_⟩
    · dsimp only
      rw [if_pos hs]
    · dsimp only
      rw [if_neg (by simp [hs])]
  · intro self other hm
    unfold Http.HttpInfo.merge
    rw [hm]
  · intro self other hm
    unfold Http.HttpInfo.merge
    rw [hm]
  · intro self other hm
    unfold Http.HttpInfo.merge
    rw [hm]
    dsimp only
    cases h : other.isReqEnd <;> simp [h]
  · intro self other hm
    unfold Http.HttpInfo.merge
    rw [hm]
    dsimp only
    cases h : other.isRespEnd <;> simp [h]
  · intro self other hm
    unfold Mysql.MysqlInfo.merge
    rw [hm]
    exact ⟨rfl, rfl⟩
  · intro self other hm
    unfold Mysql.MysqlInfo.merge
    rw [hm]
    exact ⟨rfl, rfl, rfl⟩
  · intro self other hm
    unfold Http.HttpInfo.merge
    rw [hm]
    refine ⟨fun hp => ?_, fun hp => ?_⟩
    · dsimp only
      rw [if_neg hp]
    · dsimp only
      rw [if_pos hp]
  · intro self other hm
    unfold Http.HttpInfo.merge
    rw [hm]
    refine ⟨fun hp => ?_, fun hp => ?_⟩
    · dsimp only
      rw [if_neg (by simp [hp])]
    · dsimp only
      rw [if_pos hp]
  · intro self other hm
    unfold Http.HttpInfo.merge
    rw [hm]
    refine ⟨fun hp => ?_, fun hp => ?_⟩
    · dsimp only
      rw [if_neg (by simp [hp])]
    · dsimp only
      rw [if_pos hp]
  · intro self other hm
    unfold Http.HttpInfo.merge
    rw [hm]
    refine ⟨fun hp => ?_, fun hp => ?_⟩
    · dsimp only
      rw [if_neg (by simp [hp])]
    · dsimp only
      rw [if_pos hp]
  · intro self other hm
    unfold Http.HttpInfo.merge
    rw [hm]
    refine ⟨fun hp => ?_, fun hp => ?_⟩
    · dsimp only
      rw [if_neg (by simp [hp])]
    · dsimp only
      rw [if_pos hp]
  · intro self other hm
    unfold Http.HttpInfo.merge
    rw [hm]
    refine ⟨fun hp => ?_, fun hp => ?_⟩
    · dsimp only
      rw [if_neg (by simp [hp])]
    · dsimp only
      rw [if_pos hp]
  · intro self other hm
    unfold Http.HttpInfo.merge
    rw [hm]
    refine ⟨fun hp => ?_, fun hp => ?_⟩
    · dsimp only
      rw [if_neg (by simp [hp])]
    · dsimp only
      rw [if_pos hp]
  · intro self other hm
    unfold Http.HttpInfo.merge
    rw [hm]
    refine ⟨fun hp => ?_, fun hp => ?_⟩
    · dsimp only
      rw [if_neg (by simp [hp])]
    · dsimp only
      rw [if_pos hp]
  · intro self other hm
    unfold Http.HttpInfo.merge
    rw [hm]
    refine ⟨fun hp => ?_, fun hp => ?_⟩
    · dsimp only
      rw [if_neg (by simp [hp])]
    · dsimp only
      rw [if_pos hp]
  · intro self other hm
    unfold Http.HttpInfo.merge
    rw [hm]
    refine ⟨fun hp => ?_, fun hp => ?_⟩
    · dsimp only
      rw [if_neg (by simp [hp])]
    · dsimp only
      rw [if_pos hp]

/-- Witness for C5 at concrete records. -/
theorem info_merge_semantics_witness :
    (Http.HttpInfo.merge { path := [47] }
        { msgType := .request, path := [48] }).1.path = [47]
    ∧ (Http.HttpInfo.merge { host := [104] }
        { msgType := .request, host := [105] }).1.host = [104]
    ∧ (Http.HttpInfo.merge ({} : Http.HttpInfo)
        { msgType := .response, customResult := some [99] }).1.customResult
      = some [99]
    ∧ (Http.HttpInfo.merge { capturedResponseByte := 10 }
        { msgType := .response, capturedResponseByte := 5
          }).1.capturedResponseByte = 10 + 5
    ∧ (Mysql.MysqlInfo.merge ({} : Mysql.MysqlInfo)
        { msgType := .response, status := .serverError }).1.status
      = ({ msgType := .response,
           status := .serverError } : Mysql.MysqlInfo).status :=
  ⟨(info_merge_semantics.1 _ _ rfl).1 (by decide),
   (info_merge_semantics.2.2.2.2.2.2.2.2.1 _ _ rfl).1 (by decide),
   (info_merge_semantics.2.2.2.2.2.2.2.2.2.2.2.2.2.2.2.2.1 _ _ rfl).2
     (by decide),
   info_merge_semantics.2.2.2.1 _ _ rfl,
   (info_merge_semantics.2.2.2.2.2.2.1 _ _ rfl).1⟩

/-! ### C3: check_payload side effects -/

/-- C3 counterexample: `HttpLog::check_payload` DOES have observable side
effects and is not always repeatable — with `parse_perf` on it
initializes the absent perf-stats record, so `perf_stats()` afterwards
yields `Some(default)` where it would have yielded `None` had
`check_payload` never run; and on the HTTP/2 path the mutated hpack
decoder is stored back into the parser, so an immediately repeated call
on a HEADERS frame (a stateful decoder failing on its fresh state,
succeeding on the advanced one, as a dynamic-table reference does) flips
the verdict from `false` to `true`. -/
theorem http_check_payload_inits_perf :
    Http.checkPayload ⟨fun d _ => (d, [], false), 0⟩ Http.HttpLogSt.newV1 [] {}
      = some (false, { Http.HttpLogSt.newV1 with perfStats := some {} })
    ∧ Http.HttpLogSt.newV1.perfStats = none
    ∧ (Http.HttpLogSt.perfStatsTake
        { Http.HttpLogSt.newV1 with perfStats := some {} }).1
      ≠ (Http.HttpLogSt.perfStatsTake Http.HttpLogSt.newV1).1
    ∧ ((Http.checkPayload ⟨fun d _ => (d + 1, [], d == 0), 0⟩
          { proto := .http2 } [0, 0, 1, 1, 0, 0, 0, 0, 1, 65]
          { parseConfig := some {} }).bind
        (fun p => (Http.checkPayload ⟨fun d _ => (d + 1, [], d == 0), 0⟩
          p.2 [0, 0, 1, 1, 0, 0, 0, 0, 1, 65]
          { parseConfig := some {} }).map
            (fun q => (p.1, q.1))))
      = some (false, true) := by
  refine ⟨rfl, rfl,
    by simp [Http.HttpLogSt.perfStatsTake, Http.HttpLogSt.newV1], rfl⟩

/-- C3 (amended): `MysqlLog::check_payload` never touches the perf stats
and a second identical call returns the same verdict and state; on the
HTTP/1 path the verdict and state are likewise stable from the second
call on, but the first call may initialize the perf-stats record (exactly
once, under `parse_perf`) — classification is repeatable yet not free of
perf-stats side effects. -/
theorem check_payload_idempotence :
    (∀ (ext : Mysql.MExt) (st : Mysql.MysqlLogSt) (payload : List Nat)
        (param : ParseParam) (b : Bool) (st' : Mysql.MysqlLogSt),
      Mysql.checkPayload ext st payload param = some (b, st') →
      st'.perfStats = st.perfStats
      ∧ Mysql.checkPayload ext st' payload param = some (b, st'))
    ∧ (∀ (ext : Http.HExt) (log : Http.HttpLogSt) (payload : List Nat)
        (param : ParseParam) (b : Bool) (log' : Http.HttpLogSt),
      log.proto = .http1 →
      Http.checkPayload ext log payload param = some (b, log') →
      Http.checkPayload ext log' payload param = some (b, log'))
    ∧ (∀ (ext : Http.HExt) (log : Http.HttpLogSt) (payload : List Nat)
        (param : ParseParam) (b : Bool) (log' : Http.HttpLogSt),
      log.proto = .http1 →
      Http.checkPayload ext log payload param = some (b, log') →
      log'.perfStats = log.perfStats
        ∨ (log.perfStats = none ∧ param.parsePerf = true
            ∧ log'.perfStats = some {})) := by
  refine ⟨?_, ?_, ?_⟩
  · intro ext st payload param b st' h
    unfold Mysql.checkPayload at h ⊢
    by_cases h0 : ¬ param.ebpfType.isRawProtocol = true ∨ param.l4Protocol ≠ .tcp
    · rw [if_pos h0] at h ⊢
      injection h with h2
      injection h2 with hb hst
      subst hb
      subst hst
      exact ⟨rfl, rfl⟩
    · rw [if_neg h0] at h ⊢
      cases hch : st.hasCompressedHeader with
      | some v =>
        simp only [hch] at h
        cases hc : Mysql.check ext param.parseConfig v payload with
        | none => rw [hc] at h; simp at h
        | some r =>
          rw [hc] at h
          injection h with h2
          injection h2 with hb hst
          subst hb
          subst hst
          refine ⟨rfl, ?_⟩
          simp [hch, hc]
      | none =>
        simp only [hch] at h
        cases hcc : Mysql.checkCompressedHeader st payload with
        | crash => rw [hcc] at h; simp at h
        | err e =>
          rw [hcc] at h
          injection h with h2
          injection h2 with hb hst
          subst hb
          subst hst
          refine ⟨rfl, ?_⟩
          simp [hch, hcc]
        | ok st2 =>
          rw [hcc] at h
          obtain ⟨bb, hbb, rfl⟩ : ∃ bb,
              Mysql.PayloadParser.isCompressed payload = .ok bb
              ∧ st2 = { st with hasCompressedHeader := some bb } := by
            unfold Mysql.checkCompressedHeader at hcc
            cases hic : Mysql.PayloadParser.isCompressed payload with
            | crash => rw [hic] at hcc; simp at hcc
            | err e2 => rw [hic] at hcc; simp at hcc
            | ok bb =>
              rw [hic] at hcc
              simp only [RRes.ok.injEq] at hcc
              exact ⟨bb, rfl, hcc.symm⟩
          simp only [] at h
          cases hc : Mysql.check ext param.parseConfig bb payload with
          | none => rw [hc] at h; simp at h
          | some r =>
            rw [hc] at h
            injection h with h2
            injection h2 with hb hst
            subst hb
            subst hst
            refine ⟨rfl, ?_⟩
            simp [hc]
  · intro ext log payload param b log' hproto h
    unfold Http.checkPayload at h ⊢
    by_cases hl4 : param.l4Protocol ≠ .tcp
    · rw [if_pos hl4] at h ⊢
      injection h with h2
      injection h2 with hb hlog
      subst hb
      subst hlog
      rfl
    · rw [if_neg hl4] at h ⊢
      by_cases hc : (log.perfStats.isNone = true ∧ param.parsePerf = true)
      · rw [if_pos hc] at h
        simp only [hproto] at h
        injection h with h2
        injection h2 with hb hlog
        subst hb
        subst hlog
        simp [hproto]
      · rw [if_neg hc] at h
        simp only [hproto] at h
        injection h with h2
        injection h2 with hb hlog
        subst hb
        subst hlog
        rw [if_neg (by simpa using hc)]
        simp [hproto]
  · intro ext log payload param b log' hproto h
    unfold Http.checkPayload at h
    by_cases hl4 : param.l4Protocol ≠ .tcp
    · rw [if_pos hl4] at h
      injection h with h2
      injection h2 with hb hlog
      subst hlog
      exact Or.inl rfl
    · rw [if_neg hl4] at h
      by_cases hc : (log.perfStats.isNone = true ∧ param.parsePerf = true)
      · rw [if_pos hc] at h
        simp only [hproto] at h
        injection h with h2
        injection h2 with hb hlog
        subst hlog
        exact Or.inr ⟨Option.isNone_iff_eq_none.mp hc.1, hc.2, rfl⟩
      · rw [if_neg hc] at h
        simp only [hproto] at h
        injection h with h2
        injection h2 with hb hlog
        subst hlog
        exact Or.inl rfl

/-- Witness for C3 at concrete inputs: a MySQL state with a cached
compression flag, and an HTTP/1 log already carrying perf stats. -/
theorem check_payload_idempotence_witness :
    (Mysql.checkPayload {} { hasCompressedHeader := some false } [] { }
        = some (false, { hasCompressedHeader := some false })
      → ({ hasCompressedHeader := some false } : Mysql.MysqlLogSt).perfStats
          = ({ hasCompressedHeader := some false } : Mysql.MysqlLogSt).perfStats
        ∧ Mysql.checkPayload {} { hasCompressedHeader := some false } [] { }
          = some (false, { hasCompressedHeader := some false }))
    ∧ Http.checkPayload ⟨fun d _ => (d, [], false), 0⟩
        { proto := .http1, perfStats := some {} } [] {}
      = some (false, { proto := .http1, perfStats := some {} }) :=
  ⟨fun h => check_payload_idempotence.1 {} _ [] {} false _ h,
   check_payload_idempotence.2.1 ⟨fun d _ => (d, [], false), 0⟩
     { proto := .http1, perfStats := some {} } [] {} false _ rfl rfl⟩

/-! ### C4: priority-tagged field precedence -/

/-- Helper: `process_attributes` leaves `trace_id` alone. -/
theorem processAttributes_traceId (cfg : L7LogDynamicConfig)
    (info : Http.HttpInfo) (key val : List Nat) :
    (Http.processAttributes cfg info key val).traceId = info.traceId := by
  unfold Http.processAttributes
  simp only []
  split <;> rfl

/-- Helper: `process_attributes` leaves `span_id` alone. -/
theorem processAttributes_spanId (cfg : L7LogDynamicConfig)
    (info : Http.HttpInfo) (key val : List Nat) :
    (Http.processAttributes cfg info key val).spanId = info.spanId := by
  unfold Http.processAttributes
  simp only []
  split <;> rfl

/-- Helper: `process_attributes` leaves `x_request_id_0` alone. -/
theorem processAttributes_xRequestId0 (cfg : L7LogDynamicConfig)
    (info : Http.HttpInfo) (key val : List Nat) :
    (Http.processAttributes cfg info key val).xRequestId0
      = info.xRequestId0 := by
  unfold Http.processAttributes
  simp only []
  split <;> rfl

/-- Helper: `process_attributes` leaves `x_request_id_1` alone. -/
theorem processAttributes_xRequestId1 (cfg : L7LogDynamicConfig)
    (info : Http.HttpInfo) (key val : List Nat) :
    (Http.processAttributes cfg info key val).xRequestId1
      = info.xRequestId1 := by
  unfold Http.processAttributes
  simp only []
  split <;> rfl

/-- Helper: `process_attributes` leaves `client_ip` alone. -/
theorem processAttributes_clientIp (cfg : L7LogDynamicConfig)
    (info : Http.HttpInfo) (key val : List Nat) :
    (Http.processAttributes cfg info key val).clientIp = info.clientIp := by
  unfold Http.processAttributes
  simp only []
  split <;> rfl

/-- Helper: the trace-id candidate loop either keeps the current field or
strictly lowers its priority number. -/
theorem traceIdLoop_inv (key val : List Nat)
    (dec : TraceTy → List Nat → Option (List Nat)) :
    ∀ (tts : List TraceTy) (i : Nat) (cur : PrioField),
    Http.traceIdLoop key val dec tts i cur = cur
      ∨ (Http.traceIdLoop key val dec tts i cur).prio < cur.prio := by
  intro tts
  induction tts with
  | nil => intro i cur; exact Or.inl rfl
  | cons tt rest ih =>
    intro i cur
    unfold Http.traceIdLoop
    simp only []
    split
    · exact Or.inl rfl
    · rename_i hbreak
      split
      · exact ih (i + 1) cur
      · split
        · rename_i id hdec
          rcases ih (i + 1) (PrioField.new ((i % 256
              + Http.BASE_FIELD_PRIORITY) % 256) id) with h | h
          · rw [h]
            right
            simp only [PrioField.new]
            omega
          · right
            have : (PrioField.new ((i % 256 + Http.BASE_FIELD_PRIORITY) % 256)
                id).prio < cur.prio := by
              simp only [PrioField.new]
              omega
            omega
        · exact ih (i + 1) cur

/-- Helper: the x-request-id candidate loop either keeps the field or
strictly lowers its priority number. -/
theorem xReqIdLoop_inv (key val : List Nat) :
    ∀ (reqIds : List (List Nat)) (i : Nat) (cur : PrioField),
    Http.xReqIdLoop key val reqIds i cur = cur
      ∨ (Http.xReqIdLoop key val reqIds i cur).prio < cur.prio := by
  intro reqIds
  induction reqIds with
  | nil => intro i cur; exact Or.inl rfl
  | cons r rest ih =>
    intro i cur
    unfold Http.xReqIdLoop
    simp only []
    split
    · exact Or.inl rfl
    · rename_i hbreak
      split
      · right
        simp only [PrioField.new]
        omega
      · exact ih (i + 1) cur

/-- Helper: the proxy-client candidate loop keeps the field or replaces
it with one of strictly lower priority number. -/
theorem proxyClientLoop_inv (key val : List Nat) :
    ∀ (pcs : List (List Nat)) (i : Nat) (cur : Option PrioField),
    Http.proxyClientLoop key val pcs i cur = cur
      ∨ ∃ q, Http.proxyClientLoop key val pcs i cur = some q
          ∧ ∀ p, cur = some p → q.prio < p.prio := by
  intro pcs
  induction pcs with
  | nil => intro i cur; exact Or.inl rfl
  | cons pc rest ih =>
    intro i cur
    unfold Http.proxyClientLoop
    simp only []
    match hcur : cur with
    | some p =>
      simp only []
      split
      · exact Or.inl rfl
      · rename_i hbreak
        split
        · right
          refine ⟨_, rfl, ?_⟩
          intro p' hp'
          injection hp' with hp'
          subst hp'
          simp only [PrioField.new]
          omega
        · exact ih (i + 1) (some p)
    | none =>
      simp only []
      split
      · right
        exact ⟨_, rfl, fun p' hp' => by cases hp'⟩
      · rcases ih (i + 1) none with h | ⟨q, hq, _⟩
        · exact Or.inl h
        · exact Or.inr ⟨q, hq, fun p' hp' => by cases hp'⟩

/-- Helper: `on_header`'s tail never raises a priority-tagged field's
priority number or spuriously rewrites it. -/
theorem onHeaderRest_prio_monotone (cfg : L7LogDynamicConfig)
    (key val : List Nat) (direction : PacketDirection)
    (info : Http.HttpInfo) :
    ((Http.onHeaderRest cfg key val direction info).traceId = info.traceId
      ∨ (Http.onHeaderRest cfg key val direction info).traceId.prio
          < info.traceId.prio)
    ∧ ((Http.onHeaderRest cfg key val direction info).spanId = info.spanId
      ∨ (Http.onHeaderRest cfg key val direction info).spanId.prio
          < info.spanId.prio)
    ∧ ((Http.onHeaderRest cfg key val direction info).xRequestId0
          = info.xRequestId0
      ∨ (Http.onHeaderRest cfg key val direction info).xRequestId0.prio
          < info.xRequestId0.prio)
    ∧ ((Http.onHeaderRest cfg key val direction info).xRequestId1
          = info.xRequestId1
      ∨ (Http.onHeaderRest cfg key val direction info).xRequestId1.prio
          < info.xRequestId1.prio)
    ∧ (∀ p, info.clientIp = some p →
        (Http.onHeaderRest cfg key val direction info).clientIp = some p
        ∨ ∃ q, (Http.onHeaderRest cfg key val direction info).clientIp
              = some q
            ∧ q.prio < p.prio) := by
  unfold Http.onHeaderRest
  split
  · exact ⟨Or.inl rfl, Or.inl rfl, Or.inl rfl, Or.inl rfl,
      fun p hp => Or.inl hp⟩
  · split
    · exact ⟨Or.inl rfl, Or.inl rfl, Or.inl rfl, Or.inl rfl,
        fun p hp => Or.inl hp⟩
    · simp only [processAttributes_traceId, processAttributes_spanId,
        processAttributes_xRequestId0, processAttributes_xRequestId1,
        processAttributes_clientIp]
      refine ⟨?_, ?_, ?_, ?_, ?_⟩
      · repeat' split
        all_goals first
          | exact Or.inl rfl
          | exact traceIdLoop_inv key val _ cfg.traceTypes 0 info.traceId
      · repeat' split
        all_goals first
          | exact Or.inl rfl
          | exact traceIdLoop_inv key val _ cfg.spanTypes 0 info.spanId
      · repeat' split
        all_goals first
          | exact Or.inl rfl
          | exact xReqIdLoop_inv key val cfg.xRequestId 0 info.xRequestId0
      · repeat' split
        all_goals first
          | exact Or.inl rfl
          | exact xReqIdLoop_inv key val cfg.xRequestId 0 info.xRequestId1
      · intro p hp
        repeat' split
        all_goals first
          | exact Or.inl hp
          | (rcases proxyClientLoop_inv key val cfg.proxyClient 0 info.clientIp
              with h | ⟨q, hq, hlt⟩
             · rw [h]; exact Or.inl hp
             · exact Or.inr ⟨q, hq, hlt p hp⟩)

/-- Helper: the `match key` block of `on_header` never touches the
priority-tagged fields. -/
theorem onHeaderMatched_preserves (cfg : L7LogDynamicConfig)
    (key val : List Nat) (log : Http.HttpLogSt) (info : Http.HttpInfo) :
    (Http.onHeaderMatched cfg key val log info).2.1.traceId = info.traceId
    ∧ (Http.onHeaderMatched cfg key val log info).2.1.spanId = info.spanId
    ∧ (Http.onHeaderMatched cfg key val log info).2.1.xRequestId0
        = info.xRequestId0
    ∧ (Http.onHeaderMatched cfg key val log info).2.1.xRequestId1
        = info.xRequestId1
    ∧ (Http.onHeaderMatched cfg key val log info).2.1.clientIp
        = info.clientIp := by
  unfold Http.onHeaderMatched
  repeat' split
  all_goals exact ⟨rfl, rfl, rfl, rfl, rfl⟩

/-- Helper: a full `on_header` call never raises a priority-tagged
field's priority number. -/
theorem onHeader_prio_monotone (cfg : L7LogDynamicConfig)
    (key val : List Nat) (direction : PacketDirection)
    (log : Http.HttpLogSt) (info : Http.HttpInfo) :
    ((Http.onHeader cfg key val direction log info).2.1.traceId
        = info.traceId
      ∨ (Http.onHeader cfg key val direction log info).2.1.traceId.prio
          < info.traceId.prio)
    ∧ ((Http.onHeader cfg key val direction log info).2.1.spanId
        = info.spanId
      ∨ (Http.onHeader cfg key val direction log info).2.1.spanId.prio
          < info.spanId.prio)
    ∧ ((Http.onHeader cfg key val direction log info).2.1.xRequestId0
        = info.xRequestId0
      ∨ (Http.onHeader cfg key val direction log info).2.1.xRequestId0.prio
          < info.xRequestId0.prio)
    ∧ ((Http.onHeader cfg key val direction log info).2.1.xRequestId1
        = info.xRequestId1
      ∨ (Http.onHeader cfg key val direction log info).2.1.xRequestId1.prio
          < info.xRequestId1.prio)
    ∧ (∀ p, info.clientIp = some p →
        (Http.onHeader cfg key val direction log info).2.1.clientIp = some p
        ∨ ∃ q, (Http.onHeader cfg key val direction log info).2.1.clientIp
              = some q
            ∧ q.prio < p.prio) := by
  unfold Http.onHeader
  split
  · exact ⟨Or.inl rfl, Or.inl rfl, Or.inl rfl, Or.inl rfl,
      fun p hp => Or.inl hp⟩
  · have hpre := onHeaderMatched_preserves cfg key val log info
    rcases hM : Http.onHeaderMatched cfg key val log info with ⟨l2, i2, e2⟩
    rw [hM] at hpre
    obtain ⟨ht, hs, hx0, hx1, hc⟩ := hpre
    cases e2 with
    | some e =>
      exact ⟨Or.inl ht, Or.inl hs, Or.inl hx0, Or.inl hx1,
        fun p hp => Or.inl (hc.trans hp)⟩
    | none =>
      refine ⟨?_, ?_, ?_, ?_, ?_⟩
      · rcases (onHeaderRest_prio_monotone cfg key val direction i2).1
          with h | h
        · exact Or.inl (h.trans ht)
        · rw [ht] at h
          exact Or.inr h
      · rcases (onHeaderRest_prio_monotone cfg key val direction i2).2.1
          with h | h
        · exact Or.inl (h.trans hs)
        · rw [hs] at h
          exact Or.inr h
      · rcases (onHeaderRest_prio_monotone cfg key val direction i2).2.2.1
          with h | h
        · exact Or.inl (h.trans hx0)
        · rw [hx0] at h
          exact Or.inr h
      · rcases (onHeaderRest_prio_monotone cfg key val direction i2).2.2.2.1
          with h | h
        · exact Or.inl (h.trans hx1)
        · rw [hx1] at h
          exact Or.inr h
      · intro p hp
        have hc2 : i2.clientIp = some p := hc.trans hp
        rcases (onHeaderRest_prio_monotone cfg key val
            direction i2).2.2.2.2 p hc2 with h | ⟨q, hq, hlt⟩
        · exact Or.inl h
        · exact Or.inr ⟨q, hq, hlt⟩

/-- Helper: an examined trace candidate of strictly lower priority number
that matches and decodes always claims the field. -/
theorem traceIdLoop_replaces (key val : List Nat)
    (dec : TraceTy → List Nat → Option (List Nat)) (tt : TraceTy)
    (rest : List TraceTy) (i : Nat) (cur : PrioField) (id : List Nat) :
    cur.prio ≤ 255 →
    (i % 256 + Http.BASE_FIELD_PRIORITY) % 256 < cur.prio →
    tt.check key = true →
    dec tt val = some id →
    Http.traceIdLoop key val dec (tt :: rest) i cur
      = PrioField.new ((i % 256 + Http.BASE_FIELD_PRIORITY) % 256) id := by
  intro h255 hlt hchk hdec
  have hb : Http.BASE_FIELD_PRIORITY = 2 := rfl
  rw [hb] at hlt
  unfold Http.traceIdLoop
  simp only []
  rw [hb]
  rw [if_neg (by omega)]
  rw [if_neg (by simp [hchk])]
  rw [hdec]
  cases rest with
  | nil => rfl
  | cons tt2 r2 =>
    unfold Http.traceIdLoop
    simp only []
    rw [hb]
    rw [if_pos (show (PrioField.new ((i % 256 + 2) % 256) id).prio
        ≤ ((i + 1) % 256 + 2) % 256 from by
      simp only [PrioField.new]
      omega)]

/-- Helper: an examined x-request-id candidate of strictly lower priority
number that equals the key always claims the field. -/
theorem xReqIdLoop_replaces (key val reqId : List Nat)
    (rest : List (List Nat)) (i : Nat) (cur : PrioField) :
    (i % 256 + Http.BASE_FIELD_PRIORITY) % 256 < cur.prio →
    reqId = key →
    Http.xReqIdLoop key val (reqId :: rest) i cur
      = PrioField.new ((i % 256 + Http.BASE_FIELD_PRIORITY) % 256) val := by
  intro hlt hkey
  have hb : Http.BASE_FIELD_PRIORITY = 2 := rfl
  rw [hb] at hlt
  unfold Http.xReqIdLoop
  simp only []
  rw [hb]
  rw [if_neg (by omega)]
  rw [if_pos hkey]

/-- Helper: the wasm plugin (`merge_custom_to_http`) claims every
priority-tagged field it supplies, at plugin priority 0 — strictly below
any header-derived priority. -/
theorem mergeCustom_plugin_priority (i : Http.HttpInfo)
    (custom : CustomInfo) (dir : PacketDirection) :
    (∀ t, custom.traceId = some t →
      (Http.HttpInfo.mergeCustomToHttp i custom dir).traceId
        = PrioField.new Http.PLUGIN_FIELD_PRIORITY t)
    ∧ (∀ t, custom.spanId = some t →
      (Http.HttpInfo.mergeCustomToHttp i custom dir).spanId
        = PrioField.new Http.PLUGIN_FIELD_PRIORITY t)
    ∧ (∀ t, custom.xRequestId0 = some t →
      (Http.HttpInfo.mergeCustomToHttp i custom dir).xRequestId0
        = PrioField.new Http.PLUGIN_FIELD_PRIORITY t)
    ∧ (∀ t, custom.xRequestId1 = some t →
      (Http.HttpInfo.mergeCustomToHttp i custom dir).xRequestId1
        = PrioField.new Http.PLUGIN_FIELD_PRIORITY t)
    ∧ (∀ c, custom.httpProxyClient = some c →
      (Http.HttpInfo.mergeCustomToHttp i custom dir).clientIp
        = some (PrioField.new Http.PLUGIN_FIELD_PRIORITY c)) := by
  refine ⟨?_, ?_, ?_, ?_, ?_⟩ <;>
    (intro t ht
     unfold Http.HttpInfo.mergeCustomToHttp
     dsimp only
     rw [ht])

theorem proxyClientLoop_replaces (key val pc : List Nat)
    (rest : List (List Nat)) (i : Nat) (p : PrioField)
    (hlt : (i % 256 + Http.BASE_FIELD_PRIORITY) % 256 < p.prio)
    (hpc : pc = key) :
    Http.proxyClientLoop key val (pc :: rest) i (some p)
      = some (PrioField.new ((i % 256 + Http.BASE_FIELD_PRIORITY) % 256)
          val) := by
  unfold Http.proxyClientLoop
  simp only []
  rw [if_neg (by omega), if_pos hpc]

theorem proxyClientLoop_claims (key val pc : List Nat)
    (rest : List (List Nat)) (i : Nat) (hpc : pc = key) :
    Http.proxyClientLoop key val (pc :: rest) i none
      = some (PrioField.new ((i % 256 + Http.BASE_FIELD_PRIORITY) % 256)
          val) := by
  unfold Http.proxyClientLoop
  simp only []
  rw [if_pos hpc]

/-- C4: once a priority-tagged field (trace id, span id, x-request-id,
client ip) holds priority number k, no `on_header` call moves it to a
value of priority number ≥ k — it is kept verbatim or replaced at a
strictly smaller number; an examined candidate of strictly smaller
priority number that matches (and decodes) always claims the field, for
the trace/span loop, the x-request-id loop and the proxy-client loop
alike; and the plugin merge claims supplied fields at priority 0, the
strongest (smallest) priority number. -/
theorem prio_field_precedence :
    (∀ (cfg : L7LogDynamicConfig) (key val : List Nat)
        (direction : PacketDirection) (log : Http.HttpLogSt)
        (info : Http.HttpInfo),
      ((Http.onHeader cfg key val direction log info).2.1.traceId
          = info.traceId
        ∨ (Http.onHeader cfg key val direction log info).2.1.traceId.prio
            < info.traceId.prio)
      ∧ ((Http.onHeader cfg key val direction log info).2.1.spanId
          = info.spanId
        ∨ (Http.onHeader cfg key val direction log info).2.1.spanId.prio
            < info.spanId.prio)
      ∧ ((Http.onHeader cfg key val direction log info).2.1.xRequestId0
          = info.xRequestId0
        ∨ (Http.onHeader cfg key val direction
            log info).2.1.xRequestId0.prio < info.xRequestId0.prio)
      ∧ ((Http.onHeader cfg key val direction log info).2.1.xRequestId1
          = info.xRequestId1
        ∨ (Http.onHeader cfg key val direction
            log info).2.1.xRequestId1.prio < info.xRequestId1.prio)
      ∧ (∀ p, info.clientIp = some p →
          (Http.onHeader cfg key val direction log info).2.1.clientIp
            = some p
          ∨ ∃ q, (Http.onHeader cfg key val direction log info).2.1.clientIp
                = some q
              ∧ q.prio < p.prio))
    ∧ (∀ (key val : List Nat) (dec : TraceTy → List Nat → Option (List Nat))
        (tt : TraceTy) (rest : List TraceTy) (i : Nat) (cur : PrioField)
        (id : List Nat),
      cur.prio ≤ 255 →
      (i % 256 + Http.BASE_FIELD_PRIORITY) % 256 < cur.prio →
      tt.check key = true →
      dec tt val = some id →
      Http.traceIdLoop key val dec (tt :: rest) i cur
        = PrioField.new ((i % 256 + Http.BASE_FIELD_PRIORITY) % 256) id)
    ∧ (∀ (key val reqId : List Nat) (rest : List (List Nat)) (i : Nat)
        (cur : PrioField),
      (i % 256 + Http.BASE_FIELD_PRIORITY) % 256 < cur.prio →
      reqId = key →
      Http.xReqIdLoop key val (reqId :: rest) i cur
        = PrioField.new ((i % 256 + Http.BASE_FIELD_PRIORITY) % 256) val)
    ∧ (∀ (i : Http.HttpInfo) (custom : CustomInfo) (dir : PacketDirection)
        (t : List Nat), custom.traceId = some t →
      (Http.HttpInfo.mergeCustomToHttp i custom dir).traceId
        = PrioField.new Http.PLUGIN_FIELD_PRIORITY t)
    ∧ Http.PLUGIN_FIELD_PRIORITY = 0
    ∧ Http.BASE_FIELD_PRIORITY = 2
    ∧ (∀ (key val pc : List Nat) (rest : List (List Nat)) (i : Nat)
        (p : PrioField),
      (i % 256 + Http.BASE_FIELD_PRIORITY) % 256 < p.prio →
      pc = key →
      Http.proxyClientLoop key val (pc :: rest) i (some p)
        = some (PrioField.new ((i % 256 + Http.BASE_FIELD_PRIORITY) % 256)
            val))
    ∧ (∀ (key val pc : List Nat) (rest : List (List Nat)) (i : Nat),
      pc = key →
      Http.proxyClientLoop key val (pc :: rest) i none
        = some (PrioField.new ((i % 256 + Http.BASE_FIELD_PRIORITY) % 256)
            val))
    ∧ (∀ (i : Http.HttpInfo) (custom : CustomInfo) (dir : PacketDirection)
        (c : List Nat), custom.httpProxyClient = some c →
      (Http.HttpInfo.mergeCustomToHttp i custom dir).clientIp
        = some (PrioField.new Http.PLUGIN_FIELD_PRIORITY c)) :=
  ⟨onHeader_prio_monotone, traceIdLoop_replaces, xReqIdLoop_replaces,
   fun i custom dir t => (mergeCustom_plugin_priority i custom dir).1 t,
   rfl, rfl, proxyClientLoop_replaces, proxyClientLoop_claims,
   fun i custom dir c =>
     (mergeCustom_plugin_priority i custom dir).2.2.2.2 c⟩

/-- Witness for C4 at concrete inputs. -/
theorem prio_field_precedence_witness :
    ((Http.onHeader {} [97] [98] .c2s Http.HttpLogSt.newV1
          { traceId := ⟨3, [1]⟩ }).2.1.traceId = ⟨3, [1]⟩
      ∨ (Http.onHeader {} [97] [98] .c2s Http.HttpLogSt.newV1
          { traceId := ⟨3, [1]⟩ }).2.1.traceId.prio < 3)
    ∧ Http.traceIdLoop [97] [98]
        (fun tt v => tt.decodeTraceId v)
        [⟨fun _ => true, fun v => some v, fun v => some v⟩] 0 ⟨7, [1]⟩
      = PrioField.new 2 [98]
    ∧ Http.xReqIdLoop [97] [98] [[97]] 0 ⟨7, [1]⟩ = PrioField.new 2 [98]
    ∧ (Http.HttpInfo.mergeCustomToHttp { traceId := ⟨3, [1]⟩ }
        { traceId := some [5] } .c2s).traceId = PrioField.new 0 [5]
    ∧ Http.proxyClientLoop [97] [98] [[97]] 0 (some ⟨7, [1]⟩)
        = some (PrioField.new 2 [98])
    ∧ (Http.HttpInfo.mergeCustomToHttp {}
        { httpProxyClient := some [9] } .c2s).clientIp
        = some (PrioField.new 0 [9]) := by
  refine ⟨?_, ?_, ?_, ?_, ?_, ?_⟩
  · exact (prio_field_precedence.1 {} [97] [98] .c2s
      Http.HttpLogSt.newV1 { traceId := ⟨3, [1]⟩ }).1
  · exact prio_field_precedence.2.1 [97] [98] _ _ [] 0 ⟨7, [1]⟩ [98]
      (by decide) (by decide) rfl rfl
  · exact prio_field_precedence.2.2.1 [97] [98] [97] [] 0 ⟨7, [1]⟩
      (by decide) rfl
  · exact prio_field_precedence.2.2.2.1 { traceId := ⟨3, [1]⟩ }
      { traceId := some [5] } .c2s [5] rfl
  · exact prio_field_precedence.2.2.2.2.2.2.1 [97] [98] [97] [] 0 ⟨7, [1]⟩
      (by decide) rfl
  · exact prio_field_precedence.2.2.2.2.2.2.2.2 {}
      { httpProxyClient := some [9] } .c2s [9] rfl

/-! ### C1: totality of the entry points — byte primitive lemmas -/

theorem byteAt_isSome : ∀ {l : List Nat} {i : Nat}, i < l.length →
    (byteAt l i).isSome := by
  intro l
  induction l with
  | nil => intro i h; simp at h
  | cons a r ih =>
    intro i h
    cases i with
    | zero => simp [byteAt]
    | succ j =>
      simp only [byteAt, List.get?] at *
      exact ih (by simp at h; omega)

theorem sliceFrom_eq {l : List Nat} {i : Nat} (h : i ≤ l.length) :
    sliceFrom l i = some (l.drop i) := by
  simp [sliceFrom, h]

theorem slice_eq {l : List Nat} {i j : Nat} (h1 : i ≤ j)
    (h2 : j ≤ l.length) :
    slice l i j = some ((l.take j).drop i) := by
  simp [slice, h1, h2]

theorem readU16le_isSome {l : List Nat} (h : 2 ≤ l.length) :
    (readU16le l).isSome := by
  rcases l with _ | ⟨a, _ | ⟨b, r⟩⟩ <;> simp_all [readU16le]

theorem readU32le_isSome {l : List Nat} (h : 4 ≤ l.length) :
    (readU32le l).isSome := by
  rcases l with _ | ⟨a, _ | ⟨b, _ | ⟨c, _ | ⟨d, r⟩⟩⟩⟩ <;>
    simp_all [readU32le]

theorem readU32be_isSome {l : List Nat} (h : 4 ≤ l.length) :
    (readU32be l).isSome := by
  rcases l with _ | ⟨a, _ | ⟨b, _ | ⟨c, _ | ⟨d, r⟩⟩⟩⟩ <;>
    simp_all [readU32be]

theorem readU64le_isSome {l : List Nat} (h : 8 ≤ l.length) :
    (readU64le l).isSome := by
  rcases l with _ | ⟨a, _ | ⟨b, _ | ⟨c, _ | ⟨d, _ | ⟨e, _ | ⟨f, _ | ⟨g, _ | ⟨k, r⟩⟩⟩⟩⟩⟩⟩⟩ <;>
    simp_all [readU64le]

/-- `MysqlHeader::new` succeeds exactly on 4 or more bytes. -/
theorem mysqlHeader_new_isSome {l : List Nat} (h : 4 ≤ l.length) :
    (Mysql.MysqlHeader.new l).isSome := by
  unfold Mysql.MysqlHeader.new
  rw [if_pos (show l.length ≥ Mysql.HEADER_LEN from by
    simp only [Mysql.HEADER_LEN]; omega)]
  have h4 := readU32le_isSome h
  cases hr : readU32le l with
  | none => rw [hr] at h4; simp at h4
  | some w => simp [hr]

theorem rres_pc_ne_crash {ε α : Type} {o : Option α} (h : o.isSome) :
    (RRes.pc o : RRes ε α) ≠ .crash := by
  cases o with
  | none => simp at h
  | some a => simp [RRes.pc]

theorem rres_bind_ne_crash {ε α β : Type} {x : RRes ε α}
    {f : α → RRes ε β} (hx : x ≠ .crash)
    (hf : ∀ a, x = .ok a → f a ≠ .crash) :
    RRes.bind x f ≠ .crash := by
  cases x with
  | crash => exact absurd rfl hx
  | err e => simp [RRes.bind]
  | ok a => simpa [RRes.bind] using hf a rfl

/-- `decode_compress_int` never panics: every read is guarded. -/
theorem decodeCompressInt_isSome (payload : List Nat) :
    (Mysql.decodeCompressInt payload).isSome := by
  unfold Mysql.decodeCompressInt
  cases payload with
  | nil => simp
  | cons v r =>
    simp only [Mysql.INT_FLAGS_2, Mysql.INT_FLAGS_3, Mysql.INT_FLAGS_8,
      Mysql.INT_BASE_LEN, List.length_cons]
    split
    · rename_i hg
      rw [sliceFrom_eq (by simp only [List.length_cons]; omega)]
      have := readU16le_isSome (l := r) (by omega)
      cases hr : readU16le r with
      | none => rw [hr] at this; simp at this
      | some w => simp [hr]
    · split
      · rename_i hg
        rw [sliceFrom_eq (by simp only [List.length_cons]; omega)]
        have h2 := readU16le_isSome (l := r) (by omega)
        cases hr : readU16le r with
        | none => rw [hr] at h2; simp at h2
        | some w =>
          have h3 := byteAt_isSome (l := v :: r) (i := 3)
            (by simp only [List.length_cons]; omega)
          cases hb : byteAt (v :: r) 3 with
          | none => rw [hb] at h3; simp at h3
          | some b => simp [hr, hb]
      · split
        · rename_i hg
          rw [sliceFrom_eq (by simp only [List.length_cons]; omega)]
          have h8 := readU64le_isSome (l := r) (by omega)
          cases hr : readU64le r with
          | none => rw [hr] at h8; simp at h8
          | some w => simp [hr]
        · simp

/-- `MysqlInfo::statement_id` never panics. -/
theorem setStatementId_isSome (i : Mysql.MysqlInfo) (payload : List Nat) :
    (i.setStatementId payload).isSome := by
  unfold Mysql.MysqlInfo.setStatementId
  split
  · rename_i hlen
    have := readU32le_isSome (l := payload)
      (by simpa [Mysql.STATEMENT_ID_LEN] using hlen)
    cases hr : readU32le payload with
    | none => rw [hr] at this; simp at this
    | some w => simp [hr]
  · simp

/-- The parameter-pair collection loop never panics. -/
theorem pcCollect_isSome (payload : List Nat) :
    ∀ (k offset : Nat), (Mysql.pcCollect payload k offset).isSome := by
  intro k
  induction k with
  | zero => intro offset; simp [Mysql.pcCollect]
  | succ n ih =>
    intro offset
    unfold Mysql.pcCollect
    split
    · simp
    · rename_i hlen
      simp only [Mysql.PARAMETER_TYPE_LEN] at hlen
      have h1 := byteAt_isSome (l := payload) (i := offset) (by omega)
      have h2 := byteAt_isSome (l := payload) (i := offset + 1) (by omega)
      cases hb1 : byteAt payload offset with
      | none => rw [hb1] at h1; simp at h1
      | some a =>
        cases hb2 : byteAt payload (offset + 1) with
        | none => rw [hb2] at h2; simp at h2
        | some b =>
          simp only [hb1, hb2]
          have := ih (offset + 2)
          cases hc : Mysql.pcCollect payload n (offset + 2) with
          | none => rw [hc] at this; simp at this
          | some r => simp [hc]

/-- `ParameterCounter::get` never panics. -/
theorem pcGet_isSome (ext : Mysql.MExt) (pcVal : Nat) (payload : List Nat)
    (info : Mysql.MysqlInfo) : (Mysql.pcGet ext pcVal payload info).isSome := by
  unfold Mysql.pcGet
  split
  · simp
  · have := pcCollect_isSome payload pcVal (Mysql.pcScanOffset payload)
    cases hc : Mysql.pcCollect payload pcVal (Mysql.pcScanOffset payload) with
    | none => rw [hc] at this; simp at this
    | some r => cases r <;> simp [hc]

/-- `MysqlLog::greeting` never panics. -/
theorem greeting_ne_crash (payload : List Nat) (info : Mysql.MysqlInfo) :
    Mysql.greeting payload info ≠ .crash := by
  unfold Mysql.greeting
  split
  · simp
  · rename_i hlen
    simp only [Mysql.PROTOCOL_VERSION_LEN] at hlen
    simp only [RRes.bind_def]
    refine rres_bind_ne_crash (rres_pc_ne_crash (byteAt_isSome (by
      simp only [Mysql.PROTOCOL_VERSION_OFFSET]; omega))) ?_
    intro a _
    split
    · simp
    · split <;> simp

/-- `MysqlLog::login` never panics. -/
theorem login_ne_crash (payload : List Nat) (info : Mysql.MysqlInfo) :
    Mysql.login payload info ≠ .crash := by
  unfold Mysql.login
  split
  · simp
  · rename_i hlen
    simp only [Mysql.LOGIN_USERNAME_OFFSET] at hlen
    simp only [RRes.bind_def]
    rw [sliceFrom_eq (l := payload)
      (show Mysql.CLIENT_CAPABILITIES_FLAGS_OFFSET ≤ payload.length from by
        simp only [Mysql.CLIENT_CAPABILITIES_FLAGS_OFFSET]; omega)]
    refine rres_bind_ne_crash (by simp [RRes.pc]) ?_
    intro s hs
    injection (show (RRes.ok (payload.drop Mysql.CLIENT_CAPABILITIES_FLAGS_OFFSET)
        : RRes Mysql.MError _) = .ok s from hs) with hs2
    refine rres_bind_ne_crash (rres_pc_ne_crash (readU16le_isSome (by
      rw [← hs2]
      simp only [Mysql.CLIENT_CAPABILITIES_FLAGS_OFFSET, List.length_drop]
      omega))) ?_
    intro flags _
    split
    · simp
    · rw [slice_eq (by simp [Mysql.FILTER_OFFSET]) (by
        simp only [Mysql.FILTER_OFFSET, Mysql.FILTER_SIZE]; omega)]
      refine rres_bind_ne_crash (by simp [RRes.pc]) ?_
      intro filter _
      split
      · simp
      · rw [sliceFrom_eq (by simp only [Mysql.LOGIN_USERNAME_OFFSET]; omega)]
        refine rres_bind_ne_crash (by simp [RRes.pc]) ?_
        intro uname _
        cases hsn : Mysql.stringNull uname with
        | none => simp [hsn]
        | some c =>
          simp only [hsn]
          split <;> simp

/-- `MysqlLog::response` never panics. -/
theorem response_ne_crash (payload : List Nat) (info : Mysql.MysqlInfo) :
    Mysql.response payload info ≠ .crash := by
  unfold Mysql.response
  simp only [Mysql.RESPONSE_CODE_LEN, Mysql.RESPONSE_CODE_OFFSET,
    Mysql.ERROR_CODE_LEN, Mysql.ERROR_CODE_OFFSET, Mysql.SQL_STATE_OFFSET,
    Mysql.SQL_STATE_LEN, Mysql.SQL_STATE_MARKER, Mysql.AFFECTED_ROWS_OFFSET,
    Mysql.STATEMENT_ID_OFFSET, Mysql.MYSQL_RESPONSE_CODE_ERR,
    Mysql.MYSQL_RESPONSE_CODE_EOF, Mysql.MYSQL_RESPONSE_CODE_OK,
    Mysql.SERVER_STATUS_CODE_MIN, Mysql.CLIENT_STATUS_CODE_MAX,
    Mysql.setStatus, RRes.bind_def]
  split
  · simp
  · rename_i hlen
    have h0 := byteAt_isSome (l := payload) (i := 0) (by omega)
    cases hb : byteAt payload 0 with
    | none => rw [hb] at h0; simp at h0
    | some code =>
      simp only [hb, RRes.pc, RRes.bind_ok]
      split
      · -- ERR response
        split
        · rename_i hrem
          rw [sliceFrom_eq (by omega)]
          simp only [RRes.pc, RRes.bind_ok]
          have h2 := readU16le_isSome (l := payload.drop 1) (by
            simp only [List.length_drop]; omega)
          cases hr : readU16le (payload.drop 1) with
          | none => rw [hr] at h2; simp at h2
          | some ec =>
            simp only [hr, RRes.pc, RRes.bind_ok]
            refine RRes.ite_ne_crash _ (fun _ => RRes.err_ne_crash _) ?_
            intro hok
            simp only [RRes.pure_def, RRes.bind_ok]
            refine RRes.ite_ne_crash _ ?_ ?_
            · intro h6
              have h3 := byteAt_isSome (l := payload) (i := 3) (by omega)
              cases h3e : byteAt payload 3 with
              | none => rw [h3e] at h3; simp at h3
              | some marker =>
                simp only [h3e, RRes.pc, RRes.bind_ok, RRes.pure_def]
                by_cases hm : marker = 35
                · rw [if_pos hm]
                  refine RRes.ite_ne_crash _ ?_ (fun _ => RRes.ok_ne_crash _)
                  intro h9
                  rw [sliceFrom_eq (by omega)]
                  simp only [RRes.pc, RRes.bind_ok]
                  exact RRes.ite_ne_crash _ (fun _ => RRes.err_ne_crash _)
                    (fun _ => RRes.ok_ne_crash _)
                · rw [if_neg hm]
                  refine RRes.ite_ne_crash _ ?_ (fun _ => RRes.ok_ne_crash _)
                  intro h9
                  rw [sliceFrom_eq (by omega)]
                  simp only [RRes.pc, RRes.bind_ok]
                  exact RRes.ite_ne_crash _ (fun _ => RRes.err_ne_crash _)
                    (fun _ => RRes.ok_ne_crash _)
            · intro h6
              refine RRes.ite_ne_crash _ ?_ (fun _ => RRes.ok_ne_crash _)
              intro h9
              rw [sliceFrom_eq (by omega)]
              simp only [RRes.pc, RRes.bind_ok]
              exact RRes.ite_ne_crash _ (fun _ => RRes.err_ne_crash _)
                (fun _ => RRes.ok_ne_crash _)
        · rename_i hrem
          simp only [RRes.pure_def, RRes.bind_ok]
          refine RRes.ite_ne_crash _ ?_ ?_
          · intro h6
            have h3 := byteAt_isSome (l := payload) (i := 3) (by omega)
            cases h3e : byteAt payload 3 with
            | none => rw [h3e] at h3; simp at h3
            | some marker =>
              simp only [h3e, RRes.pc, RRes.bind_ok, RRes.pure_def]
              by_cases hm : marker = 35
              · rw [if_pos hm]
                refine RRes.ite_ne_crash _ ?_ (fun _ => RRes.ok_ne_crash _)
                intro h9
                rw [sliceFrom_eq (by omega)]
                simp only [RRes.pc, RRes.bind_ok]
                exact RRes.ite_ne_crash _ (fun _ => RRes.err_ne_crash _)
                  (fun _ => RRes.ok_ne_crash _)
              · rw [if_neg hm]
                refine RRes.ite_ne_crash _ ?_ (fun _ => RRes.ok_ne_crash _)
                intro h9
                rw [sliceFrom_eq (by omega)]
                simp only [RRes.pc, RRes.bind_ok]
                exact RRes.ite_ne_crash _ (fun _ => RRes.err_ne_crash _)
                  (fun _ => RRes.ok_ne_crash _)
          · intro h6
            refine RRes.ite_ne_crash _ ?_ (fun _ => RRes.ok_ne_crash _)
            intro h9
            rw [sliceFrom_eq (by omega)]
            simp only [RRes.pc, RRes.bind_ok]
            exact RRes.ite_ne_crash _ (fun _ => RRes.err_ne_crash _)
              (fun _ => RRes.ok_ne_crash _)
      · split
        · simp
        · split
          · -- OK response
            rw [sliceFrom_eq (by omega)]
            simp only [RRes.pc, RRes.bind_ok]
            have hd := decodeCompressInt_isSome (payload.drop 1)
            cases hr : Mysql.decodeCompressInt (payload.drop 1) with
            | none => rw [hr] at hd; simp at hd
            | some rows =>
              simp only [hr, RRes.pc, RRes.bind_ok]
              have hsi := setStatementId_isSome
                { info with
                    responseCode := code
                    status := .ok
                    affectedRows := rows }
                (payload.drop 1)
              cases hs : Mysql.MysqlInfo.setStatementId
                  { info with
                      responseCode := code
                      status := .ok
                      affectedRows := rows } (payload.drop 1) with
              | none => rw [hs] at hsi; simp at hsi
              | some i2 => simp [hs]
          · simp

/-- `MysqlLog::request` never panics. -/
theorem request_ne_crash (ext : Mysql.MExt) (config : Option LogParserConfig)
    (payload : List Nat) (pcVal : Nat) (info : Mysql.MysqlInfo) (obf : Bool) :
    Mysql.request ext config payload pcVal info obf ≠ .crash := by
  unfold Mysql.request
  simp only [Mysql.COMMAND_LEN, Mysql.COMMAND_OFFSET, Mysql.COM_QUIT,
    Mysql.COM_STMT_CLOSE, Mysql.COM_FIELD_LIST, Mysql.COM_STMT_FETCH,
    Mysql.COM_INIT_DB, Mysql.COM_QUERY, Mysql.COM_STMT_PREPARE,
    Mysql.COM_STMT_EXECUTE, Mysql.COM_PING,
    Mysql.EXECUTE_STATEMENT_PARAMS_OFFSET, Mysql.STATEMENT_ID_OFFSET,
    RRes.bind_def]
  split
  · simp
  · rename_i hlen
    have h0 := byteAt_isSome (l := payload) (i := 0) (by omega)
    cases hb : byteAt payload 0 with
    | none =>
      rw [hb] at h0
      simp at h0
    | some cmd =>
      simp only [hb, RRes.pc, RRes.bind_ok]
      split
      · simp
      · split
        · simp
        · split
          · rw [sliceFrom_eq (by omega)]
            simp only [RRes.pc, RRes.bind_ok]
            exact rres_bind_ne_crash (requestString_ne_crash ext config _ _ obf)
              (fun a _ => by simp)
          · split
            · rw [sliceFrom_eq (by omega)]
              simp only [RRes.pc, RRes.bind_ok]
              exact rres_bind_ne_crash (requestString_ne_crash ext config _ _ obf)
                (fun a _ => by cases config <;> simp)
            · split
              · rw [sliceFrom_eq (by omega)]
                simp only [RRes.pc, RRes.bind_ok]
                have hsi := setStatementId_isSome
                  { info with command := cmd } (payload.drop 1)
                cases hs : Mysql.MysqlInfo.setStatementId
                    { info with command := cmd } (payload.drop 1) with
                | none =>
                  rw [hs] at hsi
                  simp at hsi
                | some i2 =>
                  simp only [hs, RRes.pc, RRes.bind_ok]
                  split
                  · rename_i hlen10
                    rw [sliceFrom_eq (by omega)]
                    simp only [RRes.pc, RRes.bind_ok]
                    have hpg := pcGet_isSome ext pcVal (payload.drop 10) i2
                    cases hp : Mysql.pcGet ext pcVal (payload.drop 10) i2 with
                    | none =>
                      rw [hp] at hpg
                      simp at hpg
                    | some i3 => simp [hp, RRes.pc]
                  · simp
              · split
                · simp
                · simp

/-- The packet walk of `PayloadParser::is_compressed` never panics. -/
theorem isCompressedLoop_ne_crash (payload : List Nat) :
    ∀ (fuel offset : Nat), payload.length - offset < fuel →
      Mysql.isCompressedLoop payload fuel offset ≠ .crash := by
  intro fuel
  induction fuel with
  | zero =>
    intro offset h
    exact absurd h (Nat.not_lt_zero _)
  | succ fuel ih =>
    intro offset h
    simp only [Mysql.isCompressedLoop, Mysql.HEADER_LEN, RRes.bind_def]
    split
    · rename_i hlt
      rw [sliceFrom_eq (by omega)]
      simp only [RRes.pc, RRes.bind_ok]
      have hh := mysqlHeader_new_isSome (l := payload.drop offset)
        (by simp only [List.length_drop]; omega)
      cases hn : Mysql.MysqlHeader.new (payload.drop offset) with
      | none =>
        rw [hn] at hh
        simp at hh
      | some header =>
        simp only [hn, RRes.pc, RRes.bind_ok]
        split
        · simp
        · split
          · simp
          · exact ih (offset + 4 + header.length) (by omega)
    · simp

/-- `PayloadParser::is_compressed` never panics. -/
theorem isCompressed_ne_crash (payload : List Nat) :
    Mysql.PayloadParser.isCompressed payload ≠ .crash := by
  unfold Mysql.PayloadParser.isCompressed
  simp only [Mysql.COMPRESS_HEADER_LEN, Mysql.COMPRESS_HEADER_UNCOMPRESS_OFFSET,
    RRes.bind_def]
  split
  · rename_i hlen
    have h4 := readU32le_isSome (l := payload) (by omega)
    cases hw : readU32le payload with
    | none =>
      rw [hw] at h4
      simp at h4
    | some w =>
      simp only [hw, RRes.pc, RRes.bind_ok]
      rw [sliceFrom_eq (by omega)]
      simp only [RRes.pc, RRes.bind_ok]
      have h2 := readU16le_isSome (l := payload.drop 4)
        (by simp only [List.length_drop]; omega)
      cases hlo : readU16le (payload.drop 4) with
      | none =>
        rw [hlo] at h2
        simp at h2
      | some lo =>
        simp only [hlo, RRes.pc, RRes.bind_ok]
        have h6 := byteAt_isSome (l := payload) (i := 6) (by omega)
        cases hhi : byteAt payload 6 with
        | none =>
          rw [hhi] at h6
          simp at h6
        | some hi =>
          simp only [hhi, RRes.pc, RRes.bind_ok, RRes.pure_def]
          split
          · simp
          · exact isCompressedLoop_ne_crash payload (payload.length + 1) 0 (by omega)
  · simp only [RRes.pure_def, RRes.bind_ok]
    split
    · simp
    · exact isCompressedLoop_ne_crash payload (payload.length + 1) 0 (by omega)

/-- `PayloadParser::new` never panics. -/
theorem payloadParserNew_ne_crash (ext : Mysql.MExt)
    (decompress hch : Bool) (payload : List Nat) :
    Mysql.PayloadParser.new ext decompress hch payload ≠ .crash := by
  unfold Mysql.PayloadParser.new
  simp only [Mysql.COMPRESS_HEADER_LEN, Mysql.COMPRESS_HEADER_UNCOMPRESS_OFFSET,
    RRes.bind_def]
  split
  · rename_i hch1
    split
    · simp
    · rename_i hlen
      rw [sliceFrom_eq (by omega)]
      simp only [RRes.pc, RRes.bind_ok]
      have h2 := readU16le_isSome (l := payload.drop 4)
        (by simp only [List.length_drop]; omega)
      cases hlo : readU16le (payload.drop 4) with
      | none =>
        rw [hlo] at h2
        simp at h2
      | some lo =>
        simp only [hlo, RRes.pc, RRes.bind_ok]
        have h6 := byteAt_isSome (l := payload) (i := 6) (by omega)
        cases hhi : byteAt payload 6 with
        | none =>
          rw [hhi] at h6
          simp at h6
        | some hi =>
          simp only [hhi, RRes.pc, RRes.bind_ok, RRes.pure_def]
          split
          · split
            · simp
            · rw [sliceFrom_eq (by omega)]
              simp [RRes.pc]
          · rw [sliceFrom_eq (by omega)]
            simp [RRes.pc]
  · rename_i hch0
    simp only [RRes.pure_def, RRes.bind_ok]
    simp

/-- `MysqlLog::check_compressed_header` never panics. -/
theorem checkCompressedHeader_ne_crash (st : Mysql.MysqlLogSt)
    (payload : List Nat) :
    Mysql.checkCompressedHeader st payload ≠ .crash := by
  unfold Mysql.checkCompressedHeader
  have h := isCompressed_ne_crash payload
  cases hc : Mysql.PayloadParser.isCompressed payload with
  | crash => exact absurd hc h
  | err e => simp
  | ok b => simp

/-- A successful `check_compressed_header` caches the compression flag. -/
theorem checkCompressedHeader_ok_hch (st st' : Mysql.MysqlLogSt)
    (payload : List Nat)
    (h : Mysql.checkCompressedHeader st payload = .ok st') :
    st'.hasCompressedHeader.isSome = true := by
  unfold Mysql.checkCompressedHeader at h
  cases hc : Mysql.PayloadParser.isCompressed payload with
  | crash =>
    rw [hc] at h
    simp at h
  | err e =>
    rw [hc] at h
    simp at h
  | ok b =>
    rw [hc] at h
    injection h with h1
    rw [← h1]
    rfl

/-- `PayloadParser::try_next` never panics. -/
theorem tryNext_ne_crash (st : Mysql.PPSt) : st.tryNext ≠ .crash := by
  unfold Mysql.PPSt.tryNext
  cases hd : st.decoder with
  | some stream =>
    simp only [Mysql.HEADER_LEN]
    split
    · simp
    · rename_i hlen
      have hh := mysqlHeader_new_isSome (l := stream.take 4)
        (by simp only [List.length_take]; omega)
      cases hn : Mysql.MysqlHeader.new (stream.take 4) with
      | none =>
        rw [hn] at hh
        simp at hh
      | some header => simp [hn]
  | none =>
    simp only [Mysql.HEADER_LEN]
    split
    · simp
    · rename_i hlen
      have hh := mysqlHeader_new_isSome (l := st.payload.take 4)
        (by simp only [List.length_take]; omega)
      cases hn : Mysql.MysqlHeader.new (st.payload.take 4) with
      | none =>
        rw [hn] at hh
        simp at hh
      | some header => simp [hn]

/-- `PayloadParser::try_next` strictly consumes input on a yielded frame. -/
theorem tryNext_size (st : Mysql.PPSt) :
    ∀ st' fr, st.tryNext = .ok (st', some fr) → st'.size < st.size := by
  intro st' fr h
  unfold Mysql.PPSt.tryNext at h
  cases hd : st.decoder with
  | some stream =>
    rw [hd] at h
    simp only [Mysql.HEADER_LEN] at h
    split at h
    · simp at h
    · rename_i hlen
      cases hn : Mysql.MysqlHeader.new (stream.take 4) with
      | none =>
        rw [hn] at h
        simp at h
      | some header =>
        rw [hn] at h
        injection h with h1
        injection h1 with h2 h3
        rw [← h2]
        simp only [Mysql.PPSt.size, hd, List.length_drop]
        omega
  | none =>
    rw [hd] at h
    simp only [Mysql.HEADER_LEN] at h
    split at h
    · simp at h
    · rename_i hlen
      cases hn : Mysql.MysqlHeader.new (st.payload.take 4) with
      | none =>
        rw [hn] at h
        simp at h
      | some header =>
        rw [hn] at h
        injection h with h1
        injection h1 with h2 h3
        rw [← h2]
        simp only [Mysql.PPSt.size, hd, List.length_drop]
        omega

/-- The server-direction frame skip loop of `MysqlLog::parse` never
panics, and an accepted frame is a greeting or starts with an interesting
response code. -/
theorem serverLoop_spec :
    ∀ (fuel : Nat) (st : Mysql.PPSt), st.size < fuel →
      Mysql.serverLoop fuel st ≠ .crash ∧
      ∀ st' h p, Mysql.serverLoop fuel st = .ok (st', h, p) →
        ((h.seqId = 0 ∧ Mysql.isGreeting p)
          ∨ ((byteAt p Mysql.RESPONSE_CODE_OFFSET).map
              Mysql.isInterestedResponse).getD false = true) := by
  intro fuel
  induction fuel with
  | zero =>
    intro st h
    exact absurd h (Nat.not_lt_zero _)
  | succ fuel ih =>
    intro st hs
    suffices hgen : ∀ r, Mysql.serverLoop (fuel + 1) st = r →
        r ≠ .crash ∧
        ∀ st' h p, r = .ok (st', h, p) →
          ((h.seqId = 0 ∧ Mysql.isGreeting p)
            ∨ ((byteAt p Mysql.RESPONSE_CODE_OFFSET).map
                Mysql.isInterestedResponse).getD false = true) by
      obtain ⟨h1, h2⟩ := hgen _ rfl
      exact ⟨h1, fun st' h p hp => h2 st' h p hp⟩
    intro r hr
    simp only [Mysql.serverLoop] at hr
    split at hr
    · rename_i heq
      exact absurd heq (tryNext_ne_crash st)
    · subst hr
      exact ⟨by simp, fun st' h p hp => by simp at hp⟩
    · subst hr
      exact ⟨by simp, fun st' h p hp => by simp at hp⟩
    · rename_i st2 h p heq
      have hsz := tryNext_size st st2 (h, p) heq
      split at hr
      · subst hr
        exact ih st2 (by omega)
      · split at hr
        · rename_i hcond
          subst hr
          refine ⟨by simp, fun st3 h3 p3 hp => ?_⟩
          injection hp with h1
          injection h1 with h2 h3'
          injection h3' with h4 h5
          rw [← h4, ← h5]
          exact hcond
        · subst hr
          exact ih st2 (by omega)

/-- `MysqlLog::parse` never panics once the compression flag is cached. -/
theorem parse_ne_crash (ext : Mysql.MExt) (config : Option DeepFlow.LogParserConfig)
    (st : Mysql.MysqlLogSt) (payload : List Nat)
    (direction : PacketDirection) (info : Mysql.MysqlInfo)
    (hch : st.hasCompressedHeader.isSome = true) :
    Mysql.parse ext config st payload direction info ≠ .crash := by
  unfold Mysql.parse
  simp only [RRes.bind_def]
  cases hh : st.hasCompressedHeader with
  | none =>
    rw [hh] at hch
    simp at hch
  | some b =>
    simp only [hh, RRes.pc, RRes.bind_ok]
    refine rres_bind_ne_crash (payloadParserNew_ne_crash ext _ b payload) ?_
    intro parser hparser
    cases direction with
    | c2s =>
      have hnc := tryNext_ne_crash parser
      cases ht : parser.tryNext with
      | crash => exact absurd ht hnc
      | err e => simp
      | ok pr =>
        obtain ⟨st2, fro⟩ := pr
        cases fro with
        | none => simp
        | some fr =>
          obtain ⟨header, p⟩ := fr
          simp only [RRes.bind_ok]
          cases him : Mysql.inferMessageType .c2s header p with
          | none => simp
          | some msgType =>
            cases msgType with
            | request =>
              dsimp only
              by_cases hseq : header.seqId = 0
              · rw [if_pos hseq]
                refine rres_bind_ne_crash (request_ne_crash _ _ _ _ _ _) ?_
                intro a2 ha2
                obtain ⟨m2, pv, i2⟩ := a2
                simp
              · rw [if_neg hseq]
                by_cases hseq1 : header.seqId = 1
                · rw [if_pos (show True ∧ header.seqId = 1 from ⟨trivial, hseq1⟩)]
                  refine rres_bind_ne_crash (login_ne_crash _ _) ?_
                  intro a2 ha2
                  simp
                · rw [if_neg (by simp [hseq1])]
                  simp
            | response =>
              exfalso
              unfold Mysql.inferMessageType at him
              split at him
              · simp at him
              · dsimp only at him
                split at him <;> simp at him
            | other =>
              dsimp only
              refine rres_bind_ne_crash (greeting_ne_crash _ _) ?_
              intro a2 ha2
              obtain ⟨pv, i2⟩ := a2
              simp
            | session => simp
    | s2c =>
      refine rres_bind_ne_crash
        ((serverLoop_spec (parser.size + 1) parser (Nat.lt_succ_self _)).1) ?_
      intro trip htrip
      obtain ⟨a, header, p⟩ := trip
      dsimp only
      cases him : Mysql.inferMessageType .s2c header p with
      | none => simp
      | some msgType =>
        cases msgType with
        | request =>
          dsimp only
          by_cases hseq : header.seqId = 0
          · rw [if_pos hseq]
            refine rres_bind_ne_crash (request_ne_crash _ _ _ _ _ _) ?_
            intro a2 ha2
            obtain ⟨m2, pv, i2⟩ := a2
            simp
          · rw [if_neg hseq]
            rw [if_neg (show ¬ (PacketDirection.s2c = PacketDirection.c2s
                ∧ header.seqId = 1) from by simp)]
            simp
        | response =>
          have hpost := (serverLoop_spec (parser.size + 1) parser
            (Nat.lt_succ_self _)).2 a header p htrip
          have hng : ¬ (header.seqId = 0 ∧ Mysql.isGreeting p) := by
            intro hg
            unfold Mysql.inferMessageType at him
            split at him
            · simp at him
            · dsimp only at him
              split at him
              · simp at him
              · split at him
                · simp at him
                · split at him
                  · simp at him
                  · split at him <;> simp at him
          have hbyte := hpost.resolve_left hng
          cases hb : byteAt p Mysql.RESPONSE_CODE_OFFSET with
          | none =>
            rw [hb] at hbyte
            simp at hbyte
          | some code =>
            dsimp only
            simp only [hb, RRes.pc, RRes.bind_ok]
            split
            · refine rres_bind_ne_crash (response_ne_crash _ _) ?_
              intro a2 ha2
              simp
            · split
              · refine rres_bind_ne_crash (response_ne_crash _ _) ?_
                intro a2 ha2
                simp
              · simp
        | other =>
          dsimp only
          refine rres_bind_ne_crash (greeting_ne_crash _ _) ?_
          intro a2 ha2
          obtain ⟨pv, i2⟩ := a2
          simp
        | session => simp

/-- `MysqlLog::check` never panics. -/
theorem check_isSome (ext : Mysql.MExt) (config : Option DeepFlow.LogParserConfig)
    (hch : Bool) (payload : List Nat) :
    (Mysql.check ext config hch payload).isSome = true := by
  unfold Mysql.check
  simp only []
  split
  next heq => exact absurd heq (payloadParserNew_ne_crash _ _ _ _)
  next => rfl
  next parser heq =>
    have hn := tryNext_ne_crash parser
    split
    next heq2 => exact absurd heq2 hn
    next => rfl
    next => rfl
    next st2 header payload2 heq2 =>
      split
      next => rfl
      next b heq3 =>
        split
        · rfl
        · split
          · have hl := login_ne_crash payload2 {}
            split
            next heq4 => exact absurd heq4 hl
            next => rfl
            next => rfl
          · rfl

/-- The fall-through tail of `parse_payload` never panics. -/
theorem parsePayloadTail_isSome (param : ParseParam) (st : Mysql.MysqlLogSt)
    (info : Mysql.MysqlInfo) :
    (Mysql.parsePayloadTail param st info).isSome = true := by
  unfold Mysql.parsePayloadTail
  split <;> rfl

/-- `MysqlLog::check_payload` never panics. -/
theorem mysql_checkPayload_isSome (ext : Mysql.MExt) (st : Mysql.MysqlLogSt) (payload : List Nat)
    (param : ParseParam) :
    (Mysql.checkPayload ext st payload param).isSome = true := by
  unfold Mysql.checkPayload
  split
  · rfl
  · simp only []
    cases hh : st.hasCompressedHeader with
    | none =>
      have hn := checkCompressedHeader_ne_crash st payload
      cases hc : Mysql.checkCompressedHeader st payload with
      | crash => exact absurd hc hn
      | err e => rfl
      | ok st' =>
        have hch2 := checkCompressedHeader_ok_hch st st' payload hc
        cases hh2 : st'.hasCompressedHeader with
        | none =>
          rw [hh2] at hch2
          simp at hch2
        | some b2 =>
          have hcheck := check_isSome ext param.parseConfig b2 payload
          cases hcres : Mysql.check ext param.parseConfig b2 payload with
          | none =>
            rw [hcres] at hcheck
            simp at hcheck
          | some r => simp [hh2, hcres]
    | some b0 =>
      have hcheck := check_isSome ext param.parseConfig b0 payload
      cases hcres : Mysql.check ext param.parseConfig b0 payload with
      | none =>
        rw [hcres] at hcheck
        simp at hcheck
      | some r => simp [hh, hcres]

/-- `MysqlLog::parse_payload` never panics. -/
theorem mysql_parsePayload_isSome (ext : Mysql.MExt) (st : Mysql.MysqlLogSt) (payload : List Nat)
    (param : ParseParam) :
    (Mysql.parsePayload ext st payload param).isSome = true := by
  unfold Mysql.parsePayload
  split
  · rfl
  · simp only []
    by_cases hperf : (st.perfStats.isNone = true ∧ param.parsePerf = true)
    · rw [if_pos hperf]
      dsimp only
      split
      next heq =>
        exfalso
        split at heq
        · split at heq
          next heq2 => exact absurd heq2 (checkCompressedHeader_ne_crash _ _)
          next e heq2 => simp at heq
          next st2 heq2 => simp at heq
        · simp at heq
      next e st2 heq => simp
      next st2 heq =>
        have hsome : st2.hasCompressedHeader.isSome = true := by
          split at heq
          · split at heq
            next heq2 => simp at heq
            next e heq2 => simp at heq
            next st3 heq2 =>
              have h3 := checkCompressedHeader_ok_hch _ st3 payload heq2
              injection heq with heqp
              injection heqp with heq1 heq2b
              rw [← heq1]
              exact h3
          · rename_i b hb
            injection heq with heqp
            injection heqp with heq1 heq2b
            rw [← heq1]
            simp [hb]
        split
        next heq2 =>
          exfalso
          split at heq2
          next heq3 => exact absurd heq3 (parse_ne_crash _ _ _ _ _ _ hsome)
          all_goals
            first
            | simp at heq2
            | (split at heq2 <;> simp at heq2)
        next e heq2 => rfl
        next st3 heq2 => rfl
        next st3 i3 heq2 => exact parsePayloadTail_isSome _ _ _
    · rw [if_neg hperf]
      split
      next heq =>
        exfalso
        split at heq
        · split at heq
          next heq2 => exact absurd heq2 (checkCompressedHeader_ne_crash _ _)
          next e heq2 => simp at heq
          next st2 heq2 => simp at heq
        · simp at heq
      next e st2 heq => simp
      next st2 heq =>
        have hsome : st2.hasCompressedHeader.isSome = true := by
          split at heq
          · split at heq
            next heq2 => simp at heq
            next e heq2 => simp at heq
            next st3 heq2 =>
              have h3 := checkCompressedHeader_ok_hch _ st3 payload heq2
              injection heq with heqp
              injection heqp with heq1 heq2b
              rw [← heq1]
              exact h3
          · rename_i b hb
            injection heq with heqp
            injection heqp with heq1 heq2b
            rw [← heq1]
            simp [hb]
        split
        next heq2 =>
          exfalso
          split at heq2
          next heq3 => exact absurd heq3 (parse_ne_crash _ _ _ _ _ _ hsome)
          all_goals
            first
            | simp at heq2
            | (split at heq2 <;> simp at heq2)
        next e heq2 => rfl
        next st3 heq2 => rfl
        next st3 i3 heq2 => exact parsePayloadTail_isSome _ _ _

/-- `Httpv2Headers::parse_headers_frame` cannot panic once the 9-byte
frame header is present. -/
theorem parseHeadersFrame_isSome (h : Http.Httpv2Headers) (payload : List Nat)
    (hlen : 9 ≤ payload.length) :
    (Http.Httpv2Headers.parseHeadersFrame h payload).isSome = true := by
  unfold Http.Httpv2Headers.parseHeadersFrame
  cases hb3 : byteAt payload 3 with
  | none =>
    have := byteAt_isSome (l := payload) (i := 3) (by omega)
    rw [hb3] at this
    simp at this
  | some ft =>
    cases hb4 : byteAt payload 4 with
    | none =>
      have := byteAt_isSome (l := payload) (i := 4) (by omega)
      rw [hb4] at this
      simp at this
    | some fl =>
      cases hb5 : byteAt payload 5 with
      | none =>
        have := byteAt_isSome (l := payload) (i := 5) (by omega)
        rw [hb5] at this
        simp at this
      | some b5 =>
        cases hbw : readU32be payload with
        | none =>
          have := readU32be_isSome (l := payload) (by omega)
          rw [hbw] at this
          simp at this
        | some w =>
          cases hsid : readU32be (payload.drop 5) with
          | none =>
            have := readU32be_isSome (l := payload.drop 5)
              (by simp only [List.length_drop]; omega)
            rw [hsid] at this
            simp at this
          | some sid =>
            simp [hb3, hb4, hb5, hbw, hsid,
              sliceFrom_eq (show (5 : Nat) ≤ payload.length from by omega)]
            repeat' split
            all_goals simp

theorem onHeaderMatched_state (cfg : L7LogDynamicConfig) (key val : List Nat)
    (log : Http.HttpLogSt) (info : Http.HttpInfo) :
    (Http.onHeaderMatched cfg key val log info).1.http2ReqDecoder
        = log.http2ReqDecoder
    ∧ (Http.onHeaderMatched cfg key val log info).1.http2RespDecoder
        = log.http2RespDecoder
    ∧ ((Http.onHeaderMatched cfg key val log info).1.proto = log.proto
        ∨ (Http.onHeaderMatched cfg key val log info).1.proto
            = L7Protocol.grpc) := by
  unfold Http.onHeaderMatched
  repeat' split
  all_goals first
    | exact ⟨rfl, rfl, Or.inl rfl⟩
    | exact ⟨rfl, rfl, Or.inr rfl⟩

theorem onHeader_state (cfg : L7LogDynamicConfig) (key val : List Nat)
    (direction : PacketDirection) (log : Http.HttpLogSt)
    (info : Http.HttpInfo) :
    (Http.onHeader cfg key val direction log info).1.http2ReqDecoder
        = log.http2ReqDecoder
    ∧ (Http.onHeader cfg key val direction log info).1.http2RespDecoder
        = log.http2RespDecoder
    ∧ ((Http.onHeader cfg key val direction log info).1.proto = log.proto
        ∨ (Http.onHeader cfg key val direction log info).1.proto
            = L7Protocol.grpc) := by
  obtain ⟨e1, e2, e3⟩ := onHeaderMatched_state cfg key val log info
  unfold Http.onHeader
  split
  · exact ⟨rfl, rfl, Or.inl rfl⟩
  · split
    next l i e heq =>
      rw [heq] at e1 e2 e3
      exact ⟨e1, e2, e3⟩
    next l i heq =>
      rw [heq] at e1 e2 e3
      exact ⟨e1, e2, e3⟩

theorem v2DecodeFold_state (cfg : L7LogDynamicConfig)
    (direction : PacketDirection) :
    ∀ (pairs : List (List Nat × List Nat)) (log : Http.HttpLogSt)
      (info : Http.HttpInfo) (cl : Option Nat),
    (Http.v2DecodeFold cfg direction pairs log info cl).1.http2ReqDecoder
        = log.http2ReqDecoder
    ∧ (Http.v2DecodeFold cfg direction pairs log info cl).1.http2RespDecoder
        = log.http2RespDecoder
    ∧ ((Http.v2DecodeFold cfg direction pairs log info cl).1.proto = log.proto
        ∨ (Http.v2DecodeFold cfg direction pairs log info cl).1.proto
            = L7Protocol.grpc) := by
  intro pairs
  induction pairs with
  | nil =>
    intro log info cl
    exact ⟨rfl, rfl, Or.inl rfl⟩
  | cons pr rest ih =>
    intro log info cl
    obtain ⟨key, v⟩ := pr
    simp only [Http.v2DecodeFold]
    obtain ⟨e1, e2, e3⟩ := onHeader_state cfg key v direction log info
    obtain ⟨f1, f2, f3⟩ := ih (Http.onHeader cfg key v direction log info).1
      (Http.onHeader cfg key v direction log info).2.1
      (if key = bytesOfAscii "content-length"
        then some ((parseTo 4294967295 v).getD 0) else cl)
    refine ⟨by rw [f1, e1], by rw [f2, e2], ?_⟩
    rcases f3 with f3 | f3
    · rw [f3]
      rcases e3 with e3 | e3
      · exact Or.inl e3
      · exact Or.inr e3
    · exact Or.inr f3

theorem v2DecodeFold_proto (cfg : L7LogDynamicConfig)
    (direction : PacketDirection) (pairs : List (List Nat × List Nat))
    (log : Http.HttpLogSt) (info : Http.HttpInfo) (cl : Option Nat)
    (h : log.proto = L7Protocol.http2 ∨ log.proto = L7Protocol.grpc) :
    (Http.v2DecodeFold cfg direction pairs log info cl).1.proto
        = L7Protocol.http2
    ∨ (Http.v2DecodeFold cfg direction pairs log info cl).1.proto
        = L7Protocol.grpc := by
  rcases (v2DecodeFold_state cfg direction pairs log info cl).2.2 with h3 | h3
  · rw [h3]
    exact h
  · exact Or.inr h3

/-! ### HTTP totality (C1) -/

set_option maxHeartbeats 4000000

theorem v2BodyHeadersCore_spec (ext : Http.HExt) (cfg : L7LogDynamicConfig)
    (direction : PacketDirection) (l0 : Nat) (st : Http.V2St)
    (hd : Http.v2StateOk direction st.log) :
    (Http.v2BodyHeadersCore ext cfg direction l0 st).isSome = true ∧
    ∀ o st2, Http.v2BodyHeadersCore ext cfg direction l0 st = some (o, st2) →
      (st2.framePayload = st.framePayload ∧ st2.offset = st.offset
        ∧ Http.v2StateOk direction st2.log) ∧
      (∀ st', o = some (.brk st') →
        st'.offset = st.offset ∧ Http.v2StateOk direction st'.log) ∧
      (∀ st', o = some (.retErr st') → Http.v2StateOk direction st'.log) ∧
      (∀ n st', o ≠ some (.retOk n st')) := by
  suffices hgen : ∀ r, Http.v2BodyHeadersCore ext cfg direction l0 st = r →
      r.isSome = true ∧
      ∀ o st2, r = some (o, st2) →
        (st2.framePayload = st.framePayload ∧ st2.offset = st.offset
          ∧ Http.v2StateOk direction st2.log) ∧
        (∀ st', o = some (.brk st') →
          st'.offset = st.offset ∧ Http.v2StateOk direction st'.log) ∧
        (∀ st', o = some (.retErr st') → Http.v2StateOk direction st'.log) ∧
        (∀ n st', o ≠ some (.retOk n st')) by
    obtain ⟨a, b⟩ := hgen _ rfl
    exact ⟨a, b⟩
  intro r hr
  unfold Http.v2BodyHeadersCore at hr
  cases direction with
  | c2s =>
    dsimp only at hr
    revert hr
    generalize (if st.hdr.flags &&& Http.FLAG_HEADERS_PRIORITY ≠ 0
      then (5 : Nat) else 0) = pri
    intro hr
    split at hr
    · -- break on a bad length
      subst hr
      refine ⟨rfl, ?_⟩
      intro o st2 h
      injection h with h1
      injection h1 with ho hst2
      subst ho
      subst hst2
      refine ⟨⟨rfl, rfl, hd⟩, ?_, ?_, ?_⟩
      · intro st' h'
        injection h' with h''
        injection h'' with h3
        subst h3
        exact ⟨rfl, hd⟩
      · intro st' h'
        simp at h'
      · intro n st' h'
        simp at h'
    · rename_i hguard
      split at hr
      · -- the slice cannot fail under the length guard
        rename_i heqS
        push_neg at hguard
        rw [slice_eq (Nat.le_of_lt hguard.1) hguard.2] at heqS
        simp at heqS
      · rename_i hfp heqS
        split at hr
        · -- the decoder cannot be absent under the invariant
          rename_i heqD
          obtain ⟨hd1, hd2⟩ := hd
          replace hd1 : st.log.http2ReqDecoder.isSome = true := hd1
          rw [heqD] at hd1
          simp at hd1
        · rename_i dec heqD
          obtain ⟨hd1, hd2⟩ := hd
          have hproto := v2DecodeFold_proto cfg PacketDirection.c2s
            (ext.hpackDecode dec hfp).2.1 st.log st.info st.contentLength hd2
          split at hr
          · -- hpack decode error: early Err return
            subst hr
            refine ⟨rfl, ?_⟩
            intro o st2 h
            injection h with h1
            injection h1 with ho hst2
            subst ho
            subst hst2
            refine ⟨⟨rfl, rfl, rfl, hproto⟩, ?_, ?_, ?_⟩
            · intro st' h'
              first
              | (simp at h'; done)
              | (injection h' with h''
                 injection h'' with h3
                 subst h3
                 exact ⟨rfl, rfl, hproto⟩)
            · intro st' h'
              first
              | (simp at h'; done)
              | (injection h' with h''
                 injection h'' with h3
                 subst h3
                 exact ⟨rfl, hproto⟩)
            · intro n st' h'
              simp at h'
          · split at hr
            · split at hr
              · split at hr
                · subst hr
                  refine ⟨rfl, ?_⟩
                  intro o st2 h
                  injection h with h1
                  injection h1 with ho hst2
                  subst ho
                  subst hst2
                  refine ⟨⟨rfl, rfl, rfl, hproto⟩, ?_, ?_, ?_⟩
                  · intro st' h'
                    first
                    | (simp at h'; done)
                    | (injection h' with h''
                       injection h'' with h3
                       subst h3
                       exact ⟨rfl, rfl, hproto⟩)
                  · intro st' h'
                    first
                    | (simp at h'; done)
                    | (injection h' with h''
                       injection h'' with h3
                       subst h3
                       exact ⟨rfl, hproto⟩)
                  · intro n st' h'
                    simp at h'
                · subst hr
                  refine ⟨rfl, ?_⟩
                  intro o st2 h
                  injection h with h1
                  injection h1 with ho hst2
                  subst ho
                  subst hst2
                  refine ⟨⟨rfl, rfl, rfl, hproto⟩, ?_, ?_, ?_⟩
                  · intro st' h'
                    first
                    | (simp at h'; done)
                    | (injection h' with h''
                       injection h'' with h3
                       subst h3
                       exact ⟨rfl, rfl, hproto⟩)
                  · intro st' h'
                    first
                    | (simp at h'; done)
                    | (injection h' with h''
                       injection h'' with h3
                       subst h3
                       exact ⟨rfl, hproto⟩)
                  · intro n st' h'
                    simp at h'
              · split at hr
                · subst hr
                  refine ⟨rfl, ?_⟩
                  intro o st2 h
                  injection h with h1
                  injection h1 with ho hst2
                  subst ho
                  subst hst2
                  refine ⟨⟨rfl, rfl, rfl, hproto⟩, ?_, ?_, ?_⟩
                  · intro st' h'
                    first
                    | (simp at h'; done)
                    | (injection h' with h''
                       injection h'' with h3
                       subst h3
                       exact ⟨rfl, rfl, hproto⟩)
                  · intro st' h'
                    first
                    | (simp at h'; done)
                    | (injection h' with h''
                       injection h'' with h3
                       subst h3
                       exact ⟨rfl, hproto⟩)
                  · intro n st' h'
                    simp at h'
                · subst hr
                  refine ⟨rfl, ?_⟩
                  intro o st2 h
                  injection h with h1
                  injection h1 with ho hst2
                  subst ho
                  subst hst2
                  refine ⟨⟨rfl, rfl, rfl, hproto⟩, ?_, ?_, ?_⟩
                  · intro st' h'
                    first
                    | (simp at h'; done)
                    | (injection h' with h''
                       injection h'' with h3
                       subst h3
                       exact ⟨rfl, rfl, hproto⟩)
                  · intro st' h'
                    first
                    | (simp at h'; done)
                    | (injection h' with h''
                       injection h'' with h3
                       subst h3
                       exact ⟨rfl, hproto⟩)
                  · intro n st' h'
                    simp at h'
            · split at hr
              · split at hr
                · subst hr
                  refine ⟨rfl, ?_⟩
                  intro o st2 h
                  injection h with h1
                  injection h1 with ho hst2
                  subst ho
                  subst hst2
                  refine ⟨⟨rfl, rfl, rfl, hproto⟩, ?_, ?_, ?_⟩
                  · intro st' h'
                    first
                    | (simp at h'; done)
                    | (injection h' with h''
                       injection h'' with h3
                       subst h3
                       exact ⟨rfl, rfl, hproto⟩)
                  · intro st' h'
                    first
                    | (simp at h'; done)
                    | (injection h' with h''
                       injection h'' with h3
                       subst h3
                       exact ⟨rfl, hproto⟩)
                  · intro n st' h'
                    simp at h'
                · subst hr
                  refine ⟨rfl, ?_⟩
                  intro o st2 h
                  injection h with h1
                  injection h1 with ho hst2
                  subst ho
                  subst hst2
                  refine ⟨⟨rfl, rfl, rfl, hproto⟩, ?_, ?_, ?_⟩
                  · intro st' h'
                    first
                    | (simp at h'; done)
                    | (injection h' with h''
                       injection h'' with h3
                       subst h3
                       exact ⟨rfl, rfl, hproto⟩)
                  · intro st' h'
                    first
                    | (simp at h'; done)
                    | (injection h' with h''
                       injection h'' with h3
                       subst h3
                       exact ⟨rfl, hproto⟩)
                  · intro n st' h'
                    simp at h'
              · split at hr
                · subst hr
                  refine ⟨rfl, ?_⟩
                  intro o st2 h
                  injection h with h1
                  injection h1 with ho hst2
                  subst ho
                  subst hst2
                  refine ⟨⟨rfl, rfl, rfl, hproto⟩, ?_, ?_, ?_⟩
                  · intro st' h'
                    first
                    | (simp at h'; done)
                    | (injection h' with h''
                       injection h'' with h3
                       subst h3
                       exact ⟨rfl, rfl, hproto⟩)
                  · intro st' h'
                    first
                    | (simp at h'; done)
                    | (injection h' with h''
                       injection h'' with h3
                       subst h3
                       exact ⟨rfl, hproto⟩)
                  · intro n st' h'
                    simp at h'
                · subst hr
                  refine ⟨rfl, ?_⟩
                  intro o st2 h
                  injection h with h1
                  injection h1 with ho hst2
                  subst ho
                  subst hst2
                  refine ⟨⟨rfl, rfl, rfl, hproto⟩, ?_, ?_, ?_⟩
                  · intro st' h'
                    first
                    | (simp at h'; done)
                    | (injection h' with h''
                       injection h'' with h3
                       subst h3
                       exact ⟨rfl, rfl, hproto⟩)
                  · intro st' h'
                    first
                    | (simp at h'; done)
                    | (injection h' with h''
                       injection h'' with h3
                       subst h3
                       exact ⟨rfl, hproto⟩)
                  · intro n st' h'
                    simp at h'
  | s2c =>
    dsimp only at hr
    revert hr
    generalize (if st.hdr.flags &&& Http.FLAG_HEADERS_PRIORITY ≠ 0
      then (5 : Nat) else 0) = pri
    intro hr
    split at hr
    · -- break on a bad length
      subst hr
      refine ⟨rfl, ?_⟩
      intro o st2 h
      injection h with h1
      injection h1 with ho hst2
      subst ho
      subst hst2
      refine ⟨⟨rfl, rfl, hd⟩, ?_, ?_, ?_⟩
      · intro st' h'
        injection h' with h''
        injection h'' with h3
        subst h3
        exact ⟨rfl, hd⟩
      · intro st' h'
        simp at h'
      · intro n st' h'
        simp at h'
    · rename_i hguard
      split at hr
      · -- the slice cannot fail under the length guard
        rename_i heqS
        push_neg at hguard
        rw [slice_eq (Nat.le_of_lt hguard.1) hguard.2] at heqS
        simp at heqS
      · rename_i hfp heqS
        split at hr
        · -- the decoder cannot be absent under the invariant
          rename_i heqD
          obtain ⟨hd1, hd2⟩ := hd
          replace hd1 : st.log.http2RespDecoder.isSome = true := hd1
          rw [heqD] at hd1
          simp at hd1
        · rename_i dec heqD
          obtain ⟨hd1, hd2⟩ := hd
          have hproto := v2DecodeFold_proto cfg PacketDirection.s2c
            (ext.hpackDecode dec hfp).2.1 st.log st.info st.contentLength hd2
          split at hr
          · -- hpack decode error: early Err return
            subst hr
            refine ⟨rfl, ?_⟩
            intro o st2 h
            injection h with h1
            injection h1 with ho hst2
            subst ho
            subst hst2
            refine ⟨⟨rfl, rfl, rfl, hproto⟩, ?_, ?_, ?_⟩
            · intro st' h'
              first
              | (simp at h'; done)
              | (injection h' with h''
                 injection h'' with h3
                 subst h3
                 exact ⟨rfl, rfl, hproto⟩)
            · intro st' h'
              first
              | (simp at h'; done)
              | (injection h' with h''
                 injection h'' with h3
                 subst h3
                 exact ⟨rfl, hproto⟩)
            · intro n st' h'
              simp at h'
          · split at hr
            · split at hr
              · split at hr
                · subst hr
                  refine ⟨rfl, ?_⟩
                  intro o st2 h
                  injection h with h1
                  injection h1 with ho hst2
                  subst ho
                  subst hst2
                  refine ⟨⟨rfl, rfl, rfl, hproto⟩, ?_, ?_, ?_⟩
                  · intro st' h'
                    first
                    | (simp at h'; done)
                    | (injection h' with h''
                       injection h'' with h3
                       subst h3
                       exact ⟨rfl, rfl, hproto⟩)
                  · intro st' h'
                    first
                    | (simp at h'; done)
                    | (injection h' with h''
                       injection h'' with h3
                       subst h3
                       exact ⟨rfl, hproto⟩)
                  · intro n st' h'
                    simp at h'
                · subst hr
                  refine ⟨rfl, ?_⟩
                  intro o st2 h
                  injection h with h1
                  injection h1 with ho hst2
                  subst ho
                  subst hst2
                  refine ⟨⟨rfl, rfl, rfl, hproto⟩, ?_, ?_, ?_⟩
                  · intro st' h'
                    first
                    | (simp at h'; done)
                    | (injection h' with h''
                       injection h'' with h3
                       subst h3
                       exact ⟨rfl, rfl, hproto⟩)
                  · intro st' h'
                    first
                    | (simp at h'; done)
                    | (injection h' with h''
                       injection h'' with h3
                       subst h3
                       exact ⟨rfl, hproto⟩)
                  · intro n st' h'
                    simp at h'
              · split at hr
                · subst hr
                  refine ⟨rfl, ?_⟩
                  intro o st2 h
                  injection h with h1
                  injection h1 with ho hst2
                  subst ho
                  subst hst2
                  refine ⟨⟨rfl, rfl, rfl, hproto⟩, ?_, ?_, ?_⟩
                  · intro st' h'
                    first
                    | (simp at h'; done)
                    | (injection h' with h''
                       injection h'' with h3
                       subst h3
                       exact ⟨rfl, rfl, hproto⟩)
                  · intro st' h'
                    first
                    | (simp at h'; done)
                    | (injection h' with h''
                       injection h'' with h3
                       subst h3
                       exact ⟨rfl, hproto⟩)
                  · intro n st' h'
                    simp at h'
                · subst hr
                  refine ⟨rfl, ?_⟩
                  intro o st2 h
                  injection h with h1
                  injection h1 with ho hst2
                  subst ho
                  subst hst2
                  refine ⟨⟨rfl, rfl, rfl, hproto⟩, ?_, ?_, ?_⟩
                  · intro st' h'
                    first
                    | (simp at h'; done)
                    | (injection h' with h''
                       injection h'' with h3
                       subst h3
                       exact ⟨rfl, rfl, hproto⟩)
                  · intro st' h'
                    first
                    | (simp at h'; done)
                    | (injection h' with h''
                       injection h'' with h3
                       subst h3
                       exact ⟨rfl, hproto⟩)
                  · intro n st' h'
                    simp at h'
            · split at hr
              · split at hr
                · subst hr
                  refine ⟨rfl, ?_⟩
                  intro o st2 h
                  injection h with h1
                  injection h1 with ho hst2
                  subst ho
                  subst hst2
                  refine ⟨⟨rfl, rfl, rfl, hproto⟩, ?_, ?_, ?_⟩
                  · intro st' h'
                    first
                    | (simp at h'; done)
                    | (injection h' with h''
                       injection h'' with h3
                       subst h3
                       exact ⟨rfl, rfl, hproto⟩)
                  · intro st' h'
                    first
                    | (simp at h'; done)
                    | (injection h' with h''
                       injection h'' with h3
                       subst h3
                       exact ⟨rfl, hproto⟩)
                  · intro n st' h'
                    simp at h'
                · subst hr
                  refine ⟨rfl, ?_⟩
                  intro o st2 h
                  injection h with h1
                  injection h1 with ho hst2
                  subst ho
                  subst hst2
                  refine ⟨⟨rfl, rfl, rfl, hproto⟩, ?_, ?_, ?_⟩
                  · intro st' h'
                    first
                    | (simp at h'; done)
                    | (injection h' with h''
                       injection h'' with h3
                       subst h3
                       exact ⟨rfl, rfl, hproto⟩)
                  · intro st' h'
                    first
                    | (simp at h'; done)
                    | (injection h' with h''
                       injection h'' with h3
                       subst h3
                       exact ⟨rfl, hproto⟩)
                  · intro n st' h'
                    simp at h'
              · split at hr
                · subst hr
                  refine ⟨rfl, ?_⟩
                  intro o st2 h
                  injection h with h1
                  injection h1 with ho hst2
                  subst ho
                  subst hst2
                  refine ⟨⟨rfl, rfl, rfl, hproto⟩, ?_, ?_, ?_⟩
                  · intro st' h'
                    first
                    | (simp at h'; done)
                    | (injection h' with h''
                       injection h'' with h3
                       subst h3
                       exact ⟨rfl, rfl, hproto⟩)
                  · intro st' h'
                    first
                    | (simp at h'; done)
                    | (injection h' with h''
                       injection h'' with h3
                       subst h3
                       exact ⟨rfl, hproto⟩)
                  · intro n st' h'
                    simp at h'
                · subst hr
                  refine ⟨rfl, ?_⟩
                  intro o st2 h
                  injection h with h1
                  injection h1 with ho hst2
                  subst ho
                  subst hst2
                  refine ⟨⟨rfl, rfl, rfl, hproto⟩, ?_, ?_, ?_⟩
                  · intro st' h'
                    first
                    | (simp at h'; done)
                    | (injection h' with h''
                       injection h'' with h3
                       subst h3
                       exact ⟨rfl, rfl, hproto⟩)
                  · intro st' h'
                    first
                    | (simp at h'; done)
                    | (injection h' with h''
                       injection h'' with h3
                       subst h3
                       exact ⟨rfl, hproto⟩)
                  · intro n st' h'
                    simp at h'

theorem v2BodyHeaders_spec (ext : Http.HExt) (cfg : L7LogDynamicConfig)
    (direction : PacketDirection) (st : Http.V2St)
    (hd : Http.v2StateOk direction st.log)
    (hlen : 0 < st.framePayload.length) :
    (Http.v2BodyHeaders ext cfg direction st).isSome = true ∧
    ∀ o st2, Http.v2BodyHeaders ext cfg direction st = some (o, st2) →
      (st2.framePayload = st.framePayload ∧ st2.offset = st.offset
        ∧ Http.v2StateOk direction st2.log) ∧
      (∀ st', o = some (.brk st') →
        st'.offset = st.offset ∧ Http.v2StateOk direction st'.log) ∧
      (∀ st', o = some (.retErr st') → Http.v2StateOk direction st'.log) ∧
      (∀ n st', o ≠ some (.retOk n st')) := by
  suffices hgen : ∀ r, Http.v2BodyHeaders ext cfg direction st = r →
      r.isSome = true ∧
      ∀ o st2, r = some (o, st2) →
  (st2.framePayload = st.framePayload ∧ st2.offset = st.offset
          ∧ Http.v2StateOk direction st2.log) ∧
        (∀ st', o = some (.brk st') →
          st'.offset = st.offset ∧ Http.v2StateOk direction st'.log) ∧
        (∀ st', o = some (.retErr st') → Http.v2StateOk direction st'.log) ∧
        (∀ n st', o ≠ some (.retOk n st')) by
    obtain ⟨a, b⟩ := hgen _ rfl
    exact ⟨a, b⟩
  intro r hr
  unfold Http.v2BodyHeaders at hr
  dsimp only at hr
  split at hr
  · -- the padding byte cannot be missing
    rename_i heq
    split at heq
    · split at heq
      · rename_i heqB
        have hB := byteAt_isSome (l := st.framePayload) (i := 0) hlen
        rw [heqB] at hB
        simp at hB
      · split at heq <;> simp at heq
    · simp at heq
  · -- padding eats the whole frame: break
    rename_i heq
    subst hr
    refine ⟨rfl, ?_⟩
    intro o st2 h
    injection h with h1
    injection h1 with ho hst2
    subst ho
    subst hst2
    refine ⟨⟨rfl, rfl, hd⟩, ?_, ?_, ?_⟩
    · intro st' h'
      injection h' with h''
      injection h'' with h3
      subst h3
      exact ⟨rfl, hd⟩
    · intro st' h'
      simp at h'
    · intro n st' h'
      simp at h'
  · -- padding skipped, hand over to the decode stage
    rename_i l0 st2 heq
    split at heq
    · split at heq
      · simp at heq
      · rename_i p0 heqB
        split at heq
        · simp at heq
        · injection heq with h1
          injection h1 with h2
          injection h2 with hl hst2
          subst hl
          subst hst2
          rw [← hr]
          refine ⟨(v2BodyHeadersCore_spec ext cfg direction 1
            { st with hdr := { st.hdr with
                frameLength := st.hdr.frameLength - p0 } } hd).1,
            fun o st2 h => (v2BodyHeadersCore_spec ext cfg direction 1
            { st with hdr := { st.hdr with
                frameLength := st.hdr.frameLength - p0 } } hd).2 o st2 h⟩
    · injection heq with h1
      injection h1 with h2
      injection h2 with hl hst2
      subst hl
      subst hst2
      rw [← hr]
      exact ⟨(v2BodyHeadersCore_spec ext cfg direction 0 st hd).1,
        fun o st2 h => (v2BodyHeadersCore_spec ext cfg direction 0 st hd).2
          o st2 h⟩

theorem v2BodyData_spec (direction : PacketDirection) (st : Http.V2St)
    (hd : Http.v2StateOk direction st.log)
    (hlen : 0 < st.framePayload.length) :
    (Http.v2BodyData direction st).isSome = true ∧
    ∀ o st2, Http.v2BodyData direction st = some (o, st2) →
      (st2.framePayload = st.framePayload ∧ st2.offset = st.offset
        ∧ Http.v2StateOk direction st2.log) ∧
      (∀ st', o = some (.brk st') →
        st'.offset = st.offset ∧ Http.v2StateOk direction st'.log) ∧
      (∀ st', o = some (.retErr st') → Http.v2StateOk direction st'.log) ∧
      (∀ n st', o ≠ some (.retOk n st')) := by
  suffices hgen : ∀ r, Http.v2BodyData direction st = r →
      r.isSome = true ∧
      ∀ o st2, r = some (o, st2) →
  (st2.framePayload = st.framePayload ∧ st2.offset = st.offset
          ∧ Http.v2StateOk direction st2.log) ∧
        (∀ st', o = some (.brk st') →
          st'.offset = st.offset ∧ Http.v2StateOk direction st'.log) ∧
        (∀ st', o = some (.retErr st') → Http.v2StateOk direction st'.log) ∧
        (∀ n st', o ≠ some (.retOk n st')) by
    obtain ⟨a, b⟩ := hgen _ rfl
    exact ⟨a, b⟩
  intro r hr
  unfold Http.v2BodyData at hr
  dsimp only at hr
  split at hr
  · -- the padding byte cannot be missing
    rename_i heq
    split at heq
    · split at heq
      · rename_i heqB
        have hB := byteAt_isSome (l := st.framePayload) (i := 0) hlen
        rw [heqB] at hB
        simp at hB
      · split at heq <;> simp at heq
    · simp at heq
  · rename_i st2 heq
    split at heq
    · split at heq
      · simp at heq
      · split at heq
        · injection heq with h1
          subst h1
          try dsimp only at hr
          repeat' split at hr
          all_goals
            (subst hr
             refine ⟨rfl, ?_⟩
             intro o st2 h
             injection h with h1
             injection h1 with ho hst2
             subst ho
             subst hst2
             refine ⟨⟨rfl, rfl, hd⟩, ?_, ?_, ?_⟩
             · intro st' h'
               first
               | (simp at h'; done)
               | (injection h' with h''
                  injection h'' with h3
                  subst h3
                  exact ⟨rfl, hd⟩)
             · intro st' h'
               first
               | (simp at h'; done)
               | (injection h' with h''
                  injection h'' with h3
                  subst h3
                  exact hd)
             · intro n st' h'
               simp at h')
        · injection heq with h1
          subst h1
          try dsimp only at hr
          repeat' split at hr
          all_goals
            (subst hr
             refine ⟨rfl, ?_⟩
             intro o st2 h
             injection h with h1
             injection h1 with ho hst2
             subst ho
             subst hst2
             refine ⟨⟨rfl, rfl, hd⟩, ?_, ?_, ?_⟩
             · intro st' h'
               first
               | (simp at h'; done)
               | (injection h' with h''
                  injection h'' with h3
                  subst h3
                  exact ⟨rfl, hd⟩)
             · intro st' h'
               first
               | (simp at h'; done)
               | (injection h' with h''
                  injection h'' with h3
                  subst h3
                  exact hd)
             · intro n st' h'
               simp at h')
    · injection heq with h1
      subst h1
      try dsimp only at hr
      repeat' split at hr
      all_goals
        (subst hr
         refine ⟨rfl, ?_⟩
         intro o st2 h
         injection h with h1
         injection h1 with ho hst2
         subst ho
         subst hst2
         refine ⟨⟨rfl, rfl, hd⟩, ?_, ?_, ?_⟩
         · intro st' h'
           first
           | (simp at h'; done)
           | (injection h' with h''
              injection h'' with h3
              subst h3
              exact ⟨rfl, hd⟩)
         · intro st' h'
           first
           | (simp at h'; done)
           | (injection h' with h''
              injection h'' with h3
              subst h3
              exact hd)
         · intro n st' h'
           simp at h')

theorem v2BodyEnd_spec (st : Http.V2St) :
    (Http.v2BodyEnd st).isSome = true ∧
    (∀ st', Http.v2BodyEnd st = some (.inl st') →
      st'.framePayload.length ≤ st.framePayload.length
      ∧ st'.offset = st.offset ∧ st'.log = st.log) ∧
    (∀ out, Http.v2BodyEnd st = some (.inr out) →
      ∃ st', out = .brk st' ∧ st'.offset = st.offset ∧ st'.log = st.log) := by
  suffices hgen : ∀ r, Http.v2BodyEnd st = r →
      r.isSome = true ∧
      (∀ st', r = some (.inl st') →
        st'.framePayload.length ≤ st.framePayload.length
        ∧ st'.offset = st.offset ∧ st'.log = st.log) ∧
      (∀ out, r = some (.inr out) →
        ∃ st', out = .brk st' ∧ st'.offset = st.offset ∧ st'.log = st.log) by
    obtain ⟨a, b, c⟩ := hgen _ rfl
    exact ⟨a, b, c⟩
  intro r hr
  unfold Http.v2BodyEnd at hr
  dsimp only at hr
  repeat' split at hr
  all_goals
    (subst hr
     refine ⟨rfl, ?_, ?_⟩
     · intro st' h'
       first
       | (simp at h'; done)
       | (injection h' with h''
          injection h'' with h3
          subst h3
          refine ⟨?_, rfl, rfl⟩
          simp)
     · intro out h'
       first
       | (simp at h'; done)
       | (injection h' with h''
          injection h'' with h3
          exact ⟨_, h3.symm, rfl, rfl⟩))

theorem v2Body_spec (ext : Http.HExt) (cfg : L7LogDynamicConfig)
    (direction : PacketDirection) (st : Http.V2St)
    (hd : Http.v2StateOk direction st.log)
    (hlen : 0 < st.framePayload.length) :
    (Http.v2Body ext cfg direction st).isSome = true ∧
    (∀ st', Http.v2Body ext cfg direction st = some (.inl st') →
      st'.framePayload.length ≤ st.framePayload.length ∧ st'.offset = st.offset
      ∧ Http.v2StateOk direction st'.log) ∧
    (∀ st', Http.v2Body ext cfg direction st = some (.inr (.brk st')) →
      st'.offset = st.offset ∧ Http.v2StateOk direction st'.log) ∧
    (∀ st', Http.v2Body ext cfg direction st = some (.inr (.retErr st')) →
      Http.v2StateOk direction st'.log) ∧
    (∀ n st', Http.v2Body ext cfg direction st ≠ some (.inr (.retOk n st'))) := by
  suffices hgen : ∀ r, Http.v2Body ext cfg direction st = r →
  (r).isSome = true ∧
      (∀ st', r = some (.inl st') →
        st'.framePayload.length ≤ st.framePayload.length ∧ st'.offset = st.offset
        ∧ Http.v2StateOk direction st'.log) ∧
      (∀ st', r = some (.inr (.brk st')) →
        st'.offset = st.offset ∧ Http.v2StateOk direction st'.log) ∧
      (∀ st', r = some (.inr (.retErr st')) →
        Http.v2StateOk direction st'.log) ∧
      (∀ n st', r ≠ some (.inr (.retOk n st'))) by
    obtain ⟨a, b, c, d, e⟩ := hgen _ rfl
    exact ⟨a, b, c, d, e⟩
  intro r hr
  unfold Http.v2Body at hr
  dsimp only at hr
  split at hr
  · -- the frame body cannot signal a panic
    rename_i heq
    split at heq
    · obtain ⟨b1, b2⟩ := v2BodyHeaders_spec ext cfg direction st hd hlen
      rw [heq] at b1
      simp at b1
    · split at heq
      · obtain ⟨b1, b2⟩ := v2BodyData_spec direction st hd hlen
        rw [heq] at b1
        simp at b1
      · simp at heq
  · -- the loop ends inside the frame body
    rename_i out st2 heq
    subst hr
    split at heq
    · obtain ⟨b1, b2⟩ := v2BodyHeaders_spec ext cfg direction st hd hlen
      obtain ⟨hst2, hbrk, herr, hok⟩ := b2 (some out) st2 heq
      refine ⟨rfl, ?_, ?_, ?_, ?_⟩
      · intro st' h'
        simp at h'
      · intro st' h'
        injection h' with h2
        injection h2 with h3
        exact hbrk st' (by rw [h3])
      · intro st' h'
        injection h' with h2
        injection h2 with h3
        exact herr st' (by rw [h3])
      · intro n st' h'
        injection h' with h2
        injection h2 with h3
        exact hok n st' (by rw [h3])
    · split at heq
      · obtain ⟨b1, b2⟩ := v2BodyData_spec direction st hd hlen
        obtain ⟨hst2, hbrk, herr, hok⟩ := b2 (some out) st2 heq
        refine ⟨rfl, ?_, ?_, ?_, ?_⟩
        · intro st' h'
          simp at h'
        · intro st' h'
          injection h' with h2
          injection h2 with h3
          exact hbrk st' (by rw [h3])
        · intro st' h'
          injection h' with h2
          injection h2 with h3
          exact herr st' (by rw [h3])
        · intro n st' h'
          injection h' with h2
          injection h2 with h3
          exact hok n st' (by rw [h3])
      · injection heq with h1
        injection h1 with h2
        simp at h2
  · -- the loop continues: end-of-iteration bookkeeping
    rename_i st2 heq
    split at heq
    · obtain ⟨b1, b2⟩ := v2BodyHeaders_spec ext cfg direction st hd hlen
      obtain ⟨hst2, hbrk, herr, hok⟩ := b2 none st2 heq
      obtain ⟨e1, e2, e3⟩ := v2BodyEnd_spec st2
      rw [hr] at e1 e2 e3
      refine ⟨e1, ?_, ?_, ?_, ?_⟩
      · intro st' h'
        obtain ⟨l1, l2, l3⟩ := e2 st' h'
        rw [hst2.1] at l1
        rw [hst2.2.1] at l2
        refine ⟨l1, l2, ?_⟩
        rw [l3]
        exact hst2.2.2
      · intro st' h'
        obtain ⟨st3, hout, o1, o2⟩ := e3 _ h'
        injection hout with h3
        subst h3
        rw [hst2.2.1] at o1
        refine ⟨o1, ?_⟩
        rw [o2]
        exact hst2.2.2
      · intro st' h'
        obtain ⟨st3, hout, h5, h6⟩ := e3 _ h'
        simp at hout
      · intro n st' h'
        obtain ⟨st3, hout, h5, h6⟩ := e3 _ h'
        simp at hout
    · split at heq
      · obtain ⟨b1, b2⟩ := v2BodyData_spec direction st hd hlen
        obtain ⟨hst2, hbrk, herr, hok⟩ := b2 none st2 heq
        obtain ⟨e1, e2, e3⟩ := v2BodyEnd_spec st2
        rw [hr] at e1 e2 e3
        refine ⟨e1, ?_, ?_, ?_, ?_⟩
        · intro st' h'
          obtain ⟨l1, l2, l3⟩ := e2 st' h'
          rw [hst2.1] at l1
          rw [hst2.2.1] at l2
          refine ⟨l1, l2, ?_⟩
          rw [l3]
          exact hst2.2.2
        · intro st' h'
          obtain ⟨st3, hout, o1, o2⟩ := e3 _ h'
          injection hout with h3
          subst h3
          rw [hst2.2.1] at o1
          refine ⟨o1, ?_⟩
          rw [o2]
          exact hst2.2.2
        · intro st' h'
          obtain ⟨st3, hout, h5, h6⟩ := e3 _ h'
          simp at hout
        · intro n st' h'
          obtain ⟨st3, hout, h5, h6⟩ := e3 _ h'
          simp at hout
      · injection heq with h1
        injection h1 with h2 h3
        subst h3
        have hst2 : st.framePayload = st.framePayload ∧ st.offset = st.offset
            ∧ Http.v2StateOk direction st.log := ⟨rfl, rfl, hd⟩
        obtain ⟨e1, e2, e3⟩ := v2BodyEnd_spec st
        rw [hr] at e1 e2 e3
        refine ⟨e1, ?_, ?_, ?_, ?_⟩
        · intro st' h'
          obtain ⟨l1, l2, l3⟩ := e2 st' h'
          rw [hst2.1] at l1
          rw [hst2.2.1] at l2
          refine ⟨l1, l2, ?_⟩
          rw [l3]
          exact hst2.2.2
        · intro st' h'
          obtain ⟨st3, hout, o1, o2⟩ := e3 _ h'
          injection hout with h3
          subst h3
          rw [hst2.2.1] at o1
          refine ⟨o1, ?_⟩
          rw [o2]
          exact hst2.2.2
        · intro st' h'
          obtain ⟨st3, hout, h5, h6⟩ := e3 _ h'
          simp at hout
        · intro n st' h'
          obtain ⟨st3, hout, h5, h6⟩ := e3 _ h'
          simp at hout

theorem v2Loop_spec (ext : Http.HExt) (cfg : L7LogDynamicConfig)
    (direction : PacketDirection) :
    ∀ (fuel : Nat) (st : Http.V2St),
      st.framePayload.length < fuel →
      Http.v2StateOk direction st.log →
      ((st.headerFrameParsed = true ∨ st.isHttpv2 = true) → 1 ≤ st.offset) →
      (Http.v2Loop ext cfg direction fuel st).isSome = true ∧
      (∀ st', Http.v2Loop ext cfg direction fuel st = some (.brk st') →
        ((st'.headerFrameParsed = true ∨ st'.isHttpv2 = true) → 1 ≤ st'.offset)
        ∧ Http.v2StateOk direction st'.log) ∧
      (∀ n st', Http.v2Loop ext cfg direction fuel st = some (.retOk n st') →
        1 ≤ n ∧ Http.v2StateOk direction st'.log) ∧
      (∀ st', Http.v2Loop ext cfg direction fuel st = some (.retErr st') →
        Http.v2StateOk direction st'.log) := by
  intro fuel
  induction fuel with
  | zero =>
    intro st hf
    exact absurd hf (Nat.not_lt_zero _)
  | succ fuel ih =>
    intro st hf hd hinv
    suffices hgen : ∀ r, Http.v2Loop ext cfg direction (fuel + 1) st = r →
    (r).isSome = true ∧
          (∀ st', r = some (.brk st') →
            ((st'.headerFrameParsed = true ∨ st'.isHttpv2 = true) → 1 ≤ st'.offset)
            ∧ Http.v2StateOk direction st'.log) ∧
          (∀ n st', r = some (.retOk n st') →
            1 ≤ n ∧ Http.v2StateOk direction st'.log) ∧
          (∀ st', r = some (.retErr st') →
            Http.v2StateOk direction st'.log) by
      obtain ⟨a, b, c, d⟩ := hgen _ rfl
      exact ⟨a, b, c, d⟩
    intro r hr
    simp only [Http.v2Loop] at hr
    by_cases h9 : st.framePayload.length ≤ Http.HTTPV2_FRAME_HEADER_LENGTH
    · rw [if_pos h9] at hr
      subst hr
      refine ⟨rfl, ?_, ?_, ?_⟩
      · intro st' h'
        injection h' with h1
        injection h1 with h2
        subst h2
        exact ⟨hinv, hd⟩
      · intro n st' h'
        simp at h'
      · intro st' h'
        simp at h'
    · rw [if_neg h9] at hr
      have h9' : 9 < st.framePayload.length := by
        simp only [Http.HTTPV2_FRAME_HEADER_LENGTH] at h9
        omega
      by_cases hm : Http.hasMagic st.framePayload = true
      · rw [if_pos hm] at hr
        rw [← hr]
        refine ih _ ?_ hd ?_
        · show (st.framePayload.drop Http.HTTPV2_MAGIC_LENGTH).length < fuel
          simp only [List.length_drop, Http.HTTPV2_MAGIC_LENGTH]
          omega
        · intro hfl
          show 1 ≤ st.offset + Http.HTTPV2_MAGIC_LENGTH
          simp only [Http.HTTPV2_MAGIC_LENGTH]
          omega
      · rw [if_neg hm] at hr
        cases hP : Http.Httpv2Headers.parseHeadersFrame st.hdr st.framePayload with
        | none =>
          have hPS := parseHeadersFrame_isSome st.hdr st.framePayload (by omega)
          rw [hP] at hPS
          simp at hPS
        | some x =>
          rw [hP] at hr
          cases x with
          | error e =>
            dsimp only at hr
            by_cases hfp : st.headerFrameParsed = true
            · rw [if_pos hfp] at hr
              subst hr
              refine ⟨rfl, ?_, ?_, ?_⟩
              · intro st' h'
                injection h' with h1
                injection h1 with h2
                subst h2
                exact ⟨fun hfl => hinv (Or.inl hfp), hd⟩
              · intro n st' h'
                simp at h'
              · intro st' h'
                simp at h'
            · rw [if_neg hfp] at hr
              subst hr
              refine ⟨rfl, ?_, ?_, ?_⟩
              · intro st' h'
                injection h' with h1
                injection h1 with h2
                subst h2
                exact ⟨hinv, hd⟩
              · intro n st' h'
                simp at h'
              · intro st' h'
                simp at h'
          | ok hdr =>
            dsimp only at hr
            by_cases hs0 : hdr.streamId = 0
            · rw [if_pos hs0] at hr
              by_cases hbig : hdr.frameLength + Http.HTTPV2_FRAME_HEADER_LENGTH
                  ≥ st.framePayload.length
              · rw [if_pos hbig] at hr
                subst hr
                refine ⟨rfl, ?_, ?_, ?_⟩
                · intro st' h'
                  injection h' with h1
                  injection h1 with h2
                  subst h2
                  refine ⟨fun hfl => ?_, hd⟩
                  show 1 ≤ st.offset + hdr.frameLength
                    + Http.HTTPV2_FRAME_HEADER_LENGTH
                  simp only [Http.HTTPV2_FRAME_HEADER_LENGTH]
                  omega
                · intro n st' h'
                  simp at h'
                · intro st' h'
                  simp at h'
              · rw [if_neg hbig] at hr
                have hbig' : hdr.frameLength + 9 < st.framePayload.length := by
                  simp only [Http.HTTPV2_FRAME_HEADER_LENGTH] at hbig
                  omega
                rw [← hr]
                refine ih _ ?_ hd ?_
                · show (st.framePayload.drop (hdr.frameLength
                    + Http.HTTPV2_FRAME_HEADER_LENGTH)).length < fuel
                  simp only [List.length_drop, Http.HTTPV2_FRAME_HEADER_LENGTH]
                  omega
                · intro hfl
                  show 1 ≤ st.offset + hdr.frameLength
                    + Http.HTTPV2_FRAME_HEADER_LENGTH
                  simp only [Http.HTTPV2_FRAME_HEADER_LENGTH]
                  omega
            · rw [if_neg hs0] at hr
              split at hr
              · -- stream-id conflict: early Ok return
                subst hr
                refine ⟨rfl, ?_, ?_, ?_⟩
                · intro st' h'
                  simp at h'
                · intro n st' h'
                  injection h' with h1
                  injection h1 with h2 h3
                  subst h2
                  subst h3
                  refine ⟨?_, hd⟩
                  show 1 ≤ st.offset + hdr.frameLength
                    + Http.HTTPV2_FRAME_HEADER_LENGTH
                  simp only [Http.HTTPV2_FRAME_HEADER_LENGTH]
                  omega
                · intro st' h'
                  simp at h'
              · rename_i st5 heq
                have hfacts : st5.log = st.log
                    ∧ st5.framePayload = st.framePayload
                    ∧ st5.offset = st.offset + hdr.frameLength
                      + Http.HTTPV2_FRAME_HEADER_LENGTH := by
                  split at heq
                  · injection heq with h1
                    subst h1
                    exact ⟨rfl, rfl, rfl⟩
                  · split at heq
                    · simp at heq
                    · injection heq with h1
                      subst h1
                      exact ⟨rfl, rfl, rfl⟩
                obtain ⟨hf1, hf2, hf3⟩ := hfacts
                have hd6 : Http.v2StateOk direction st5.log := by
                  rw [hf1]
                  exact hd
                obtain ⟨v1, v2, v3, v4, v5⟩ := v2Body_spec ext cfg direction
                  { st5 with framePayload :=
                    st5.framePayload.drop Http.HTTPV2_FRAME_HEADER_LENGTH }
                  hd6
                  (by show 0 < (st5.framePayload.drop
                        Http.HTTPV2_FRAME_HEADER_LENGTH).length
                      rw [hf2]
                      simp only [List.length_drop, Http.HTTPV2_FRAME_HEADER_LENGTH]
                      omega)
                cases hV : Http.v2Body ext cfg direction
                    { st5 with framePayload :=
                      st5.framePayload.drop Http.HTTPV2_FRAME_HEADER_LENGTH } with
                | none =>
                  rw [hV] at v1
                  simp at v1
                | some x =>
                  rw [hV] at hr
                  cases x with
                  | inr out =>
                    dsimp only at hr
                    subst hr
                    refine ⟨rfl, ?_, ?_, ?_⟩
                    · intro st' h'
                      injection h' with h3
                      rw [h3] at hV
                      obtain ⟨o1, o2⟩ := v3 st' hV
                      have o1' : st'.offset = st5.offset := o1
                      refine ⟨fun hfl => ?_, o2⟩
                      rw [o1', hf3]
                      simp only [Http.HTTPV2_FRAME_HEADER_LENGTH]
                      omega
                    · intro n st' h'
                      injection h' with h3
                      rw [h3] at hV
                      exact absurd hV (v5 n st')
                    · intro st' h'
                      injection h' with h3
                      rw [h3] at hV
                      exact v4 st' hV
                  | inl stN =>
                    dsimp only at hr
                    obtain ⟨l1, l2, l3⟩ := v2 stN hV
                    have l1' : stN.framePayload.length
                        ≤ st5.framePayload.length
                          - Http.HTTPV2_FRAME_HEADER_LENGTH := by
                      simpa using l1
                    rw [hf2] at l1'
                    have l2' : stN.offset = st5.offset := l2
                    rw [← hr]
                    refine ih stN ?_ l3 ?_
                    · simp only [Http.HTTPV2_FRAME_HEADER_LENGTH] at l1'
                      omega
                    · intro hfl
                      rw [l2', hf3]
                      simp only [Http.HTTPV2_FRAME_HEADER_LENGTH]
                      omega

theorem checkHttpV2_spec (ext : Http.HExt) (param : ParseParam)
    (payload : List Nat) (log : Http.HttpLogSt) (info : Http.HttpInfo)
    (hc : param.parseConfig.isSome = true)
    (hd : Http.v2StateOk param.direction log) :
    (Http.checkHttpV2 ext param payload log info).isSome = true ∧
    ∀ log2 res, Http.checkHttpV2 ext param payload log info
        = some (log2, res) →
      Http.v2StateOk param.direction log2 ∧
      ∀ n info2, res = .ok (n, info2) → 1 ≤ n := by
  suffices hgen : ∀ r, Http.checkHttpV2 ext param payload log info = r →
      r.isSome = true ∧
      ∀ log2 res, r = some (log2, res) →
        Http.v2StateOk param.direction log2 ∧
        ∀ n info2, res = .ok (n, info2) → 1 ≤ n by
    obtain ⟨a, b⟩ := hgen _ rfl
    exact ⟨a, b⟩
  intro r hr
  unfold Http.checkHttpV2 at hr
  split at hr
  · rename_i heq
    rw [heq] at hc
    simp at hc
  · rename_i config heq
    dsimp only at hr
    obtain ⟨a, b, c, d⟩ := v2Loop_spec ext config.l7LogDynamic param.direction
      (payload.length + 1)
      { framePayload := payload, log := log, info := info }
      (by show payload.length < payload.length + 1; omega) hd (by intro h; simp at h)
    cases hL : Http.v2Loop ext config.l7LogDynamic param.direction
        (payload.length + 1)
        { framePayload := payload, log := log, info := info } with
    | none =>
      rw [hL] at a
      simp at a
    | some out =>
      rw [hL] at hr
      cases out with
      | retOk n st2 =>
        dsimp only at hr
        subst hr
        refine ⟨rfl, ?_⟩
        intro log2 res h
        injection h with h1
        injection h1 with h2 h3
        subst h2
        subst h3
        refine ⟨(c n st2 hL).2, ?_⟩
        intro n2 info2 hres
        injection hres with h4
        injection h4 with h5 h6
        subst h5
        exact (c n st2 hL).1
      | retErr st2 =>
        dsimp only at hr
        subst hr
        refine ⟨rfl, ?_⟩
        intro log2 res h
        injection h with h1
        injection h1 with h2 h3
        subst h2
        subst h3
        refine ⟨d st2 hL, ?_⟩
        intro n2 info2 hres
        simp at hres
      | brk st2 =>
        dsimp only at hr
        obtain ⟨binv, bok⟩ := b st2 hL
        by_cases hcnd : st2.headerFrameParsed = true ∧ ¬ st2.isHttpv2 = true
        · rw [if_pos hcnd] at hr
          dsimp only at hr
          split at hr
          · -- the (true = true) test
            by_cases hmsg : st2.info.msgType = LogMessageType.other
            · rw [if_pos hmsg] at hr
              split at hr
              · subst hr
                refine ⟨rfl, ?_⟩
                intro log2 res h
                injection h with h1
                injection h1 with h2 h3
                subst h2
                subst h3
                refine ⟨bok, ?_⟩
                intro n info3 hres
                simp at hres
              · rename_i info2 heqM
                subst hr
                refine ⟨rfl, ?_⟩
                intro log2 res h
                injection h with h1
                injection h1 with h2 h3
                subst h2
                subst h3
                refine ⟨bok, ?_⟩
                intro n info3 hres
                injection hres with h4
                injection h4 with h5 h6
                subst h5
                exact binv (Or.inl hcnd.1)
            · rw [if_neg hmsg] at hr
              split at hr
              · subst hr
                refine ⟨rfl, ?_⟩
                intro log2 res h
                injection h with h1
                injection h1 with h2 h3
                subst h2
                subst h3
                refine ⟨bok, ?_⟩
                intro n info3 hres
                simp at hres
              · rename_i info2 heqM
                subst hr
                refine ⟨rfl, ?_⟩
                intro log2 res h
                injection h with h1
                injection h1 with h2 h3
                subst h2
                subst h3
                refine ⟨bok, ?_⟩
                intro n info3 hres
                injection hres with h4
                injection h4 with h5 h6
                subst h5
                exact binv (Or.inl hcnd.1)
          · rename_i hff
            exact absurd rfl hff
        · rw [if_neg hcnd] at hr
          dsimp only at hr
          by_cases hh2 : st2.isHttpv2 = true
          · rw [if_pos hh2] at hr
            by_cases hmsg : st2.info.msgType = LogMessageType.other
            · rw [if_pos hmsg] at hr
              split at hr
              · subst hr
                refine ⟨rfl, ?_⟩
                intro log2 res h
                injection h with h1
                injection h1 with h2 h3
                subst h2
                subst h3
                refine ⟨bok, ?_⟩
                intro n info3 hres
                simp at hres
              · rename_i info2 heqM
                subst hr
                refine ⟨rfl, ?_⟩
                intro log2 res h
                injection h with h1
                injection h1 with h2 h3
                subst h2
                subst h3
                refine ⟨bok, ?_⟩
                intro n info3 hres
                injection hres with h4
                injection h4 with h5 h6
                subst h5
                exact binv (Or.inr hh2)
            · rw [if_neg hmsg] at hr
              split at hr
              · subst hr
                refine ⟨rfl, ?_⟩
                intro log2 res h
                injection h with h1
                injection h1 with h2 h3
                subst h2
                subst h3
                refine ⟨bok, ?_⟩
                intro n info3 hres
                simp at hres
              · rename_i info2 heqM
                subst hr
                refine ⟨rfl, ?_⟩
                intro log2 res h
                injection h with h1
                injection h1 with h2 h3
                subst h2
                subst h3
                refine ⟨bok, ?_⟩
                intro n info3 hres
                injection hres with h4
                injection h4 with h5 h6
                subst h5
                exact binv (Or.inr hh2)
          · rw [if_neg hh2] at hr
            subst hr
            refine ⟨rfl, ?_⟩
            intro log2 res h
            injection h with h1
            injection h1 with h2 h3
            subst h2
            subst h3
            refine ⟨bok, ?_⟩
            intro n info3 hres
            simp at hres

theorem v2StateOk_onHeader (cfg : L7LogDynamicConfig) (key val : List Nat)
    (direction : PacketDirection) (log : Http.HttpLogSt)
    (info : Http.HttpInfo) (hd : Http.v2StateOk direction log) :
    Http.v2StateOk direction (Http.onHeader cfg key val direction log info).1 := by
  obtain ⟨e1, e2, e3⟩ := onHeader_state cfg key val direction log info
  obtain ⟨hd1, hd2⟩ := hd
  refine ⟨?_, ?_⟩
  · cases direction with
    | c2s =>
      rw [e1]
      exact hd1
    | s2c =>
      rw [e2]
      exact hd1
  · rcases e3 with e3 | e3
    · rw [e3]
      exact hd2
    · exact Or.inr e3

theorem parseHttpV2_spec (ext : Http.HExt) (param : ParseParam)
    (payload : List Nat) (log : Http.HttpLogSt) (info : Http.HttpInfo)
    (hc : param.parseConfig.isSome = true)
    (hd : Http.v2StateOk param.direction log) :
    (Http.parseHttpV2 ext param payload log info).isSome = true ∧
    ∀ log2 res, Http.parseHttpV2 ext param payload log info
        = some (log2, res) →
      Http.v2StateOk param.direction log2 ∧
      ∀ n info2, res = .ok (n, info2) → 1 ≤ n := by
  suffices hgen : ∀ r, Http.parseHttpV2 ext param payload log info = r →
      r.isSome = true ∧
      ∀ log2 res, r = some (log2, res) →
        Http.v2StateOk param.direction log2 ∧
        ∀ n info2, res = .ok (n, info2) → 1 ≤ n by
    obtain ⟨a, b⟩ := hgen _ rfl
    exact ⟨a, b⟩
  intro r hr
  unfold Http.parseHttpV2 at hr
  obtain ⟨a, b⟩ := checkHttpV2_spec ext param payload log info hc hd
  cases hC : Http.checkHttpV2 ext param payload log info with
  | none =>
    rw [hC] at a
    simp at a
  | some p =>
    obtain ⟨log2, res⟩ := p
    obtain ⟨bOK, bn⟩ := b log2 res hC
    rw [hC] at hr
    cases res with
    | error e =>
      dsimp only at hr
      subst hr
      refine ⟨rfl, ?_⟩
      intro log3 res3 h
      injection h with h1
      injection h1 with h2 h3
      subst h2
      subst h3
      refine ⟨bOK, ?_⟩
      intro n info2 hres
      simp at hres
    | ok p2 =>
      obtain ⟨n, info2⟩ := p2
      dsimp only at hr
      subst hr
      refine ⟨rfl, ?_⟩
      intro log3 res3 h
      injection h with h1
      injection h1 with h2 h3
      subst h2
      subst h3
      refine ⟨bOK, ?_⟩
      intro n2 info3 hres
      injection hres with h4
      injection h4 with h5 h6
      subst h5
      exact bn n info2 rfl

theorem checkHttp2GoUprobe_spec (cfg : L7LogDynamicConfig)
    (payload : List Nat) (param : ParseParam) (log : Http.HttpLogSt)
    (info : Http.HttpInfo) (hd : Http.v2StateOk param.direction log) :
    (Http.checkHttp2GoUprobe cfg payload param log info).isSome = true ∧
    ∀ log2 info2 res2, Http.checkHttp2GoUprobe cfg payload param log info
        = some (log2, info2, res2) →
      Http.v2StateOk param.direction log2 ∧ ∀ n, res2 = .ok n → 1 ≤ n := by
  suffices hgen : ∀ r, Http.checkHttp2GoUprobe cfg payload param log info = r →
      r.isSome = true ∧
      ∀ log2 info2 res2, r = some (log2, info2, res2) →
        Http.v2StateOk param.direction log2 ∧ ∀ n, res2 = .ok n → 1 ≤ n by
    obtain ⟨a, b⟩ := hgen _ rfl
    exact ⟨a, b⟩
  intro r hr
  unfold Http.checkHttp2GoUprobe at hr
  by_cases hlen : payload.length < Http.HTTPV2_CUSTOM_DATA_MIN_LENGTH
  · rw [if_pos hlen] at hr
    (subst hr
     refine ⟨rfl, ?_⟩
     intro log2 info2 res2 h
     injection h with h1
     injection h1 with h2 h3
     subst h2
     injection h3 with h4 h5
     subst h4
     subst h5
     refine ⟨?_, ?_⟩
     · first
       | exact hd
       | exact v2StateOk_onHeader _ _ _ _ _ _ hd
     · intro n hres
       first
       | (simp at hres; done)
       | (injection hres with h6
          subst h6
          omega))
  · rw [if_neg hlen] at hr
    have h16 : 16 ≤ payload.length := by
      simp only [Http.HTTPV2_CUSTOM_DATA_MIN_LENGTH] at hlen
      omega
    split at hr
    · (subst hr
       refine ⟨rfl, ?_⟩
       intro log2 info2 res2 h
       injection h with h1
       injection h1 with h2 h3
       subst h2
       injection h3 with h4 h5
       subst h4
       subst h5
       refine ⟨?_, ?_⟩
       · first
         | exact hd
         | exact v2StateOk_onHeader _ _ _ _ _ _ hd
       · intro n hres
         first
         | (simp at hres; done)
         | (injection hres with h6
            subst h6
            omega))
    · rename_i ireq iresp heq
      dsimp only at hr
      rw [slice_eq (show 4 ≤ 8 by omega)
        (show 8 ≤ payload.length by omega)] at hr
      simp only [Option.bind_eq_bind, Option.some_bind] at hr
      cases hR1 : readU32le ((payload.take 8).drop 4) with
      | none =>
        have hx := readU32le_isSome (l := (payload.take 8).drop 4)
          (by simp [List.length_take, List.length_drop]; omega)
        rw [hR1] at hx
        simp at hx
      | some sid =>
        rw [hR1] at hr
        simp only [Option.some_bind] at hr
        rw [sliceFrom_eq (show 8 ≤ payload.length by omega)] at hr
        simp only [Option.some_bind] at hr
        cases hR2 : readU32le (payload.drop 8) with
        | none =>
          have hx := readU32le_isSome (l := payload.drop 8)
            (by simp [List.length_drop]; omega)
          rw [hR2] at hx
          simp at hx
        | some kl =>
          rw [hR2] at hr
          simp only [Option.some_bind] at hr
          rw [sliceFrom_eq (show 12 ≤ payload.length by omega)] at hr
          simp only [Option.some_bind] at hr
          cases hR3 : readU32le (payload.drop 12) with
          | none =>
            have hx := readU32le_isSome (l := payload.drop 12)
              (by simp [List.length_drop]; omega)
            rw [hR3] at hx
            simp at hx
          | some vl =>
            rw [hR3] at hr
            simp only [Option.some_bind] at hr
            by_cases hkv : kl + vl + Http.HTTPV2_CUSTOM_DATA_MIN_LENGTH
                ≠ payload.length
            · rw [if_pos hkv] at hr
              (subst hr
               refine ⟨rfl, ?_⟩
               intro log2 info2 res2 h
               injection h with h1
               injection h1 with h2 h3
               subst h2
               injection h3 with h4 h5
               subst h4
               subst h5
               refine ⟨?_, ?_⟩
               · first
                 | exact hd
                 | exact v2StateOk_onHeader _ _ _ _ _ _ hd
               · intro n hres
                 first
                 | (simp at hres; done)
                 | (injection hres with h6
                    subst h6
                    omega))
            · rw [if_neg hkv] at hr
              have hkv' : kl + vl + 16 = payload.length := by
                simp only [Http.HTTPV2_CUSTOM_DATA_MIN_LENGTH] at hkv
                omega
              try dsimp only at hr
              rw [slice_eq
                  (show Http.HTTPV2_CUSTOM_DATA_MIN_LENGTH
                    ≤ Http.HTTPV2_CUSTOM_DATA_MIN_LENGTH + kl by omega)
                  (show Http.HTTPV2_CUSTOM_DATA_MIN_LENGTH + kl
                    ≤ payload.length by
                      simp only [Http.HTTPV2_CUSTOM_DATA_MIN_LENGTH]
                      omega),
                slice_eq
                  (show Http.HTTPV2_CUSTOM_DATA_MIN_LENGTH + kl
                    ≤ Http.HTTPV2_CUSTOM_DATA_MIN_LENGTH + kl + vl by omega)
                  (show Http.HTTPV2_CUSTOM_DATA_MIN_LENGTH + kl + vl
                    ≤ payload.length by
                      simp only [Http.HTTPV2_CUSTOM_DATA_MIN_LENGTH]
                      omega)] at hr
              dsimp only at hr
              repeat' split at hr
              all_goals
                (subst hr
                 refine ⟨rfl, ?_⟩
                 intro log2 info2 res2 h
                 injection h with h1
                 injection h1 with h2 h3
                 subst h2
                 injection h3 with h4 h5
                 subst h4
                 subst h5
                 refine ⟨?_, ?_⟩
                 · first
                   | exact hd
                   | exact v2StateOk_onHeader _ _ _ _ _ _ hd
                 · intro n hres
                   first
                   | (simp at hres; done)
                   | (injection hres with h6
                      subst h6
                      omega))

theorem parseHttp2GoUprobe_spec (cfg : L7LogDynamicConfig)
    (payload : List Nat) (param : ParseParam) (log : Http.HttpLogSt)
    (info : Http.HttpInfo) (hd : Http.v2StateOk param.direction log) :
    (Http.parseHttp2GoUprobe cfg payload param log info).isSome = true ∧
    ∀ log2 info2 res2, Http.parseHttp2GoUprobe cfg payload param log info
        = some (log2, info2, res2) →
      Http.v2StateOk param.direction log2 ∧ ∀ n, res2 = .ok n → 1 ≤ n := by
  suffices hgen : ∀ r, Http.parseHttp2GoUprobe cfg payload param log info = r →
      r.isSome = true ∧
      ∀ log2 info2 res2, r = some (log2, info2, res2) →
        Http.v2StateOk param.direction log2 ∧ ∀ n, res2 = .ok n → 1 ≤ n by
    obtain ⟨a, b⟩ := hgen _ rfl
    exact ⟨a, b⟩
  intro r hr
  unfold Http.parseHttp2GoUprobe at hr
  obtain ⟨a, b⟩ := checkHttp2GoUprobe_spec cfg payload param log info hd
  cases hC : Http.checkHttp2GoUprobe cfg payload param log info with
  | none =>
    rw [hC] at a
    simp at a
  | some p =>
    obtain ⟨log2, info2, res⟩ := p
    obtain ⟨bOK, bn⟩ := b log2 info2 res hC
    rw [hC] at hr
    cases res with
    | error e =>
      dsimp only at hr
      subst hr
      refine ⟨rfl, ?_⟩
      intro log3 info3 res3 h
      injection h with h1
      injection h1 with h2 h3
      subst h2
      injection h3 with h4 h5
      subst h4
      subst h5
      refine ⟨bOK, ?_⟩
      intro n hres
      simp at hres
    | ok n =>
      dsimp only at hr
      subst hr
      refine ⟨rfl, ?_⟩
      intro log3 info3 res3 h
      injection h with h1
      injection h1 with h2 h3
      subst h2
      injection h3 with h4 h5
      subst h4
      subst h5
      refine ⟨bOK, ?_⟩
      intro n2 hres
      injection hres with h6
      subst h6
      exact bn n rfl

theorem v1Next_lt (buf line buf2 : List Nat)
    (h : Http.v1Next buf = (some line, buf2)) :
    buf2.length < buf.length := by
  unfold Http.v1Next at h
  split at h
  · injection h with h1 h2
    simp at h1
  · rename_i hb2
    split at h
    · split at h
      · dsimp only at h
        split at h
        · injection h with h1 h2
          subst h2
          simp only [List.length_drop]
          omega
        · injection h with h1 h2
          simp at h1
      · injection h with h1 h2
        simp at h1
    · injection h with h1 h2
      simp at h1

theorem v1HeaderLoop_spec (cfg : L7LogDynamicConfig)
    (direction : PacketDirection) :
    ∀ (fuel : Nat) (buf : List Nat) (log : Http.HttpLogSt)
      (info : Http.HttpInfo) (cl : Option Nat),
      buf.length < fuel →
      (Http.v1HeaderLoop cfg direction fuel buf log info cl).isSome = true ∧
      ∀ log2 info2 cl2 e2,
        Http.v1HeaderLoop cfg direction fuel buf log info cl
          = some (log2, info2, cl2, e2) →
        (log2.proto = log.proto ∨ log2.proto = L7Protocol.grpc) := by
  intro fuel
  induction fuel with
  | zero =>
    intro buf log info cl hf
    exact absurd hf (Nat.not_lt_zero _)
  | succ fuel ih =>
    intro buf log info cl hf
    suffices hgen : ∀ r,
        Http.v1HeaderLoop cfg direction (fuel + 1) buf log info cl = r →
        r.isSome = true ∧
        ∀ log2 info2 cl2 e2, r = some (log2, info2, cl2, e2) →
          (log2.proto = log.proto ∨ log2.proto = L7Protocol.grpc) by
      obtain ⟨a, b⟩ := hgen _ rfl
      exact ⟨a, b⟩
    intro r hr
    simp only [Http.v1HeaderLoop] at hr
    split at hr
    · -- no CRLF: the iterator yields nothing
      subst hr
      refine ⟨rfl, ?_⟩
      intro log2 info2 cl2 e2 h
      injection h with h1
      injection h1 with h2 h3
      subst h2
      exact Or.inl rfl
    · rename_i line buf2 heq
      have hlt : buf2.length < fuel := by
        have := v1Next_lt buf line buf2 heq
        omega
      split at hr
      · -- no colon: skip the line
        rw [← hr]
        exact ih buf2 log info cl hlt
      · rename_i colIdx heqc
        split at hr
        · -- colon at the end: skip the line
          rw [← hr]
          exact ih buf2 log info cl hlt
        · try dsimp only at hr
          split at hr
          · -- on_header reported an error: stop
            rename_i e heqE
            subst hr
            refine ⟨rfl, ?_⟩
            intro log2 info2 cl2 e2 h
            injection h with h1
            injection h1 with h2 h3
            subst h2
            exact (onHeader_state cfg _ _ direction log info).2.2
          · -- continue with the mutated state
            rw [← hr]
            refine ⟨(ih buf2 _ _ _ hlt).1, ?_⟩
            intro log2 info2 cl2 e2 h
            have hrec := (ih buf2 _ _ _ hlt).2 log2 info2 cl2 e2 h
            rcases hrec with h5 | h5
            · rw [h5]
              exact (onHeader_state cfg _ _ direction log info).2.2
            · exact Or.inr h5

theorem parseHttpV1_spec (param : ParseParam) (payload : List Nat)
    (log : Http.HttpLogSt) (info : Http.HttpInfo)
    (hc : param.parseConfig.isSome = true) :
    (Http.parseHttpV1 param payload log info).isSome = true ∧
    ∀ log2 info2 e2, Http.parseHttpV1 param payload log info
        = some (log2, info2, e2) →
      (log2.proto = log.proto ∨ log2.proto = L7Protocol.grpc) := by
  suffices hgen : ∀ r, Http.parseHttpV1 param payload log info = r →
      r.isSome = true ∧
      ∀ log2 info2 e2, r = some (log2, info2, e2) →
        (log2.proto = log.proto ∨ log2.proto = L7Protocol.grpc) by
    obtain ⟨a, b⟩ := hgen _ rfl
    exact ⟨a, b⟩
  intro r hr
  unfold Http.parseHttpV1 at hr
  split at hr
  · rename_i heqP
    rw [heqP] at hc
    simp at hc
  · rename_i config heqP
    try dsimp only at hr
    by_cases hv1 : ¬ Http.isHttpV1Payload payload = true
    · rw [if_pos hv1] at hr
      subst hr
      refine ⟨rfl, ?_⟩
      intro log2 info2 e2 h
      injection h with h1
      injection h1 with h2 h3
      subst h2
      exact Or.inl rfl
    · rw [if_neg hv1] at hr
      split at hr
      · -- no first line
        subst hr
        refine ⟨rfl, ?_⟩
        intro log2 info2 e2 h
        injection h with h1
        injection h1 with h2 h3
        subst h2
        exact Or.inl rfl
      · rename_i firstLine buf heqN
        try dsimp only at hr
        split at hr
        · -- the first line is rejected
          rename_i info1 e heqF
          subst hr
          refine ⟨rfl, ?_⟩
          intro log2 info2 e2 h
          injection h with h1
          injection h1 with h2 h3
          subst h2
          exact Or.inl rfl
        · rename_i info1 heqF
          split at hr
          · -- the header loop cannot run out of fuel
            rename_i heqL
            have hL := (v1HeaderLoop_spec config.l7LogDynamic param.direction
              (buf.length + 1) buf log info1 none (by omega)).1
            rw [heqL] at hL
            simp at hL
          · -- the loop stopped on an on_header error
            rename_i llog linfo lcl le heqL
            subst hr
            refine ⟨rfl, ?_⟩
            intro log2 info2 e2 h
            injection h with h1
            injection h1 with h2 h3
            subst h2
            exact (v1HeaderLoop_spec config.l7LogDynamic param.direction
              (buf.length + 1) buf log info1 none (by omega)).2 _ _ _ _ heqL
          · -- the loop finished the headers
            rename_i llog linfo lcl heqL
            subst hr
            refine ⟨rfl, ?_⟩
            intro log2 info2 e2 h
            injection h with h1
            injection h1 with h2 h3
            subst h2
            exact (v1HeaderLoop_spec config.l7LogDynamic param.direction
              (buf.length + 1) buf log info1 none (by omega)).2 _ _ _ _ heqL

theorem heLoop_bounds (keep : Nat) :
    ∀ (segs : List (List Nat)) (j k e : Nat), e ≤ j →
      e ≤ Http.heLoop keep (List.enumFrom j segs) k e ∧
      Http.heLoop keep (List.enumFrom j segs) k e ≤ j + segs.length := by
  intro segs
  induction segs with
  | nil =>
    intro j k e he
    simp only [List.enumFrom, Http.heLoop]
    omega
  | cons s rest ih =>
    intro j k e he
    simp only [List.enumFrom, Http.heLoop, List.length_cons]
    split
    · omega
    · split
      · obtain ⟨a, b⟩ := ih (j + 1) k e (by omega)
        exact ⟨a, by omega⟩
      · obtain ⟨a, b⟩ := ih (j + 1) (k + 1) (j + 1) (by omega)
        exact ⟨by omega, by omega⟩

theorem handleEndpoint_isSome (config : LogParserConfig) (path : List Nat) :
    (Http.handleEndpoint config path).isSome = true := by
  unfold Http.handleEndpoint
  dsimp only
  split
  · rfl
  · rename_i hkeep
    simp only [List.enum]
    by_cases hh : (Http.splitOnByte 47 (path.takeWhile (· ≠ 63))).head?
        = some []
    · rw [if_pos hh]
      cases hcl : Http.splitOnByte 47 (path.takeWhile (· ≠ 63)) with
      | nil =>
        rw [hcl] at hh
        simp at hh
      | cons a t =>
        rw [hcl] at hh
        simp at hh
        subst hh
        simp only [List.enumFrom, Http.heLoop]
        have hk' : ¬ (0 ≥ Http.findMatchingRule config.endpointRules path) :=
          hkeep
        rw [if_neg hk']
        rw [if_pos (Or.inl trivial)]
        simp only [Nat.zero_add]
        obtain ⟨ha, hb⟩ := heLoop_bounds
          (Http.findMatchingRule config.endpointRules path) t 1 0 1 (le_refl 1)
        rw [if_pos ⟨ha, by simp only [List.length_cons]; omega⟩]
        rfl
    · rw [if_neg hh]
      obtain ⟨ha, hb⟩ := heLoop_bounds
        (Http.findMatchingRule config.endpointRules path)
        (Http.splitOnByte 47 (path.takeWhile (· ≠ 63))) 0 0 0 (le_refl 0)
      rw [if_pos ⟨ha, by omega⟩]
      rfl

@[simp]
theorem calRrtApply_proto (param : ParseParam) (log : Http.HttpLogSt) (info : Http.HttpInfo) :
    (Http.calRrtApply param log info).1.proto = log.proto := by
  unfold Http.calRrtApply
  repeat' split
  all_goals rfl

@[simp]
theorem calRrtApply_req (param : ParseParam) (log : Http.HttpLogSt) (info : Http.HttpInfo) :
    (Http.calRrtApply param log info).1.http2ReqDecoder = log.http2ReqDecoder := by
  unfold Http.calRrtApply
  repeat' split
  all_goals rfl

@[simp]
theorem calRrtApply_resp (param : ParseParam) (log : Http.HttpLogSt) (info : Http.HttpInfo) :
    (Http.calRrtApply param log info).1.http2RespDecoder = log.http2RespDecoder := by
  unfold Http.calRrtApply
  repeat' split
  all_goals rfl

@[simp]
theorem setGrpcStatus_proto (log : Http.HttpLogSt) (code : Nat) (info : Http.HttpInfo) :
    (Http.setGrpcStatus log code info).1.proto = log.proto := by
  unfold Http.setGrpcStatus
  repeat' split
  all_goals rfl

@[simp]
theorem setGrpcStatus_req (log : Http.HttpLogSt) (code : Nat) (info : Http.HttpInfo) :
    (Http.setGrpcStatus log code info).1.http2ReqDecoder = log.http2ReqDecoder := by
  unfold Http.setGrpcStatus
  repeat' split
  all_goals rfl

@[simp]
theorem setGrpcStatus_resp (log : Http.HttpLogSt) (code : Nat) (info : Http.HttpInfo) :
    (Http.setGrpcStatus log code info).1.http2RespDecoder = log.http2RespDecoder := by
  unfold Http.setGrpcStatus
  repeat' split
  all_goals rfl

@[simp]
theorem setStatus_proto (log : Http.HttpLogSt) (code : Nat) (info : Http.HttpInfo) :
    (Http.setStatus log code info).1.proto = log.proto := by
  unfold Http.setStatus
  repeat' split
  all_goals rfl

@[simp]
theorem setStatus_req (log : Http.HttpLogSt) (code : Nat) (info : Http.HttpInfo) :
    (Http.setStatus log code info).1.http2ReqDecoder = log.http2ReqDecoder := by
  unfold Http.setStatus
  repeat' split
  all_goals rfl

@[simp]
theorem setStatus_resp (log : Http.HttpLogSt) (code : Nat) (info : Http.HttpInfo) :
    (Http.setStatus log code info).1.http2RespDecoder = log.http2RespDecoder := by
  unfold Http.setStatus
  repeat' split
  all_goals rfl

theorem sicStats_spec (param : ParseParam) (log : Http.HttpLogSt)
    (info : Http.HttpInfo)
    (hp : log.proto = L7Protocol.http1 ∨ log.proto = L7Protocol.http2
      ∨ log.proto = L7Protocol.grpc) :
    (Http.sicStats param log info).isSome = true ∧
    ∀ log2 info2, Http.sicStats param log info = some (log2, info2) →
      log2.proto = log.proto ∧ log2.http2ReqDecoder = log.http2ReqDecoder
      ∧ log2.http2RespDecoder = log.http2RespDecoder := by
  suffices hgen : ∀ r, Http.sicStats param log info = r →
      r.isSome = true ∧
      ∀ log2 info2, r = some (log2, info2) →
        log2.proto = log.proto ∧ log2.http2ReqDecoder = log.http2ReqDecoder
        ∧ log2.http2RespDecoder = log.http2RespDecoder by
    obtain ⟨a, b⟩ := hgen _ rfl
    exact ⟨a, b⟩
  intro r hr
  unfold Http.sicStats at hr
  rcases hp with hp | hp | hp <;>
    rw [hp] at hr <;>
    try dsimp only at hr
  · -- HTTP/1
    repeat' split at hr
    all_goals
      (subst hr
       refine ⟨rfl, ?_⟩
       intro log2 info2 h
       injection h with h1
       obtain ⟨hl, hi⟩ := Prod.ext_iff.mp h1
       try dsimp only at hl
       rw [← hl]
       refine ⟨?_, ?_, ?_⟩ <;>
         (simp only [calRrtApply_proto, calRrtApply_req, calRrtApply_resp,
            setGrpcStatus_proto, setGrpcStatus_req, setGrpcStatus_resp,
            setStatus_proto, setStatus_req, setStatus_resp, hp]
          try rfl))
  · -- HTTP/2
    repeat' split at hr
    all_goals
      (subst hr
       refine ⟨rfl, ?_⟩
       intro log2 info2 h
       injection h with h1
       obtain ⟨hl, hi⟩ := Prod.ext_iff.mp h1
       try dsimp only at hl
       rw [← hl]
       refine ⟨?_, ?_, ?_⟩ <;>
         (simp only [calRrtApply_proto, calRrtApply_req, calRrtApply_resp,
            setGrpcStatus_proto, setGrpcStatus_req, setGrpcStatus_resp,
            setStatus_proto, setStatus_req, setStatus_resp, hp]
          try rfl))
  · -- gRPC
    repeat' split at hr
    all_goals
      (subst hr
       refine ⟨rfl, ?_⟩
       intro log2 info2 h
       injection h with h1
       obtain ⟨hl, hi⟩ := Prod.ext_iff.mp h1
       try dsimp only at hl
       rw [← hl]
       refine ⟨?_, ?_, ?_⟩ <;>
         (simp only [calRrtApply_proto, calRrtApply_req, calRrtApply_resp,
            setGrpcStatus_proto, setGrpcStatus_req, setGrpcStatus_resp,
            setStatus_proto, setStatus_req, setStatus_resp, hp]
          try rfl))

theorem setInfoByConfig_spec (param : ParseParam) (config : LogParserConfig)
    (log : Http.HttpLogSt) (info : Http.HttpInfo)
    (hp : log.proto = L7Protocol.http1 ∨ log.proto = L7Protocol.http2
      ∨ log.proto = L7Protocol.grpc) :
    (Http.setInfoByConfig param config log info).isSome = true ∧
    ∀ log2 info2, Http.setInfoByConfig param config log info
        = some (log2, info2) →
      log2.proto = log.proto ∧ log2.http2ReqDecoder = log.http2ReqDecoder
      ∧ log2.http2RespDecoder = log.http2RespDecoder := by
  suffices hgen : ∀ r, Http.setInfoByConfig param config log info = r →
      r.isSome = true ∧
      ∀ log2 info2, r = some (log2, info2) →
        log2.proto = log.proto ∧ log2.http2ReqDecoder = log.http2ReqDecoder
        ∧ log2.http2RespDecoder = log.http2RespDecoder by
    obtain ⟨a, b⟩ := hgen _ rfl
    exact ⟨a, b⟩
  intro r hr
  unfold Http.setInfoByConfig at hr
  dsimp only at hr
  split at hr
  · -- the endpoint step cannot fail
    rename_i heq
    repeat' split at heq
    all_goals
      first
      | (simp at heq; done)
      | (rename_i heqH
         exact absurd heqH
           (Option.ne_none_iff_isSome.mpr (handleEndpoint_isSome config _)))
  · rename_i info3 heq
    split at hr
    · -- the stats step cannot fail
      rename_i heq2
      split at heq2
      · have hS := (sicStats_spec param log (info3.setIsOnBlacklist config)
          hp).1
        rw [heq2] at hS
        simp at hS
      · simp at heq2
    · rename_i log5 info5 heq2
      have hfacts : log5.proto = log.proto
          ∧ log5.http2ReqDecoder = log.http2ReqDecoder
          ∧ log5.http2RespDecoder = log.http2RespDecoder := by
        split at heq2
        · exact (sicStats_spec param log (info3.setIsOnBlacklist config)
            hp).2 log5 info5 heq2
        · injection heq2 with h1
          injection h1 with h2 h3
          subst h2
          exact ⟨rfl, rfl, rfl⟩
      subst hr
      refine ⟨rfl, ?_⟩
      intro log2 info2 h
      injection h with h1
      injection h1 with h2 h3
      subst h2
      exact ⟨hfacts.1, hfacts.2.1, hfacts.2.2⟩

theorem v2StateOk_setup (ext : Http.HExt) (direction : PacketDirection)
    (log : Http.HttpLogSt)
    (hp2 : log.proto = L7Protocol.http2 ∨ log.proto = L7Protocol.grpc)
    (hdec : log.http2ReqDecoder.isSome = true →
      log.http2RespDecoder.isSome = true) :
    Http.v2StateOk direction
      (if log.http2ReqDecoder.isNone = true then log.setHeaderDecoder ext
        else log) := by
  by_cases h : log.http2ReqDecoder.isNone = true
  · rw [if_pos h]
    refine ⟨?_, ?_⟩
    · cases direction <;> rfl
    · exact hp2
  · rw [if_neg h]
    have hreq : log.http2ReqDecoder.isSome = true := by
      cases hx : log.http2ReqDecoder with
      | none =>
        rw [hx] at h
        simp at h
      | some d => rfl
    refine ⟨?_, ?_⟩
    · cases direction with
      | c2s => exact hreq
      | s2c => exact hdec hreq
    · exact hp2

theorem ppLoop_spec (ext : Http.HExt) (param : ParseParam)
    (config : LogParserConfig) (payload : List Nat) :
    ∀ (fuel offset : Nat) (infos : List Http.HttpInfo)
      (lastError : FgError) (log : Http.HttpLogSt),
      payload.length + 2 ≤ fuel + offset →
      1 ≤ fuel →
      param.parseConfig.isSome = true →
      Http.v2StateOk param.direction log →
      (Http.ppLoop ext param config payload fuel offset infos
        lastError log).isSome = true := by
  intro fuel
  induction fuel with
  | zero =>
    intro offset infos lastError log hf1 hf2
    exact absurd hf2 (by omega)
  | succ fuel ih =>
    intro offset infos lastError log hf1 hf2 hc hd
    suffices hgen : ∀ r,
        Http.ppLoop ext param config payload (fuel + 1) offset infos
          lastError log = r → r.isSome = true by
      exact hgen _ rfl
    intro r hr
    simp only [Http.ppLoop] at hr
    by_cases hoff : offset > payload.length
    · rw [if_pos hoff] at hr
      subst hr
      rfl
    · rw [if_neg hoff] at hr
      try dsimp only at hr
      rw [sliceFrom_eq (show offset ≤ payload.length by omega)] at hr
      dsimp only at hr
      cases he : param.ebpfType with
      | goHttp2Uprobe =>
        rw [he] at hr
        dsimp only at hr
        obtain ⟨a, b⟩ := parseHttp2GoUprobe_spec config.l7LogDynamic
          (payload.drop offset) param log
          { proto := log.proto, isTls := param.isTls } hd
        cases hP : Http.parseHttp2GoUprobe config.l7LogDynamic (payload.drop offset)
            param log { proto := log.proto, isTls := param.isTls } with
        | none =>
          rw [hP] at a
          simp at a
        | some p =>
          obtain ⟨log2, info2, res⟩ := p
          obtain ⟨bOK, bn⟩ := b log2 info2 res hP
          rw [hP] at hr
          cases res with
          | error e =>
            dsimp only at hr
            subst hr
            rfl
          | ok n =>
            dsimp only at hr
            obtain ⟨s1, s2⟩ := setInfoByConfig_spec param config log2 info2
              (by rcases bOK.2 with h | h
                  · exact Or.inr (Or.inl h)
                  · exact Or.inr (Or.inr h))
            cases hS : Http.setInfoByConfig param config log2 info2 with
            | none =>
              rw [hS] at s1
              simp at s1
            | some q =>
              obtain ⟨log3, info3⟩ := q
              obtain ⟨e1, e2, e3⟩ := s2 log3 info3 hS
              rw [hS] at hr
              dsimp only at hr
              rw [← hr]
              have hn : 1 ≤ n := bn n rfl
              refine ih (offset + n) _ lastError log3 (by omega) (by omega) hc ?_
              obtain ⟨bo1, bo2⟩ := bOK
              refine ⟨?_, ?_⟩
              · cases hdir : param.direction with
                | c2s =>
                  rw [hdir] at bo1
                  rw [e2]
                  exact bo1
                | s2c =>
                  rw [hdir] at bo1
                  rw [e3]
                  exact bo1
              · rw [e1]
                exact bo2
      | rawPacket =>
        rw [he] at hr
        dsimp only at hr
        obtain ⟨a, b⟩ := parseHttpV2_spec ext param (payload.drop offset) log
          { proto := log.proto, isTls := param.isTls } hc hd
        cases hP : Http.parseHttpV2 ext param (payload.drop offset) log
            { proto := log.proto, isTls := param.isTls } with
        | none =>
          rw [hP] at a
          simp at a
        | some p =>
          obtain ⟨log2, res⟩ := p
          obtain ⟨bOK, bn⟩ := b log2 res hP
          rw [hP] at hr
          cases res with
          | error e =>
            dsimp only at hr
            subst hr
            rfl
          | ok p2 =>
            obtain ⟨n, info2⟩ := p2
            dsimp only at hr
            obtain ⟨s1, s2⟩ := setInfoByConfig_spec param config log2 info2
              (by rcases bOK.2 with h | h
                  · exact Or.inr (Or.inl h)
                  · exact Or.inr (Or.inr h))
            cases hS : Http.setInfoByConfig param config log2 info2 with
            | none =>
              rw [hS] at s1
              simp at s1
            | some q =>
              obtain ⟨log3, info3⟩ := q
              obtain ⟨e1, e2, e3⟩ := s2 log3 info3 hS
              rw [hS] at hr
              dsimp only at hr
              rw [← hr]
              have hn : 1 ≤ n := bn n info2 rfl
              refine ih (offset + n) _ lastError log3 (by omega) (by omega) hc ?_
              obtain ⟨bo1, bo2⟩ := bOK
              refine ⟨?_, ?_⟩
              · cases hdir : param.direction with
                | c2s =>
                  rw [hdir] at bo1
                  rw [e2]
                  exact bo1
                | s2c =>
                  rw [hdir] at bo1
                  rw [e3]
                  exact bo1
              · rw [e1]
                exact bo2
      | tracePoint =>
        rw [he] at hr
        dsimp only at hr
        obtain ⟨a, b⟩ := parseHttpV2_spec ext param (payload.drop offset) log
          { proto := log.proto, isTls := param.isTls } hc hd
        cases hP : Http.parseHttpV2 ext param (payload.drop offset) log
            { proto := log.proto, isTls := param.isTls } with
        | none =>
          rw [hP] at a
          simp at a
        | some p =>
          obtain ⟨log2, res⟩ := p
          obtain ⟨bOK, bn⟩ := b log2 res hP
          rw [hP] at hr
          cases res with
          | error e =>
            dsimp only at hr
            subst hr
            rfl
          | ok p2 =>
            obtain ⟨n, info2⟩ := p2
            dsimp only at hr
            obtain ⟨s1, s2⟩ := setInfoByConfig_spec param config log2 info2
              (by rcases bOK.2 with h | h
                  · exact Or.inr (Or.inl h)
                  · exact Or.inr (Or.inr h))
            cases hS : Http.setInfoByConfig param config log2 info2 with
            | none =>
              rw [hS] at s1
              simp at s1
            | some q =>
              obtain ⟨log3, info3⟩ := q
              obtain ⟨e1, e2, e3⟩ := s2 log3 info3 hS
              rw [hS] at hr
              dsimp only at hr
              rw [← hr]
              have hn : 1 ≤ n := bn n info2 rfl
              refine ih (offset + n) _ lastError log3 (by omega) (by omega) hc ?_
              obtain ⟨bo1, bo2⟩ := bOK
              refine ⟨?_, ?_⟩
              · cases hdir : param.direction with
                | c2s =>
                  rw [hdir] at bo1
                  rw [e2]
                  exact bo1
                | s2c =>
                  rw [hdir] at bo1
                  rw [e3]
                  exact bo1
              · rw [e1]
                exact bo2
      | goHttp2UprobeData =>
        rw [he] at hr
        dsimp only at hr
        obtain ⟨a, b⟩ := parseHttpV2_spec ext param (payload.drop offset) log
          { proto := log.proto, isTls := param.isTls } hc hd
        cases hP : Http.parseHttpV2 ext param (payload.drop offset) log
            { proto := log.proto, isTls := param.isTls } with
        | none =>
          rw [hP] at a
          simp at a
        | some p =>
          obtain ⟨log2, res⟩ := p
          obtain ⟨bOK, bn⟩ := b log2 res hP
          rw [hP] at hr
          cases res with
          | error e =>
            dsimp only at hr
            subst hr
            rfl
          | ok p2 =>
            obtain ⟨n, info2⟩ := p2
            dsimp only at hr
            obtain ⟨s1, s2⟩ := setInfoByConfig_spec param config log2 info2
              (by rcases bOK.2 with h | h
                  · exact Or.inr (Or.inl h)
                  · exact Or.inr (Or.inr h))
            cases hS : Http.setInfoByConfig param config log2 info2 with
            | none =>
              rw [hS] at s1
              simp at s1
            | some q =>
              obtain ⟨log3, info3⟩ := q
              obtain ⟨e1, e2, e3⟩ := s2 log3 info3 hS
              rw [hS] at hr
              dsimp only at hr
              rw [← hr]
              have hn : 1 ≤ n := bn n info2 rfl
              refine ih (offset + n) _ lastError log3 (by omega) (by omega) hc ?_
              obtain ⟨bo1, bo2⟩ := bOK
              refine ⟨?_, ?_⟩
              · cases hdir : param.direction with
                | c2s =>
                  rw [hdir] at bo1
                  rw [e2]
                  exact bo1
                | s2c =>
                  rw [hdir] at bo1
                  rw [e3]
                  exact bo1
              · rw [e1]
                exact bo2
      | unixSocket =>
        rw [he] at hr
        dsimp only at hr
        obtain ⟨a, b⟩ := parseHttpV2_spec ext param (payload.drop offset) log
          { proto := log.proto, isTls := param.isTls } hc hd
        cases hP : Http.parseHttpV2 ext param (payload.drop offset) log
            { proto := log.proto, isTls := param.isTls } with
        | none =>
          rw [hP] at a
          simp at a
        | some p =>
          obtain ⟨log2, res⟩ := p
          obtain ⟨bOK, bn⟩ := b log2 res hP
          rw [hP] at hr
          cases res with
          | error e =>
            dsimp only at hr
            subst hr
            rfl
          | ok p2 =>
            obtain ⟨n, info2⟩ := p2
            dsimp only at hr
            obtain ⟨s1, s2⟩ := setInfoByConfig_spec param config log2 info2
              (by rcases bOK.2 with h | h
                  · exact Or.inr (Or.inl h)
                  · exact Or.inr (Or.inr h))
            cases hS : Http.setInfoByConfig param config log2 info2 with
            | none =>
              rw [hS] at s1
              simp at s1
            | some q =>
              obtain ⟨log3, info3⟩ := q
              obtain ⟨e1, e2, e3⟩ := s2 log3 info3 hS
              rw [hS] at hr
              dsimp only at hr
              rw [← hr]
              have hn : 1 ≤ n := bn n info2 rfl
              refine ih (offset + n) _ lastError log3 (by omega) (by omega) hc ?_
              obtain ⟨bo1, bo2⟩ := bOK
              refine ⟨?_, ?_⟩
              · cases hdir : param.direction with
                | c2s =>
                  rw [hdir] at bo1
                  rw [e2]
                  exact bo1
                | s2c =>
                  rw [hdir] at bo1
                  rw [e3]
                  exact bo1
              · rw [e1]
                exact bo2

theorem http_checkPayload_isSome (ext : Http.HExt) (log : Http.HttpLogSt)
    (payload : List Nat) (param : ParseParam)
    (hp : log.proto = L7Protocol.http1 ∨ log.proto = L7Protocol.http2
      ∨ log.proto = L7Protocol.grpc)
    (hdec : log.http2ReqDecoder.isSome = true →
      log.http2RespDecoder.isSome = true) :
    (Http.checkPayload ext log payload param).isSome = true := by
  suffices hgen : ∀ r, Http.checkPayload ext log payload param = r →
      r.isSome = true by
    exact hgen _ rfl
  intro r hr
  unfold Http.checkPayload at hr
  split at hr
  · subst hr
    rfl
  · try dsimp only at hr
    by_cases hperf : (log.perfStats.isNone = true ∧ param.parsePerf = true)
    · rw [if_pos hperf] at hr
      dsimp only at hr
      split at hr
      · -- HTTP/1 probe
        subst hr
        rfl
      · -- HTTP/2 family
        rename_i heqp
        try dsimp only at hr
        split at hr
        · subst hr
          rfl
        · rename_i config heqC
          dsimp only at hr
          have HD3 := v2StateOk_setup ext param.direction { log with perfStats := some {} }
            (Or.inl heqp) hdec
          cases he : param.ebpfType with
          | goHttp2Uprobe | goHttp2UprobeData | unixSocket =>
            rw [he] at hr
            dsimp only at hr
            by_cases hsdir : param.direction = PacketDirection.s2c
            · rw [if_pos hsdir] at hr
              subst hr
              rfl
            · rw [if_neg hsdir] at hr
              try dsimp only at hr
              split at hr
              · rename_i heqG
                have hx := (checkHttp2GoUprobe_spec config.l7LogDynamic payload
                  param _ {} HD3).1
                rw [heqG] at hx
                simp at hx
              · subst hr
                rfl
          | rawPacket | tracePoint =>
            rw [he] at hr
            dsimp only at hr
            split at hr
            · rename_i heqV
              have hx := (checkHttpV2_spec ext param payload _ {}
                (by rw [heqC]; rfl) HD3).1
              rw [heqV] at hx
              simp at hx
            · subst hr
              rfl
      · rename_i heqp
        try dsimp only at hr
        split at hr
        · subst hr
          rfl
        · rename_i config heqC
          dsimp only at hr
          have HD3 := v2StateOk_setup ext param.direction { log with perfStats := some {} }
            (Or.inr heqp) hdec
          cases he : param.ebpfType with
          | goHttp2Uprobe | goHttp2UprobeData | unixSocket =>
            rw [he] at hr
            dsimp only at hr
            by_cases hsdir : param.direction = PacketDirection.s2c
            · rw [if_pos hsdir] at hr
              subst hr
              rfl
            · rw [if_neg hsdir] at hr
              try dsimp only at hr
              split at hr
              · rename_i heqG
                have hx := (checkHttp2GoUprobe_spec config.l7LogDynamic payload
                  param _ {} HD3).1
                rw [heqG] at hx
                simp at hx
              · subst hr
                rfl
          | rawPacket | tracePoint =>
            rw [he] at hr
            dsimp only at hr
            split at hr
            · rename_i heqV
              have hx := (checkHttpV2_spec ext param payload _ {}
                (by rw [heqC]; rfl) HD3).1
              rw [heqV] at hx
              simp at hx
            · subst hr
              rfl
      · -- other protocols are excluded by the hypothesis
        rename_i h1 h2 h3
        rcases hp with hp | hp | hp
        · exact absurd hp h1
        · exact absurd hp h2
        · exact absurd hp h3
    · rw [if_neg hperf] at hr
      split at hr
      · -- HTTP/1 probe
        subst hr
        rfl
      · -- HTTP/2 family
        rename_i heqp
        try dsimp only at hr
        split at hr
        · subst hr
          rfl
        · rename_i config heqC
          dsimp only at hr
          have HD3 := v2StateOk_setup ext param.direction log
            (Or.inl heqp) hdec
          cases he : param.ebpfType with
          | goHttp2Uprobe | goHttp2UprobeData | unixSocket =>
            rw [he] at hr
            dsimp only at hr
            by_cases hsdir : param.direction = PacketDirection.s2c
            · rw [if_pos hsdir] at hr
              subst hr
              rfl
            · rw [if_neg hsdir] at hr
              try dsimp only at hr
              split at hr
              · rename_i heqG
                have hx := (checkHttp2GoUprobe_spec config.l7LogDynamic payload
                  param _ {} HD3).1
                rw [heqG] at hx
                simp at hx
              · subst hr
                rfl
          | rawPacket | tracePoint =>
            rw [he] at hr
            dsimp only at hr
            split at hr
            · rename_i heqV
              have hx := (checkHttpV2_spec ext param payload _ {}
                (by rw [heqC]; rfl) HD3).1
              rw [heqV] at hx
              simp at hx
            · subst hr
              rfl
      · rename_i heqp
        try dsimp only at hr
        split at hr
        · subst hr
          rfl
        · rename_i config heqC
          dsimp only at hr
          have HD3 := v2StateOk_setup ext param.direction log
            (Or.inr heqp) hdec
          cases he : param.ebpfType with
          | goHttp2Uprobe | goHttp2UprobeData | unixSocket =>
            rw [he] at hr
            dsimp only at hr
            by_cases hsdir : param.direction = PacketDirection.s2c
            · rw [if_pos hsdir] at hr
              subst hr
              rfl
            · rw [if_neg hsdir] at hr
              try dsimp only at hr
              split at hr
              · rename_i heqG
                have hx := (checkHttp2GoUprobe_spec config.l7LogDynamic payload
                  param _ {} HD3).1
                rw [heqG] at hx
                simp at hx
              · subst hr
                rfl
          | rawPacket | tracePoint =>
            rw [he] at hr
            dsimp only at hr
            split at hr
            · rename_i heqV
              have hx := (checkHttpV2_spec ext param payload _ {}
                (by rw [heqC]; rfl) HD3).1
              rw [heqV] at hx
              simp at hx
            · subst hr
              rfl
      · -- other protocols are excluded by the hypothesis
        rename_i h1 h2 h3
        rcases hp with hp | hp | hp
        · exact absurd hp h1
        · exact absurd hp h2
        · exact absurd hp h3

theorem http_parsePayload_isSome (ext : Http.HExt) (log : Http.HttpLogSt)
    (payload : List Nat) (param : ParseParam)
    (hp : log.proto = L7Protocol.http1 ∨ log.proto = L7Protocol.http2
      ∨ log.proto = L7Protocol.grpc)
    (hdec : log.http2ReqDecoder.isSome = true →
      log.http2RespDecoder.isSome = true) :
    (Http.parsePayload ext log payload param).isSome = true := by
  suffices hgen : ∀ r, Http.parsePayload ext log payload param = r →
      r.isSome = true by
    exact hgen _ rfl
  intro r hr
  unfold Http.parsePayload at hr
  split at hr
  · subst hr
    rfl
  · rename_i config heqC
    dsimp only at hr
    by_cases hperf : (log.perfStats.isNone = true ∧ param.parsePerf = true)
    · rw [if_pos hperf] at hr
      dsimp only at hr
      split at hr
      · -- HTTP/1
        rename_i heqp
        try dsimp only at hr
        split at hr
        · rename_i heqV1
          have hx := (parseHttpV1_spec param payload { log with perfStats := some {} }
            { proto := log.proto, isTls := param.isTls } (by rw [heqC]; rfl)).1
          rw [heqV1] at hx
          simp at hx
        · subst hr
          rfl
        · rename_i log2 info2 heqV1
          try dsimp only at hr
          split at hr
          · rename_i heqS
            have hps : log2.proto = L7Protocol.http1 ∨ log2.proto = L7Protocol.http2
                ∨ log2.proto = L7Protocol.grpc := by
              rcases (parseHttpV1_spec param payload { log with perfStats := some {} }
                  { proto := log.proto, isTls := param.isTls }
                  (by rw [heqC]; rfl)).2 log2 info2 none heqV1 with h | h
              · exact Or.inl (h.trans heqp)
              · exact Or.inr (Or.inr h)
            have hx := (setInfoByConfig_spec param config log2 info2 hps).1
            rw [heqS] at hx
            simp at hx
          · rename_i log3 info3 heqS
            try dsimp only at hr
            repeat' split at hr
            all_goals (subst hr; rfl)
      · -- HTTP/2
        rename_i heqp
        try dsimp only at hr
        have HD3 := v2StateOk_setup ext param.direction { log with perfStats := some {} }
          (Or.inl heqp) hdec
        split at hr
        · rename_i heqPP
          have hx := ppLoop_spec ext param config payload (payload.length + 2) 0 []
            FgError.httpHeaderParseFailed _ (by omega) (by omega)
            (by rw [heqC]; rfl) HD3
          rw [heqPP] at hx
          simp at hx
        · rename_i log4 infos lastE heqPP
          try dsimp only at hr
          repeat' split at hr
          all_goals (subst hr; rfl)
      · -- gRPC
        rename_i heqp
        try dsimp only at hr
        have HD3 := v2StateOk_setup ext param.direction { log with perfStats := some {} }
          (Or.inr heqp) hdec
        split at hr
        · rename_i heqPP
          have hx := ppLoop_spec ext param config payload (payload.length + 2) 0 []
            FgError.httpHeaderParseFailed _ (by omega) (by omega)
            (by rw [heqC]; rfl) HD3
          rw [heqPP] at hx
          simp at hx
        · rename_i log4 infos lastE heqPP
          try dsimp only at hr
          repeat' split at hr
          all_goals (subst hr; rfl)
      · -- other protocols are excluded by the hypothesis
        rename_i h1 h2 h3
        rcases hp with hp | hp | hp
        · exact absurd hp h1
        · exact absurd hp h2
        · exact absurd hp h3
    · rw [if_neg hperf] at hr
      split at hr
      · -- HTTP/1
        rename_i heqp
        try dsimp only at hr
        split at hr
        · rename_i heqV1
          have hx := (parseHttpV1_spec param payload log
            { proto := log.proto, isTls := param.isTls } (by rw [heqC]; rfl)).1
          rw [heqV1] at hx
          simp at hx
        · subst hr
          rfl
        · rename_i log2 info2 heqV1
          try dsimp only at hr
          split at hr
          · rename_i heqS
            have hps : log2.proto = L7Protocol.http1 ∨ log2.proto = L7Protocol.http2
                ∨ log2.proto = L7Protocol.grpc := by
              rcases (parseHttpV1_spec param payload log
                  { proto := log.proto, isTls := param.isTls }
                  (by rw [heqC]; rfl)).2 log2 info2 none heqV1 with h | h
              · exact Or.inl (h.trans heqp)
              · exact Or.inr (Or.inr h)
            have hx := (setInfoByConfig_spec param config log2 info2 hps).1
            rw [heqS] at hx
            simp at hx
          · rename_i log3 info3 heqS
            try dsimp only at hr
            repeat' split at hr
            all_goals (subst hr; rfl)
      · -- HTTP/2
        rename_i heqp
        try dsimp only at hr
        have HD3 := v2StateOk_setup ext param.direction log
          (Or.inl heqp) hdec
        split at hr
        · rename_i heqPP
          have hx := ppLoop_spec ext param config payload (payload.length + 2) 0 []
            FgError.httpHeaderParseFailed _ (by omega) (by omega)
            (by rw [heqC]; rfl) HD3
          rw [heqPP] at hx
          simp at hx
        · rename_i log4 infos lastE heqPP
          try dsimp only at hr
          repeat' split at hr
          all_goals (subst hr; rfl)
      · -- gRPC
        rename_i heqp
        try dsimp only at hr
        have HD3 := v2StateOk_setup ext param.direction log
          (Or.inr heqp) hdec
        split at hr
        · rename_i heqPP
          have hx := ppLoop_spec ext param config payload (payload.length + 2) 0 []
            FgError.httpHeaderParseFailed _ (by omega) (by omega)
            (by rw [heqC]; rfl) HD3
          rw [heqPP] at hx
          simp at hx
        · rename_i log4 infos lastE heqPP
          try dsimp only at hr
          repeat' split at hr
          all_goals (subst hr; rfl)
      · -- other protocols are excluded by the hypothesis
        rename_i h1 h2 h3
        rcases hp with hp | hp | hp
        · exact absurd hp h1
        · exact absurd hp h2
        · exact absurd hp h3

/-- **C1**: for every byte payload (of any length, including empty) and
any invocation context, the `check_payload` and `parse_payload` entry
points of both the HTTP and the MySQL parser return normally — a verdict
or an `Ok`/typed-`Err` result — and never panic (`isSome` of the
embedding, where `none` marks a panic).  The MySQL side is unconditional;
the HTTP side assumes the structural parser-state invariant that the
per-flow protocol is one of the three HTTP flavours and that the two
hpack decoders are only ever initialised together. -/
theorem entry_points_total (ext : Http.HExt) (mext : Mysql.MExt)
    (hlog : Http.HttpLogSt) (mst : Mysql.MysqlLogSt)
    (payload : List Nat) (param : ParseParam)
    (hp : hlog.proto = L7Protocol.http1 ∨ hlog.proto = L7Protocol.http2
      ∨ hlog.proto = L7Protocol.grpc)
    (hdec : hlog.http2ReqDecoder.isSome = true →
      hlog.http2RespDecoder.isSome = true) :
    (Http.checkPayload ext hlog payload param).isSome = true ∧
    (Http.parsePayload ext hlog payload param).isSome = true ∧
    (Mysql.checkPayload mext mst payload param).isSome = true ∧
    (Mysql.parsePayload mext mst payload param).isSome = true :=
  ⟨http_checkPayload_isSome ext hlog payload param hp hdec,
   http_parsePayload_isSome ext hlog payload param hp hdec,
   mysql_checkPayload_isSome mext mst payload param,
   mysql_parsePayload_isSome mext mst payload param⟩

/-- Witness for C1: the fresh parser states satisfy the invariant, and on
a concrete two-byte payload all four entry points return normally. -/
theorem entry_points_total_witness :
    (({} : Http.HttpLogSt).proto = L7Protocol.http1
      ∨ ({} : Http.HttpLogSt).proto = L7Protocol.http2
      ∨ ({} : Http.HttpLogSt).proto = L7Protocol.grpc) ∧
    (({} : Http.HttpLogSt).http2ReqDecoder.isSome = true →
      ({} : Http.HttpLogSt).http2RespDecoder.isSome = true) ∧
    ((Http.checkPayload {} {} [0, 1] {}).isSome = true ∧
     (Http.parsePayload {} {} [0, 1] {}).isSome = true ∧
     (Mysql.checkPayload {} {} [0, 1] {}).isSome = true ∧
     (Mysql.parsePayload {} {} [0, 1] {}).isSome = true) :=
  ⟨Or.inl rfl, by decide,
   entry_points_total {} {} {} {} [0, 1] {} (Or.inl rfl) (by decide)⟩

end DeepFlow
